import Mathlib

/-!
# FOEDUS core: transaction read/write sets and the log writer

A shallow embedding of

* `foedus-core/include/foedus/xct/xct_inl.hpp` (`Xct::add_to_read_set`,
  `Xct::add_to_write_set`), and
* `foedus-core/src/foedus/log/logger_impl.cpp` (`Logger::flush_log`,
  `Logger::write_log`, `Logger::switch_current_epoch`).

Conventions of the embedding.

* Member functions become functions on an explicit state value and return the
  new state next to their C++ return value.
* `ASSERT_ND` is compiled out (the `NDEBUG` build); every assertion site is
  kept as a comment at the place it has in the source.
* A call that does not return to its caller ends in one of the `Outcome`
  constructors other than `returns`.
* Unsigned 64-bit arithmetic is arithmetic on `Nat` reduced modulo `2 ^ 64`.
* Memory is a `List` of bytes (`Nat` below 256); structs are stored
  little-endian, the byte order of the two supported targets (x86-64, ARMv8).
-/

namespace foedus

/-- Modelled from the spec: the error kinds `OK`, `READ_SET_OVERFLOW`,
`WRITE_SET_OVERFLOW` under the names the source gives them, and one code for a
failed file write (the spec's `IO_ERROR`); the enum itself is declared outside
the sources at hand. An `ErrorStack` is represented by its code, `RET_OK` by
`ERROR_CODE_OK`. -/
inductive ErrorCode where
  | ERROR_CODE_OK
  | ERROR_CODE_XCT_READ_SET_OVERFLOW
  | ERROR_CODE_XCT_WRITE_SET_OVERFLOW
  | ERROR_CODE_FS_WRITE_FAILED
  | ERROR_CODE_FS_FAILED_TO_OPEN
  | ERROR_CODE_FS_TRUNCATE_FAILED
  deriving DecidableEq, Repr, Inhabited

/-- The result of running a call: it returns a value, or it never gets back to
its caller. -/
inductive Outcome (α : Type) where
  /-- The call returned. -/
  | returns (a : α)
  /-- The call waits for another thread forever. -/
  | blocked
  /-- The call did not finish within the given number of steps. -/
  | out_of_fuel
  /-- The call touched memory outside the object it was given. -/
  | out_of_bounds
  /-- The call terminated the process (`COERCE_ERROR`). -/
  | aborted
  deriving DecidableEq, Repr

namespace xct

/-- Modelled from the spec: the isolation levels. The two dirty-read levels
are the ones `xct_inl.hpp` names; the enum is declared outside the sources at
hand. -/
inductive IsolationLevel where
  | DIRTY_READ_PREFER_SNAPSHOT
  | DIRTY_READ_PREFER_VOLATILE
  | SNAPSHOT
  | SERIALIZABLE
  deriving DecidableEq, Repr, Inhabited

/-- Modelled from the spec: the record version word `XctId` ("epoch, in-epoch
ordinal, and a lock bit"); its declaration, `xct_id.hpp`, is not among the
sources. -/
structure XctId where
  epoch : Nat
  ordinal : Nat
  locked : Bool
  deriving DecidableEq, Repr, Inhabited

/-- Modelled from the spec: `XctId::is_locked`, the lock bit of the word. -/
def XctId.is_locked (id : XctId) : Bool := id.locked

/-- Modelled from the spec: `XctId::spin_while_locked` ("spin until
unlocked"). The embedding is single-threaded: nobody else clears the lock bit,
so the wait on a locked word never ends. -/
def XctId.spin_while_locked (id : XctId) : Outcome Unit :=
  if id.is_locked then Outcome.blocked else Outcome.returns ()

/-- Modelled from the spec: a record ("an XctId followed by a payload") as seen
through a `storage::Record*`: the pointer value and the owner id stored in the
pointee. -/
structure Record where
  address : Nat
  owner_id_ : XctId
  deriving DecidableEq, Repr, Inhabited

/-- Modelled from the spec: a read-set entry `XctAccess`
(`{storage_id, record_ref, observed_xct_id}`); pointers are addresses. -/
structure XctAccess where
  observed_owner_id_ : XctId
  storage_ : Nat
  record_ : Nat
  deriving DecidableEq, Repr, Inhabited

/-- Modelled from the spec: a write-set entry `WriteXctAccess`
(`{storage_id, record_ref, observed_xct_id, log_record_ref}`). -/
structure WriteXctAccess where
  observed_owner_id_ : XctId
  storage_ : Nat
  record_ : Nat
  log_entry_ : Nat
  deriving DecidableEq, Repr, Inhabited

/-- Modelled from the spec: the transaction context
`{isolation, read_set[≤R_max], write_set[≤W_max]}`, with the member names
`xct_inl.hpp` uses (`xct.hpp` is not among the sources). `read_set_` and
`write_set_` are the preallocated arrays behind the two pointers. -/
structure Xct where
  isolation_level_ : IsolationLevel
  read_set_ : List XctAccess
  read_set_size_ : Nat
  max_read_set_size_ : Nat
  write_set_ : List WriteXctAccess
  write_set_size_ : Nat
  max_write_set_size_ : Nat
  deriving DecidableEq, Repr, Inhabited

/-- The two dirty-read isolation levels tested at `xct_inl.hpp:32-33`. -/
def IsolationLevel.is_dirty_read (l : IsolationLevel) : Bool :=
  l == IsolationLevel.DIRTY_READ_PREFER_SNAPSHOT || l == IsolationLevel.DIRTY_READ_PREFER_VOLATILE

/-- `Xct::add_to_read_set` (`xct_inl.hpp:29-58`). -/
def Xct.add_to_read_set (x : Xct) (storage : Nat) (record : Record) :
    Outcome (ErrorCode × Xct) :=
  -- ASSERT_ND(storage); ASSERT_ND(record);
  if x.isolation_level_ = IsolationLevel.DIRTY_READ_PREFER_SNAPSHOT
      ∨ x.isolation_level_ = IsolationLevel.DIRTY_READ_PREFER_VOLATILE then
    Outcome.returns (ErrorCode.ERROR_CODE_OK, x)
  else if x.read_set_size_ ≥ x.max_read_set_size_ then
    Outcome.returns (ErrorCode.ERROR_CODE_XCT_READ_SET_OVERFLOW, x)
  else
    -- ASSERT_ND(record->owner_id_.data_.components.epoch().is_valid());
    let waited : Outcome Unit :=
      if record.owner_id_.is_locked then record.owner_id_.spin_while_locked
      else Outcome.returns ()
    match waited with
    | Outcome.returns _ =>
      let slot : XctAccess :=
        { observed_owner_id_ := record.owner_id_
          storage_ := storage
          record_ := record.address }
      Outcome.returns (ErrorCode.ERROR_CODE_OK,
        { x with
          read_set_ := x.read_set_.set x.read_set_size_ slot
          read_set_size_ := x.read_set_size_ + 1 })
    | Outcome.blocked => Outcome.blocked
    | Outcome.out_of_fuel => Outcome.out_of_fuel
    | Outcome.out_of_bounds => Outcome.out_of_bounds
    | Outcome.aborted => Outcome.aborted

/-- `Xct::add_to_write_set` (`xct_inl.hpp:59-78`). -/
def Xct.add_to_write_set (x : Xct) (storage : Nat) (record : Record) (log_entry : Nat) :
    ErrorCode × Xct :=
  -- ASSERT_ND(storage); ASSERT_ND(record); ASSERT_ND(log_entry);
  if x.write_set_size_ ≥ x.max_write_set_size_ then
    (ErrorCode.ERROR_CODE_XCT_WRITE_SET_OVERFLOW, x)
  else
    -- log::invoke_assert_valid(log_entry): debug build only
    let slot : WriteXctAccess :=
      { observed_owner_id_ := record.owner_id_
        storage_ := storage
        record_ := record.address
        log_entry_ := log_entry }
    (ErrorCode.ERROR_CODE_OK,
      { x with
        write_set_ := x.write_set_.set x.write_set_size_ slot
        write_set_size_ := x.write_set_size_ + 1 })

/-- A caller that issues `add_to_read_set` once per element of `calls`, in
order, and collects the returned codes. -/
def read_all : Xct → List (Nat × Record) → Outcome (List ErrorCode × Xct)
  | x, [] => Outcome.returns ([], x)
  | x, c :: cs =>
    match x.add_to_read_set c.1 c.2 with
    | Outcome.returns (e, x1) =>
      match read_all x1 cs with
      | Outcome.returns (es, x2) => Outcome.returns (e :: es, x2)
      | Outcome.blocked => Outcome.blocked
      | Outcome.out_of_fuel => Outcome.out_of_fuel
      | Outcome.out_of_bounds => Outcome.out_of_bounds
      | Outcome.aborted => Outcome.aborted
    | Outcome.blocked => Outcome.blocked
    | Outcome.out_of_fuel => Outcome.out_of_fuel
    | Outcome.out_of_bounds => Outcome.out_of_bounds
    | Outcome.aborted => Outcome.aborted

/-- The bound `read_set[≤R_max], write_set[≤W_max]` on the two set sizes. -/
def Xct.sizes_bounded (x : Xct) : Prop :=
  x.read_set_size_ ≤ x.max_read_set_size_ ∧ x.write_set_size_ ≤ x.max_write_set_size_

instance (x : Xct) : Decidable x.sizes_bounded := by
  unfold Xct.sizes_bounded; infer_instance

/-- A sample unlocked record at address 100. -/
def sample_record : Record :=
  { address := 100, owner_id_ := { epoch := 3, ordinal := 1, locked := false } }

/-- A sample record whose owner id has the lock bit set. -/
def sample_locked_record : Record :=
  { address := 200, owner_id_ := { epoch := 3, ordinal := 2, locked := true } }

/-- A sample serializable transaction with room for two reads and two writes,
both sets empty. -/
def sample_xct : Xct :=
  { isolation_level_ := IsolationLevel.SERIALIZABLE
    read_set_ := [default, default]
    read_set_size_ := 0
    max_read_set_size_ := 2
    write_set_ := [default, default]
    write_set_size_ := 0
    max_write_set_size_ := 2 }

/-- A sample dirty-read transaction whose read set and write set are full. -/
def sample_full_dirty_xct : Xct :=
  { isolation_level_ := IsolationLevel.DIRTY_READ_PREFER_VOLATILE
    read_set_ := [default, default]
    read_set_size_ := 2
    max_read_set_size_ := 2
    write_set_ := [default, default]
    write_set_size_ := 2
    max_write_set_size_ := 2 }

end xct

/-- Monadic sequencing for `Outcome`: a call that does not return stops the
caller as well. -/
def Outcome.bind {α β : Type} : Outcome α → (α → Outcome β) → Outcome β
  | Outcome.returns a, f => f a
  | Outcome.blocked, _ => Outcome.blocked
  | Outcome.out_of_fuel, _ => Outcome.out_of_fuel
  | Outcome.out_of_bounds, _ => Outcome.out_of_bounds
  | Outcome.aborted, _ => Outcome.aborted

namespace log

/-- Unsigned 64-bit addition. -/
def add64 (a b : Nat) : Nat := (a + b) % 2 ^ 64

/-- Unsigned 64-bit subtraction of two values below `2 ^ 64`. -/
def sub64 (a b : Nat) : Nat := (a + 2 ^ 64 - b) % 2 ^ 64

/-- The `n` low-order bytes of `v`, least significant first: the bytes a store
of an `n`-byte unsigned integer puts into memory. -/
def le_bytes : Nat → Nat → List Nat
  | 0, _ => []
  | n + 1, v => v % 256 :: le_bytes n (v / 256)

/-- Memory after storing `bytes` at `offset` (the store lies inside `mem`
whenever `offset + bytes.length ≤ mem.length`; callers check that). -/
def store (mem : List Nat) (offset : Nat) (bytes : List Nat) : List Nat :=
  mem.take offset ++ bytes ++ mem.drop (offset + bytes.length)

/-- The `n` bytes of `mem` starting at `offset`. -/
def load (mem : List Nat) (offset n : Nat) : List Nat :=
  (mem.drop offset).take n

/-- Modelled from the spec: `xct::Epoch`, "a 32-bit value with value 0 reserved
as invalid"; `epoch.hpp` is not among the sources. -/
structure Epoch where
  epoch_ : Nat
  deriving DecidableEq, Repr, Inhabited

/-- Modelled from the spec: the default-constructed `Epoch()`, the invalid
epoch 0. -/
def Epoch.invalid : Epoch := { epoch_ := 0 }

/-- Modelled from the spec: `Epoch::is_valid`. -/
def Epoch.is_valid (e : Epoch) : Bool := e.epoch_ != 0

/-- Modelled from the spec: `a < b` iff `(b - a) mod 2^32` lies in
`(0, 2^31)`. -/
def Epoch.before (a b : Epoch) : Bool :=
  0 < (b.epoch_ + 2 ^ 32 - a.epoch_ % 2 ^ 32) % 2 ^ 32
    && (b.epoch_ + 2 ^ 32 - a.epoch_ % 2 ^ 32) % 2 ^ 32 < 2 ^ 31

/-- The log types whose code `logger_impl.cpp` asks for. -/
inductive LogType where
  | FillerLogType
  | EpochMarkerLogType
  deriving DecidableEq, Repr

/-- Modelled from the spec: the common header of every log record,
`{storage_id: u32, log_length: u16, log_type_code: u16}`. -/
structure LogHeader where
  storage_id_ : Nat
  log_length_ : Nat
  log_type_code_ : Nat
  deriving DecidableEq, Repr, Inhabited

/-- The size of `LogHeader` in bytes. -/
def LogHeader.size : Nat := 8

/-- The bytes of a header in memory; each field is truncated to its width. -/
def LogHeader.encode (h : LogHeader) : List Nat :=
  le_bytes 4 h.storage_id_ ++ le_bytes 2 h.log_length_ ++ le_bytes 2 h.log_type_code_

/-- The unsigned value of little-endian bytes. -/
def le_value : List Nat → Nat
  | [] => 0
  | b :: bs => b + 256 * le_value bs

/-- The header read back from the first eight bytes of `bytes`. -/
def LogHeader.decode (bytes : List Nat) : LogHeader :=
  { storage_id_ := le_value (load bytes 0 4)
    log_length_ := le_value (load bytes 4 2)
    log_type_code_ := le_value (load bytes 6 2) }

/-- Modelled from the spec: `FillerLogType::LOG_WRITE_UNIT_SIZE`, the 4 KiB
unit of direct I/O. -/
def LOG_WRITE_UNIT_SIZE : Nat := 4096

/-- Modelled from the spec: `EpochMarkerLogType`, a header followed by
`{old_epoch, new_epoch}`. -/
structure EpochMarkerLogType where
  header_ : LogHeader
  old_epoch_ : Epoch
  new_epoch_ : Epoch
  deriving DecidableEq, Repr, Inhabited

/-- The value of `sizeof(EpochMarkerLogType)`: the header and two 32-bit
epochs. -/
def EpochMarkerLogType.size : Nat := 16

/-- The bytes of an epoch marker in memory. -/
def EpochMarkerLogType.encode (m : EpochMarkerLogType) : List Nat :=
  m.header_.encode ++ le_bytes 4 m.old_epoch_.epoch_ ++ le_bytes 4 m.new_epoch_.epoch_

/-- The epoch marker read back from the first sixteen bytes of `bytes`. -/
def EpochMarkerLogType.decode (bytes : List Nat) : EpochMarkerLogType :=
  { header_ := LogHeader.decode bytes
    old_epoch_ := { epoch_ := le_value (load bytes 8 4) }
    new_epoch_ := { epoch_ := le_value (load bytes 12 4) } }

/-- Modelled from the spec: `fs::DirectIoFile` as the logger uses it, an
append-only byte sequence. `device_ok` is the environment: whether the device
accepts the next write. -/
structure DirectIoFile where
  content : List Nat
  device_ok : Bool
  deriving DecidableEq, Repr, Inhabited

/-- Modelled from the spec: `DirectIoFile::write(desired_bytes, buffer)` appends
the first `desired_bytes` bytes of `buffer`; it reports an error, writing
nothing, when the device fails or the buffer is shorter than that. -/
def DirectIoFile.write (f : DirectIoFile) (desired_bytes : Nat) (buffer : List Nat) :
    ErrorCode × DirectIoFile :=
  if f.device_ok = true ∧ desired_bytes ≤ buffer.length then
    (ErrorCode.ERROR_CODE_OK, { f with content := f.content ++ buffer.take desired_bytes })
  else
    (ErrorCode.ERROR_CODE_FS_WRITE_FAILED, f)

/-- Modelled from the spec: an epoch mark `{epoch, end_offset, open_ended}` of
a thread log buffer, saying which bytes belong to which epoch. -/
structure EpochMark where
  epoch : Epoch
  end_offset : Nat
  open_ended : Bool
  deriving DecidableEq, Repr, Inhabited

/-- Modelled from the spec: the thread log buffer, "a circular byte buffer"
with its cursors and the epoch mark the logger is consuming, under the member
names `logger_impl.cpp` uses (`thread_log_buffer_impl.hpp` is not among the
sources). -/
structure ThreadLogBuffer where
  thread_id_ : Nat
  buffer_ : List Nat
  buffer_size_ : Nat
  offset_durable_ : Nat
  offset_current_xct_begin_ : Nat
  logger_epoch_ : Epoch
  logger_epoch_open_ended_ : Bool
  logger_epoch_ends_ : Nat
  epoch_marks_ : List EpochMark := []
  deriving DecidableEq, Repr, Inhabited

/-- Modelled from the spec: the accessor `ThreadLogBuffer::get_offset_durable`
of the `durable_offset` cursor. -/
def ThreadLogBuffer.get_offset_durable (b : ThreadLogBuffer) : Nat := b.offset_durable_

/-- The members of `class Logger` (`logger_impl.hpp:57-106`) used by the
modelled functions. `logger_buffer_` is the memory behind the
`AlignedMemorySlice` (its `size()` is the length of the list),
`log_file_size_mb_` is `engine_->get_options().log_.log_file_size_mb_`. -/
structure Logger where
  id_ : Nat
  log_path_ : String
  logger_buffer_ : List Nat
  logger_buffer_cursor_ : Nat
  current_epoch_ : Epoch
  durable_epoch_ : Epoch
  oldest_ordinal_ : Nat
  current_ordinal_ : Nat
  current_file_ : DirectIoFile
  current_file_path_ : String
  current_file_offset_end_ : Nat
  log_file_size_mb_ : Nat
  deriving DecidableEq, Repr, Inhabited

/-- `Logger::flush_log` (`logger_impl.cpp:202-226`). `get_log_code` stands for
the template `get_log_code<T>()` of `log_type.hpp`. -/
def Logger.flush_log (get_log_code : LogType → Nat) (l : Logger) :
    Outcome (ErrorCode × Logger) :=
  if l.logger_buffer_cursor_ = 0 then
    Outcome.returns (ErrorCode.ERROR_CODE_OK, l)
  else
    -- we must write in 4kb unit. pad it with a filler.
    let padded : Outcome Logger :=
      if l.logger_buffer_cursor_ % LOG_WRITE_UNIT_SIZE ≠ 0 then
        let filler_size := LOG_WRITE_UNIT_SIZE - l.logger_buffer_cursor_ % LOG_WRITE_UNIT_SIZE
        if l.logger_buffer_cursor_ + LogHeader.size ≤ l.logger_buffer_.length then
          Outcome.returns
            { l with
              logger_buffer_ := store l.logger_buffer_ l.logger_buffer_cursor_
                (LogHeader.encode
                  { storage_id_ := 0
                    log_length_ := filler_size
                    log_type_code_ := get_log_code LogType.FillerLogType })
              logger_buffer_cursor_ := add64 l.logger_buffer_cursor_ filler_size }
        else
          Outcome.out_of_bounds
      else
        Outcome.returns l
    padded.bind fun l1 =>
      -- const uint64_t max_file_size = (log_file_size_mb_ << 20);
      -- if (logger_buffer_cursor_ + current_file_offset_end_ > max_file_size) { TODO }
      let written := l1.current_file_.write l1.logger_buffer_cursor_ l1.logger_buffer_
      if written.1 ≠ ErrorCode.ERROR_CODE_OK then
        Outcome.returns (written.1, { l1 with current_file_ := written.2 })
      else
        Outcome.returns (ErrorCode.ERROR_CODE_OK,
          { l1 with current_file_ := written.2, logger_buffer_cursor_ := 0 })

/-- The `while` loop of `Logger::write_log` (`logger_impl.cpp:244-254`), one
iteration per unit of fuel. -/
def Logger.write_log_loop (get_log_code : LogType → Nat) :
    Nat → Logger → ThreadLogBuffer → Nat → Nat → Outcome (ErrorCode × Logger)
  | 0, _, _, _, _ => Outcome.out_of_fuel
  | fuel + 1, l, buffer, from_offset, upto_offset =>
    if from_offset < upto_offset then
      let flushed : Outcome (ErrorCode × Logger) :=
        if l.logger_buffer_.length = l.logger_buffer_cursor_ then l.flush_log get_log_code
        else Outcome.returns (ErrorCode.ERROR_CODE_OK, l)
      flushed.bind fun r =>
        if r.1 ≠ ErrorCode.ERROR_CODE_OK then
          Outcome.returns r
        else
          let l1 := r.2
          let write_size := min (upto_offset - from_offset)
            (sub64 l1.logger_buffer_.length l1.logger_buffer_cursor_)
          if from_offset + write_size ≤ buffer.buffer_.length
              ∧ l1.logger_buffer_cursor_ + write_size ≤ l1.logger_buffer_.length then
            Logger.write_log_loop get_log_code fuel
              { l1 with
                logger_buffer_ := store l1.logger_buffer_ l1.logger_buffer_cursor_
                  (load buffer.buffer_ from_offset write_size)
                logger_buffer_cursor_ := add64 l1.logger_buffer_cursor_ write_size }
              buffer (add64 from_offset write_size) upto_offset
          else
            Outcome.out_of_bounds
    else
      Outcome.returns (ErrorCode.ERROR_CODE_OK, l)

/-- `Logger::write_log` (`logger_impl.cpp:228-256`); `fuel` bounds the depth
of the recursion and the number of loop iterations. The buffer is passed by
pointer in the source, so it is returned next to the logger. -/
def Logger.write_log (get_log_code : LogType → Nat) :
    Nat → Logger → ThreadLogBuffer → Nat → Outcome (ErrorCode × Logger × ThreadLogBuffer)
  | 0, _, _, _ => Outcome.out_of_fuel
  | fuel + 1, l, buffer, upto_offset =>
    let from_offset := buffer.get_offset_durable
    -- ASSERT_ND(from_offset != upto_offset);
    if from_offset > upto_offset then
      -- this means wrap-around in the buffer
      (Logger.write_log get_log_code fuel l buffer buffer.buffer_size_).bind fun r1 =>
        if r1.1 ≠ ErrorCode.ERROR_CODE_OK then
          Outcome.returns r1
        else
          -- ASSERT_ND(buffer->get_offset_durable() == 0);
          (Logger.write_log get_log_code fuel r1.2.1 r1.2.2 upto_offset).bind fun r2 =>
            if r2.1 ≠ ErrorCode.ERROR_CODE_OK then
              Outcome.returns r2
            else
              -- ASSERT_ND(buffer->get_offset_durable() == upto_offset);
              Outcome.returns (ErrorCode.ERROR_CODE_OK, r2.2.1, r2.2.2)
    else
      (Logger.write_log_loop get_log_code fuel l buffer from_offset upto_offset).bind fun r =>
        Outcome.returns (r.1, r.2, buffer)

/-- `Logger::switch_current_epoch` (`logger_impl.cpp:182-200`). -/
def Logger.switch_current_epoch (get_log_code : LogType → Nat) (l : Logger)
    (new_epoch : Epoch) : Outcome Logger :=
  -- ASSERT_ND(new_epoch.is_valid());
  -- ASSERT_ND(current_epoch_ < new_epoch);
  (l.flush_log get_log_code).bind fun r =>
    if r.1 ≠ ErrorCode.ERROR_CODE_OK then
      -- COERCE_ERROR(flush_log())
      Outcome.aborted
    else
      let l1 := r.2
      -- ASSERT_ND(logger_buffer_cursor_ + sizeof(EpochMarkerLogType) <= logger_buffer_.size());
      if l1.logger_buffer_cursor_ + EpochMarkerLogType.size ≤ l1.logger_buffer_.length then
        Outcome.returns
          { l1 with
            logger_buffer_ := store l1.logger_buffer_ l1.logger_buffer_cursor_
              (EpochMarkerLogType.encode
                { header_ :=
                    { storage_id_ := 0
                      log_length_ := EpochMarkerLogType.size
                      log_type_code_ := get_log_code LogType.EpochMarkerLogType }
                  old_epoch_ := l1.current_epoch_
                  new_epoch_ := new_epoch })
            logger_buffer_cursor_ := add64 l1.logger_buffer_cursor_ EpochMarkerLogType.size
            current_epoch_ := new_epoch }
      else
        Outcome.out_of_bounds

/-- The bytes the logger has emitted so far, in order: what is in the file,
then what is in the I/O buffer below the cursor. -/
def Logger.output_stream (l : Logger) : List Nat :=
  l.current_file_.content ++ l.logger_buffer_.take l.logger_buffer_cursor_

/-- The I/O buffer is usable for direct I/O: a positive multiple of the 4 KiB
write unit, addressable with 64 bits, the cursor inside it. -/
def Logger.io_ready (l : Logger) : Prop :=
  0 < l.logger_buffer_.length
    ∧ l.logger_buffer_.length % LOG_WRITE_UNIT_SIZE = 0
    ∧ l.logger_buffer_.length < 2 ^ 64
    ∧ l.logger_buffer_cursor_ ≤ l.logger_buffer_.length

/-- State `l1` is `l` after exactly `bytes` were appended to its output, with
the I/O buffer still usable and the device still accepting writes. -/
def Logger.emitted (l l1 : Logger) (bytes : List Nat) : Prop :=
  l1.io_ready
    ∧ l1.current_file_.device_ok = true
    ∧ l1.logger_buffer_.length = l.logger_buffer_.length
    ∧ l1.output_stream = l.output_stream ++ bytes

/-- Sample log type codes. -/
def sample_get_log_code : LogType → Nat
  | LogType.FillerLogType => 1
  | LogType.EpochMarkerLogType => 2

/-- A sample logger: an empty log file on a working device, a zeroed 4 KiB
I/O buffer with the cursor at 0, current epoch 3. -/
def sample_logger : Logger :=
  { id_ := 0
    log_path_ := "log"
    logger_buffer_ := List.replicate 4096 0
    logger_buffer_cursor_ := 0
    current_epoch_ := { epoch_ := 3 }
    durable_epoch_ := Epoch.invalid
    oldest_ordinal_ := 0
    current_ordinal_ := 0
    current_file_ := { content := [], device_ok := true }
    current_file_path_ := "log.0"
    current_file_offset_end_ := 0
    log_file_size_mb_ := 1 }

/-- A sample thread log buffer of 8 bytes, nothing durable yet, 4 committed
bytes of epoch 3. -/
def sample_buffer : ThreadLogBuffer :=
  { thread_id_ := 0
    buffer_ := [1, 2, 3, 4, 5, 6, 7, 8]
    buffer_size_ := 8
    offset_durable_ := 0
    offset_current_xct_begin_ := 4
    logger_epoch_ := { epoch_ := 3 }
    logger_epoch_open_ended_ := true
    logger_epoch_ends_ := 0 }

/-- A sample logger with an 8 KiB I/O buffer whose cursor, 4095, is one byte
short of the first 4 KiB unit. -/
def sample_unaligned_logger : Logger :=
  { sample_logger with
    logger_buffer_ := List.replicate 8192 0
    logger_buffer_cursor_ := 4095 }

/-- A sample logger whose cursor, 4095, is one byte short of the end of its
4 KiB I/O buffer. -/
def sample_tail_logger : Logger :=
  { sample_logger with logger_buffer_cursor_ := 4095 }

/-- A sample logger with 40 buffered bytes waiting in its I/O buffer. -/
def sample_pending_logger : Logger :=
  { sample_logger with logger_buffer_cursor_ := 40 }

/-- A sample logger with a full I/O buffer whose device rejects writes. -/
def sample_failing_logger : Logger :=
  { sample_logger with
    logger_buffer_cursor_ := 4096
    current_file_ := { content := [], device_ok := false } }

/-- The sample buffer with the committed region wrapping around its end:
durable up to 6, committed up to 2. -/
def sample_wrapped_buffer : ThreadLogBuffer :=
  { sample_buffer with offset_durable_ := 6, offset_current_xct_begin_ := 2 }

end log

end foedus

namespace foedus.thread

open foedus

/-- The state of `class Rendezvous` (`rendezvous_impl.hpp:125-131`) that its
member functions read and write; the mutex and the condition variable carry no
data. -/
structure Rendezvous where
  signaled_ : Bool
  deriving DecidableEq, Repr, Inhabited

/-- The constructor `Rendezvous() : signaled_(false)`. -/
def Rendezvous.construct : Rendezvous := { signaled_ := false }

/-- `Rendezvous::is_signaled` (`rendezvous_impl.hpp:118-121`); the acquire
fence has no effect on a single thread. -/
def Rendezvous.is_signaled (r : Rendezvous) : Bool := r.signaled_

/-- `Rendezvous::signal` (`rendezvous_impl.hpp:108-115`). -/
def Rendezvous.signal (r : Rendezvous) : Rendezvous :=
  -- ASSERT_ND(!is_signaled());
  { r with signaled_ := true }

/-- `Rendezvous::wait` (`rendezvous_impl.hpp:50-61`). `signal_arrives` is the
environment: whether another thread calls `signal` while this one sleeps on
the condition variable; if none does, the call never returns. -/
def Rendezvous.wait (r : Rendezvous) (signal_arrives : Bool) : Outcome Rendezvous :=
  if r.is_signaled then
    Outcome.returns r
  else if r.is_signaled then
    -- checked again after taking the lock
    Outcome.returns r
  else if signal_arrives then
    Outcome.returns { r with signaled_ := true }
  else
    Outcome.blocked

/-- `Rendezvous::wait_for` (`rendezvous_impl.hpp:69-79`). The timed wait on
the condition variable returns the value of the predicate `is_signaled()` when
it ends: true when another thread signalled within `timeout`, false at the
timeout. -/
def Rendezvous.wait_for (r : Rendezvous) (timeout : Nat) (signal_arrives : Bool) :
    Bool × Rendezvous :=
  if r.is_signaled then
    (true, r)
  else if r.is_signaled then
    (true, r)
  else if signal_arrives ∧ 0 < timeout then
    (true, { r with signaled_ := true })
  else
    (false, r)

/-- What a caller can hand to a timed wait as its time: a
`std::chrono::duration` or a `std::chrono::time_point`, in clock ticks. -/
inductive TimeArgument where
  | duration (ticks : Nat)
  | time_point (ticks : Nat)
  deriving DecidableEq, Repr

/-- The timed wait of the C++ standard library,
`std::condition_variable::wait_for<Rep, Period>(lock, rel_time, pred)`: its
second parameter is a `std::chrono::duration<Rep, Period>`, so with a
`time_point` as argument no function matches and the call is ill-formed
(`none`). With a duration it returns the value of the predicate when the wait
ends, here whether the signal arrives within the duration. -/
def condition_wait_for (rel_time : TimeArgument) (signal_arrives : Bool) : Option Bool :=
  match rel_time with
  | TimeArgument.duration ticks => some (decide (signal_arrives ∧ 0 < ticks))
  | TimeArgument.time_point _ => none

/-- `Rendezvous::wait_until<CLOCK, DURATION>` (`rendezvous_impl.hpp:87-99`) for
the time point `until_`. The last statement of its body is
`condition_.wait_for<CLOCK, DURATION>(the_lock, until, ...)`: it hands the time
point `until` to `wait_for`. A member function template is instantiated as a
whole, so where that call is ill-formed every call of `wait_until` is, also one
that would return at the first test: the result is `none`, there is no such
program. -/
def Rendezvous.wait_until (r : Rendezvous) (until_ : Nat) (signal_arrives : Bool) :
    Option (Bool × Rendezvous) :=
  match condition_wait_for (TimeArgument.time_point until_) signal_arrives with
  | none => none
  | some woken =>
    if r.is_signaled then
      some (true, r)
    else if r.is_signaled then
      some (true, r)
    else if woken then
      some (true, { r with signaled_ := true })
    else
      some (false, r)

/-- The operations of a `Rendezvous` a thread can call, with their arguments
and the behaviour of the environment during the call; `wait_until` is not among
them, no call of it compiles. -/
inductive RendezvousCall where
  | signal
  | is_signaled
  | wait (signal_arrives : Bool)
  | wait_for (timeout : Nat) (signal_arrives : Bool)
  deriving DecidableEq, Repr

/-- The state of the rendezvous after a call, when the call returns. -/
def Rendezvous.after (r : Rendezvous) : RendezvousCall → Outcome Rendezvous
  | RendezvousCall.signal => Outcome.returns r.signal
  | RendezvousCall.is_signaled => Outcome.returns r
  | RendezvousCall.wait a => r.wait a
  | RendezvousCall.wait_for t a => Outcome.returns (r.wait_for t a).2

end foedus.thread

namespace foedus.storage.array

open foedus

/-- Modelled from the spec: `kInteriorFanout`, the number of pointers in an
interior array page ("interior fanout 251"); `array_page_impl.hpp` is not among
the sources. -/
def kInteriorFanout : Nat := 251

/-- Modelled from the spec: the volatile half of a `DualPagePointer`, the NUMA
node and the offset of the page in that node's pool (offset 0: no page). -/
structure VolatilePagePointer where
  numa_node : Nat
  offset : Nat
  deriving DecidableEq, Repr, Inhabited

/-- Modelled from the spec: `DualPagePointer`, the snapshot and the volatile
pointer to one child page. -/
structure DualPagePointer where
  snapshot_pointer_ : Nat
  volatile_pointer_ : VolatilePagePointer
  deriving DecidableEq, Repr, Inhabited

/-- Modelled from the spec: a `SnapshotPagePointer` "encodes `{node: 8 bits,
local_file_ordinal: 8 bits, local_page_offset: 48 bits}`", the node in the
high bits. -/
def extract_numa_node_from_snapshot_pointer (pointer : Nat) : Nat :=
  pointer / 2 ^ 56 % 2 ^ 8

/-- The partition the first pass reads off a child pointer
(`array_partitioner.cpp:67-75`). -/
def primary_partition (pointer : DualPagePointer) : Nat :=
  if pointer.volatile_pointer_.offset ≠ 0 then
    pointer.volatile_pointer_.numa_node
  else
    -- if no volatile page, see snapshot page owner.
    extract_numa_node_from_snapshot_pointer pointer.snapshot_pointer_

/-- The value of `excessive_count` (`array_partitioner.cpp:63`), a
`uint16_t`. -/
def excessive_count (direct_children total_partitions : Nat) : Nat :=
  (direct_children * 12 / (total_partitions * 10) + 1) % 2 ^ 16

/-- The working state of the two loops of the constructor: the vector
`counts`, the vector `excessive_children` and the member array
`bucket_owners_`. -/
structure Assignment where
  counts : List Nat
  excessive_children : List Nat
  bucket_owners_ : List Nat
  deriving DecidableEq, Repr, Inhabited

/-- The body of the first loop of the constructor
(`array_partitioner.cpp:66-82`) for one child; `root` holds the interior
records of the root page. -/
def first_pass_step (excessive : Nat) (root : List DualPagePointer) (st : Assignment)
    (child : Nat) : Outcome Assignment :=
  match root[child]? with
  | none => Outcome.out_of_bounds
  | some pointer =>
    let partition := primary_partition pointer
    -- ASSERT_ND(partition < total_partitions);
    match st.counts[partition]? with
    | none => Outcome.out_of_bounds
    | some count =>
      if count ≥ excessive then
        Outcome.returns { st with excessive_children := st.excessive_children ++ [child] }
      else if child < st.bucket_owners_.length then
        Outcome.returns
          { st with
            counts := st.counts.set partition ((count + 1) % 2 ^ 16)
            bucket_owners_ := st.bucket_owners_.set child partition }
      else
        Outcome.out_of_bounds

/-- The first loop of the constructor over the children `children`, in
order. -/
def first_pass (excessive : Nat) (root : List DualPagePointer) :
    Assignment → List Nat → Outcome Assignment
  | st, [] => Outcome.returns st
  | st, child :: rest =>
    (first_pass_step excessive root st child).bind fun st1 =>
      first_pass excessive root st1 rest

/-- The inner loop of the second pass (`array_partitioner.cpp:88-93`): the
scan of the partitions `partitions` for one with fewer assignments than the
current `most_needy`. -/
def most_needy_scan (counts : List Nat) : Nat → List Nat → Nat
  | most_needy, [] => most_needy
  | most_needy, partition :: rest =>
    if counts.getD partition 0 < counts.getD most_needy 0 then
      most_needy_scan counts partition rest
    else
      most_needy_scan counts most_needy rest

/-- The partition the second pass picks: the scan from `most_needy = 0` over
the partitions `1 .. total_partitions - 1`. -/
def most_needy (counts : List Nat) (total_partitions : Nat) : Nat :=
  most_needy_scan counts 0 (List.range' 1 (total_partitions - 1))

/-- The body of the second loop of the constructor
(`array_partitioner.cpp:87-97`) for one deferred child. -/
def second_pass_step (total_partitions : Nat) (st : Assignment) (child : Nat) :
    Outcome Assignment :=
  let needy := most_needy st.counts total_partitions
  match st.counts[needy]? with
  | none => Outcome.out_of_bounds
  | some count =>
    if child < st.bucket_owners_.length then
      Outcome.returns
        { st with
          counts := st.counts.set needy ((count + 1) % 2 ^ 16)
          bucket_owners_ := st.bucket_owners_.set child needy }
    else
      Outcome.out_of_bounds

/-- The second loop of the constructor over the deferred children, in the
order of the vector `excessive_children`. -/
def second_pass (total_partitions : Nat) : Assignment → List Nat → Outcome Assignment
  | st, [] => Outcome.returns st
  | st, child :: rest =>
    (second_pass_step total_partitions st child).bind fun st1 =>
      second_pass total_partitions st1 rest

/-- The two loops of the constructor (`array_partitioner.cpp:62-97`) for a
root page with `direct_children` children; `owners` is the content of the
member array `bucket_owners_` before the loops. -/
def assign_buckets (direct_children total_partitions : Nat) (root : List DualPagePointer)
    (owners : List Nat) : Outcome Assignment :=
  (first_pass (excessive_count direct_children total_partitions) root
      { counts := List.replicate total_partitions 0
        excessive_children := []
        bucket_owners_ := owners }
      (List.range direct_children)).bind fun st =>
    second_pass total_partitions st st.excessive_children

/-- Modelled from the spec: `assorted::ConstDiv`, the "precomputed
constant-divisor": `div64` of a divisor `d` is exact integer division by `d`
(`const_div.hpp` is not among the sources). -/
def ConstDiv.div64 (d n : Nat) : Nat := n / d

/-- The members of `ArrayPartitioner` (its header is not among the sources;
the names are those `array_partitioner.cpp` uses). `bucket_size_div_` is
`ConstDiv(bucket_size_)`. -/
structure ArrayPartitioner where
  array_id_ : Nat
  array_size_ : Nat
  bucket_size_ : Nat
  array_single_page_ : Bool
  bucket_owners_ : List Nat
  deriving DecidableEq, Repr, Inhabited

/-- The constructor `ArrayPartitioner::ArrayPartitioner`
(`array_partitioner.cpp:25-99`). The storage is given by its id, size and
number of levels, the root page by its interior records; `direct_children` is
`calculate_required_pages(...).back()`, `total_partitions` is
`thread_.group_count_`, `owners` is the memory of `bucket_owners_` before the
constructor runs. -/
def ArrayPartitioner.construct (array_id array_size levels direct_children
    total_partitions : Nat) (root : List DualPagePointer) (owners : List Nat) :
    Outcome ArrayPartitioner :=
  let bucket_size := array_size / kInteriorFanout
  if levels = 1 then
    -- ASSERT_ND(array->root_page_->is_leaf());
    Outcome.returns
      { array_id_ := array_id
        array_size_ := array_size
        bucket_size_ := bucket_size
        array_single_page_ := true
        bucket_owners_ := owners }
  else
    -- ASSERT_ND(total_partitions > 1);
    (assign_buckets direct_children total_partitions root owners).bind fun st =>
      Outcome.returns
        { array_id_ := array_id
          array_size_ := array_size
          bucket_size_ := bucket_size
          array_single_page_ := false
          bucket_owners_ := st.bucket_owners_ }

/-- `ArrayPartitioner::is_partitionable`: the array has more than one page. -/
def ArrayPartitioner.is_partitionable (p : ArrayPartitioner) : Bool := !p.array_single_page_

/-- `ArrayPartitioner::partition_batch` (`array_partitioner.cpp:113-127`);
`offsets` are the `offset_` fields of the logs, the result is the array
`results`. -/
def ArrayPartitioner.partition_batch (p : ArrayPartitioner) :
    List Nat → Outcome (List Nat)
  | [] => Outcome.returns []
  | offset :: rest =>
    -- ASSERT_ND(log->offset_ < array_size_);
    let bucket := ConstDiv.div64 p.bucket_size_ offset
    -- ASSERT_ND(bucket < kInteriorFanout);
    match p.bucket_owners_[bucket]? with
    | none => Outcome.out_of_bounds
    | some owner =>
      (p.partition_batch rest).bind fun results => Outcome.returns (owner :: results)

/-- The number of the first `direct_children` children of the root that
`bucket_owners_` gives to `partition`. -/
def owned_children (owners : List Nat) (direct_children partition : Nat) : Nat :=
  (owners.take direct_children).count partition

/-- A root page whose `n` children all have a volatile page on `node`. -/
def sample_root (n node : Nat) : List DualPagePointer :=
  List.replicate n
    { snapshot_pointer_ := 0, volatile_pointer_ := { numa_node := node, offset := 1 } }

end foedus.storage.array

namespace foedus.storage.array

/-- A sample partitioner for a two-level array of 1,000,000 elements whose
buckets are dealt to four partitions in turn. -/
def sample_partitioner : ArrayPartitioner :=
  { array_id_ := 1
    array_size_ := 1000000
    bucket_size_ := 3984
    array_single_page_ := false
    bucket_owners_ := (List.range kInteriorFanout).map fun bucket => bucket % 4 }

end foedus.storage.array

namespace foedus.storage.array

/-- The bookkeeping of the constructor's loops, for the set `assigned` of
children that have an owner so far: `counts` has one entry per partition,
`counts[p]` is the number of assigned children that `bucket_owners_` gives to
`p`, the entries add up to the number of assigned children, and no entry
exceeds `cap`. -/
def Assignment.tallies (st : Assignment) (total_partitions cap : Nat)
    (assigned : Finset Nat) : Prop :=
  st.counts.length = total_partitions
    ∧ (∀ p, st.counts.getD p 0
        = (assigned.filter fun child => st.bucket_owners_[child]? = some p).card)
    ∧ st.counts.sum = assigned.card
    ∧ (∀ p, st.counts.getD p 0 ≤ cap)

end foedus.storage.array

namespace foedus.log

open foedus

/-- Modelled from the spec: the accessor
`ThreadLogBuffer::get_offset_current_xct_begin` of the `current_xct_begin`
cursor. -/
def ThreadLogBuffer.get_offset_current_xct_begin (b : ThreadLogBuffer) : Nat :=
  b.offset_current_xct_begin_

/-- Modelled from the spec: `ThreadLogBuffer::consume_epoch_mark` "pops the
oldest mark, letting the logger know that bytes up to `mark.end_offset` belong
to `mark.epoch`"; it returns false, changing nothing, when there is no mark. -/
def ThreadLogBuffer.consume_epoch_mark (b : ThreadLogBuffer) : Bool × ThreadLogBuffer :=
  match b.epoch_marks_ with
  | [] => (false, b)
  | mark :: marks =>
    (true,
      { b with
        logger_epoch_ := mark.epoch
        logger_epoch_ends_ := mark.end_offset
        logger_epoch_open_ended_ := mark.open_ended
        epoch_marks_ := marks })

/-- What the logger does to its output, recorded in the order in which it
happens: a `write_log` call for a thread buffer (with the epoch of the buffer's
mark and the logger's current epoch at the call), or a switch of the current
epoch. -/
inductive LoggerEvent where
  | wrote (thread_id : Nat) (buffer_epoch current_epoch : Epoch) (upto_offset : Nat)
  | switched (old_epoch new_epoch : Epoch)
  deriving DecidableEq, Repr

/-- The variables carried through the `for` loop of `handle_logger`
(`logger_impl.cpp:103-172`), the logger itself and the record of events. -/
structure LoopVars where
  logger : Logger
  more_log_to_process : Bool
  any_log_processed : Bool
  min_skipped_epoch : Epoch
  trace : List LoggerEvent
  deriving DecidableEq, Repr

/-- Modelled from the spec: "all long-running threads are cooperative: each
polls a stop flag and uses a condition-variable sleep with a short timeout".
One poll of the stop flag of the logger thread (`is_stop_requested()`, or the
return value of `sleep()`). `stop_in` is the environment: the number of polls
that still find the flag clear; once set, the flag stays set. -/
def poll (stop_in : Nat) : Bool × Nat :=
  if stop_in = 0 then (true, 0) else (false, stop_in - 1)

/-- The body of the `for` loop of `handle_logger` for one assigned thread,
after the stop check (`logger_impl.cpp:113-171`). `fuel` is the fuel of the
`write_log` call. -/
def Logger.visit (get_log_code : LogType → Nat) (fuel : Nat) (v : LoopVars)
    (buffer : ThreadLogBuffer) : Outcome (LoopVars × ThreadLogBuffer) :=
  let current_xct_begin := buffer.get_offset_current_xct_begin
  if current_xct_begin = buffer.get_offset_durable then
    -- has no log to flush: continue
    Outcome.returns (v, buffer)
  else
    let consumed : Bool × ThreadLogBuffer :=
      if !buffer.logger_epoch_.is_valid
          || (!buffer.logger_epoch_open_ended_
            && buffer.logger_epoch_ends_ == buffer.offset_durable_) then
        -- then, we need to consume an epoch mark
        buffer.consume_epoch_mark
      else
        (true, buffer)
    if !consumed.1 then
      -- "Couldn't get epoch marks??": continue
      Outcome.returns (v, consumed.2)
    else
      let buffer1 := consumed.2
      -- ASSERT_ND(buffer.logger_epoch_.is_valid());
      -- ASSERT_ND(buffer.logger_epoch_open_ended_
      --           || buffer.logger_epoch_ends_ != buffer.offset_durable_);
      if buffer1.logger_epoch_.before v.logger.current_epoch_ then
        -- LOG(FATAL)
        Outcome.aborted
      else if v.logger.current_epoch_.before buffer1.logger_epoch_ then
        -- then skip it for now. we must finish the current epoch first.
        Outcome.returns
          ({ v with
              more_log_to_process := true
              min_skipped_epoch :=
                if !v.min_skipped_epoch.is_valid
                    || buffer1.logger_epoch_.before v.min_skipped_epoch then
                  buffer1.logger_epoch_
                else
                  v.min_skipped_epoch },
            buffer1)
      else
        -- okay, let's write out logs in this buffer
        let upto_offset :=
          if buffer1.logger_epoch_open_ended_ then current_xct_begin
          else buffer1.logger_epoch_ends_
        (v.logger.write_log get_log_code fuel buffer1 upto_offset).bind fun r =>
          if r.1 ≠ ErrorCode.ERROR_CODE_OK then
            -- COERCE_ERROR(write_log(&buffer, upto_offset))
            Outcome.aborted
          else
            Outcome.returns
              ({ v with
                  logger := r.2.1
                  more_log_to_process := true
                  any_log_processed := true
                  trace := v.trace
                    ++ [LoggerEvent.wrote buffer1.thread_id_ buffer1.logger_epoch_
                          v.logger.current_epoch_ upto_offset] },
                r.2.2)

/-- The `for` loop of `handle_logger` over the buffers of the assigned threads
(`logger_impl.cpp:108-172`). The result holds the loop variables, the buffers
(visited or not) and what is left of `stop_in`. -/
def Logger.pass (get_log_code : LogType → Nat) (fuel : Nat) :
    LoopVars → List ThreadLogBuffer → Nat → Outcome (LoopVars × List ThreadLogBuffer × Nat)
  | v, [], stop_in => Outcome.returns (v, [], stop_in)
  | v, buffer :: rest, stop_in =>
    if (poll stop_in).1 then
      -- if (logger_thread_.is_stop_requested()) break;
      Outcome.returns (v, buffer :: rest, (poll stop_in).2)
    else
      (Logger.visit get_log_code fuel v buffer).bind fun r =>
        (Logger.pass get_log_code fuel r.1 rest (poll stop_in).2).bind fun r1 =>
          Outcome.returns (r1.1, r.2 :: r1.2.1, r1.2.2)

/-- The state `handle_logger` works on: the logger, the log buffers of its
assigned threads, the environment's `stop_in` and the record of events. -/
structure HandlerState where
  logger : Logger
  buffers : List ThreadLogBuffer
  stop_in : Nat
  trace : List LoggerEvent
  deriving DecidableEq, Repr

/-- One run of the body of the `do` loop of `handle_logger`
(`logger_impl.cpp:105-176`), entered with the value `more_log_to_process` has
at that point; it returns the new state and the new value of
`more_log_to_process`. -/
def Logger.iterate (get_log_code : LogType → Nat) (fuel : Nat) (s : HandlerState)
    (more_log_to_process : Bool) : Outcome (HandlerState × Bool) :=
  -- xct::Epoch min_skipped_epoch; bool any_log_processed = false;
  (Logger.pass get_log_code fuel
      { logger := s.logger
        more_log_to_process := more_log_to_process
        any_log_processed := false
        min_skipped_epoch := Epoch.invalid
        trace := s.trace }
      s.buffers s.stop_in).bind fun r =>
    if !r.1.any_log_processed && r.1.more_log_to_process then
      -- then we advance our current_epoch
      (r.1.logger.switch_current_epoch get_log_code r.1.min_skipped_epoch).bind fun l1 =>
        Outcome.returns
          ({ logger := l1
             buffers := r.2.1
             stop_in := r.2.2
             trace := r.1.trace
               ++ [LoggerEvent.switched r.1.logger.current_epoch_ r.1.min_skipped_epoch] },
            r.1.more_log_to_process)
    else
      Outcome.returns
        ({ logger := r.1.logger, buffers := r.2.1, stop_in := r.2.2, trace := r.1.trace },
          r.1.more_log_to_process)

/-- The `do ... while (more_log_to_process && !is_stop_requested())` loop of
`handle_logger` (`logger_impl.cpp:104-177`), one pass per unit of fuel. -/
def Logger.process (get_log_code : LogType → Nat) :
    Nat → HandlerState → Bool → Outcome HandlerState
  | 0, _, _ => Outcome.out_of_fuel
  | fuel + 1, s, more_log_to_process =>
    (Logger.iterate get_log_code fuel s more_log_to_process).bind fun r =>
      if r.2 then
        if (poll r.1.stop_in).1 then
          Outcome.returns { r.1 with stop_in := (poll r.1.stop_in).2 }
        else
          Logger.process get_log_code fuel { r.1 with stop_in := (poll r.1.stop_in).2 } r.2
      else
        Outcome.returns r.1

/-- `Logger::handle_logger` (`logger_impl.cpp:99-180`): the loop
`while (!logger_thread_.sleep())`, one wake-up per unit of fuel. -/
def Logger.handle_logger (get_log_code : LogType → Nat) :
    Nat → HandlerState → Outcome HandlerState
  | 0, _ => Outcome.out_of_fuel
  | fuel + 1, s =>
    if (poll s.stop_in).1 then
      Outcome.returns { s with stop_in := (poll s.stop_in).2 }
    else
      -- bool more_log_to_process = false;
      (Logger.process get_log_code fuel { s with stop_in := (poll s.stop_in).2 } false).bind
        fun s1 => Logger.handle_logger get_log_code fuel s1

/-- `Logger::construct_suffixed_log_path` (`logger_impl.cpp:34-38`). -/
def Logger.construct_suffixed_log_path (l : Logger) (ordinal : Nat) : String :=
  l.log_path_ ++ "." ++ toString ordinal

/-- Modelled from the spec: the part of the savepoint a logger reads, the
per-logger arrays `current_log_files[logger_id]` and
`current_log_files_offset_durable[logger_id]`, and whether the savepoint is
unset (`empty()`). -/
structure Savepoint where
  current_log_files_ : List Nat
  current_log_files_offset_durable_ : List Nat
  is_empty : Bool
  deriving DecidableEq, Repr, Inhabited

/-- Modelled from the spec: `DirectIoFile::open(read = false, write = true,
append = true, create)` on a path whose file holds `on_disk` (`none`: there is
no such file). A missing file is created empty when `create` is set ("an empty
file (savepoint unset) is created fresh") and is an error otherwise. -/
def DirectIoFile.open (on_disk : Option (List Nat)) (create device_ok : Bool) :
    ErrorCode × DirectIoFile :=
  match on_disk with
  | some content => (ErrorCode.ERROR_CODE_OK, { content := content, device_ok := device_ok })
  | none =>
    if create then
      (ErrorCode.ERROR_CODE_OK, { content := [], device_ok := device_ok })
    else
      (ErrorCode.ERROR_CODE_FS_FAILED_TO_OPEN, { content := [], device_ok := device_ok })

/-- Modelled from the spec: `DirectIoFile::truncate(new_length, sync = true)`
cuts the file to its first `new_length` bytes ("truncate to that offset and
fsync"); it fails, changing nothing, when the device fails. -/
def DirectIoFile.truncate (f : DirectIoFile) (new_length : Nat) : ErrorCode × DirectIoFile :=
  if f.device_ok then
    (ErrorCode.ERROR_CODE_OK, { f with content := f.content.take new_length })
  else
    (ErrorCode.ERROR_CODE_FS_TRUNCATE_FAILED, f)

/-- `Logger::initialize_once` (`logger_impl.cpp:40-86`). The engine enters as
the savepoint, the file system (`disk` gives the content of the file at a
path), the state of the device and the I/O buffer the node memory hands out.
The members that the modelled functions never read (`numa_node_`,
`node_memory_`, `assigned_threads_`, `logger_thread_`) are left out. -/
def Logger.initialize_once (l : Logger) (savepoint : Savepoint)
    (disk : String → Option (List Nat)) (device_ok : Bool) (io_buffer : List Nat) :
    Outcome (ErrorCode × Logger) :=
  -- clear all variables
  let l1 : Logger :=
    { l with
      oldest_ordinal_ := 0
      current_ordinal_ := 0
      logger_buffer_cursor_ := 0
      durable_epoch_ := Epoch.invalid
      current_epoch_ := Epoch.invalid }
  match savepoint.current_log_files_[l.id_]? with
  | none => Outcome.out_of_bounds
  | some ordinal =>
    let l2 : Logger := { l1 with current_file_path_ := l1.construct_suffixed_log_path ordinal }
    -- open the log file
    let opened := DirectIoFile.open (disk l2.current_file_path_) savepoint.is_empty device_ok
    if opened.1 ≠ ErrorCode.ERROR_CODE_OK then
      Outcome.returns (opened.1, { l2 with current_file_ := opened.2 })
    else
      match savepoint.current_log_files_offset_durable_[l.id_]? with
      | none => Outcome.out_of_bounds
      | some desired_length =>
        let current_length := opened.2.content.length
        let truncated : ErrorCode × DirectIoFile :=
          if desired_length < current_length then
            -- there are non-durable regions as an incomplete remnant of previous execution.
            opened.2.truncate desired_length
          else
            (ErrorCode.ERROR_CODE_OK, opened.2)
        if truncated.1 ≠ ErrorCode.ERROR_CODE_OK then
          Outcome.returns (truncated.1, { l2 with current_file_ := truncated.2 })
        else
          -- grab a buffer to do file I/O, launch the logger thread
          Outcome.returns (ErrorCode.ERROR_CODE_OK,
            { l2 with current_file_ := truncated.2, logger_buffer_ := io_buffer })

/-- One operation of an initialized logger, from the state before it to the
state after it, when the operation returns. -/
inductive Logger.Operation (get_log_code : LogType → Nat) : Logger → Logger → Prop where
  | initialize_once (l l1 : Logger) (savepoint : Savepoint)
      (disk : String → Option (List Nat)) (device_ok : Bool) (io_buffer : List Nat)
      (code : ErrorCode) :
      l.initialize_once savepoint disk device_ok io_buffer = Outcome.returns (code, l1) →
      Logger.Operation get_log_code l l1
  | flush_log (l l1 : Logger) (code : ErrorCode) :
      l.flush_log get_log_code = Outcome.returns (code, l1) →
      Logger.Operation get_log_code l l1
  | write_log (l l1 : Logger) (fuel : Nat) (buffer buffer1 : ThreadLogBuffer)
      (upto_offset : Nat) (code : ErrorCode) :
      l.write_log get_log_code fuel buffer upto_offset
        = Outcome.returns (code, l1, buffer1) →
      Logger.Operation get_log_code l l1
  | switch_current_epoch (l l1 : Logger) (new_epoch : Epoch) :
      l.switch_current_epoch get_log_code new_epoch = Outcome.returns l1 →
      Logger.Operation get_log_code l l1
  | pass (s s1 : HandlerState) (fuel : Nat) (more more1 : Bool) :
      Logger.iterate get_log_code fuel s more = Outcome.returns (s1, more1) →
      Logger.Operation get_log_code s.logger s1.logger

/-- The states of a logger from its initialization on: the state a successful
`initialize_once` leaves, and every state an operation leads to from there. -/
inductive Logger.Initialized (get_log_code : LogType → Nat) : Logger → Prop where
  | start (l l1 : Logger) (savepoint : Savepoint) (disk : String → Option (List Nat))
      (device_ok : Bool) (io_buffer : List Nat) :
      l.initialize_once savepoint disk device_ok io_buffer
        = Outcome.returns (ErrorCode.ERROR_CODE_OK, l1) →
      Logger.Initialized get_log_code l1
  | step (l l1 : Logger) :
      Logger.Initialized get_log_code l → Logger.Operation get_log_code l l1 →
      Logger.Initialized get_log_code l1

end foedus.log

namespace foedus.log

open foedus

/-- A sample unset savepoint: logger 0 starts at file ordinal 0, nothing
durable. -/
def sample_savepoint : Savepoint :=
  { current_log_files_ := [0]
    current_log_files_offset_durable_ := [0]
    is_empty := true }

/-- A sample file system without any file. -/
def sample_disk : String → Option (List Nat) := fun _ => none

/-- The sample logger as `initialize_once` leaves it on the sample savepoint
and the empty file system. -/
def sample_initialized_logger : Logger :=
  { sample_logger with current_epoch_ := Epoch.invalid }

/-- A sample savepoint taken before a crash: logger 0 is at file ordinal 0, of
which the first 2 bytes are durable. -/
def sample_crashed_savepoint : Savepoint :=
  { current_log_files_ := [0]
    current_log_files_offset_durable_ := [2]
    is_empty := false }

/-- A sample file system after a crash: the file `log.0` holds 5 bytes. -/
def sample_crashed_disk : String → Option (List Nat) :=
  fun path => if path = "log.0" then some [9, 8, 7, 6, 5] else none

/-- A sample logger whose file has reached the configured 1 MiB
(`current_file_offset_end_` says so) and whose 4 KiB I/O buffer is full. -/
def sample_full_file_logger : Logger :=
  { sample_logger with
    logger_buffer_cursor_ := 4096
    current_file_ := { content := List.replicate 1048576 0, device_ok := true }
    current_file_offset_end_ := 1048576 }

/-- A sample state of the logger thread: the sample logger with the sample
buffer as its only assigned thread; the stop flag is found set at the fourth
poll. -/
def sample_handler_state : HandlerState :=
  { logger := sample_logger
    buffers := [sample_buffer]
    stop_in := 3
    trace := [] }

end foedus.log

namespace foedus.tpce

open foedus

/-- Modelled from the spec: `TpceClientTask::Outputs`, the counters a worker
fills in its output buffer ("the driver observes aborts as counters ... per
worker"), under the member names `tpce_driver.cpp` reads; `tpce_client.hpp` is
not among the sources, the counters are taken as unbounded. -/
structure Outputs where
  processed_ : Nat
  race_aborts_ : Nat
  unexpected_aborts_ : Nat
  largereadset_aborts_ : Nat
  user_requested_aborts_ : Nat
  snapshot_cache_hits_ : Nat
  snapshot_cache_misses_ : Nat
  deriving DecidableEq, Repr, Inhabited

/-- Modelled from the spec: `TpceDriver::WorkerResult`, the per-worker entry
of the result, under the member names `tpce_driver.cpp` writes;
`tpce_driver.hpp` is not among the sources. -/
structure WorkerResult where
  id_ : Nat
  processed_ : Nat
  race_aborts_ : Nat
  unexpected_aborts_ : Nat
  largereadset_aborts_ : Nat
  user_requested_aborts_ : Nat
  snapshot_cache_hits_ : Nat
  snapshot_cache_misses_ : Nat
  deriving DecidableEq, Repr, Inhabited

/-- Modelled from the spec: `TpceDriver::Result`, the counters "in aggregate"
and the array `workers_` of per-worker entries. `duration_sec_` and
`papi_results_` carry no counter and are left out. -/
structure Result where
  worker_count_ : Nat
  processed_ : Nat
  race_aborts_ : Nat
  unexpected_aborts_ : Nat
  largereadset_aborts_ : Nat
  user_requested_aborts_ : Nat
  snapshot_cache_hits_ : Nat
  snapshot_cache_misses_ : Nat
  workers_ : List WorkerResult
  deriving DecidableEq, Repr, Inhabited

/-- Modelled from the spec: the default-constructed `Result()`, every counter
zero; `max_workers` is the number of entries of the array `workers_`. -/
def Result.construct (max_workers : Nat) : Result :=
  { worker_count_ := 0
    processed_ := 0
    race_aborts_ := 0
    unexpected_aborts_ := 0
    largereadset_aborts_ := 0
    user_requested_aborts_ := 0
    snapshot_cache_hits_ := 0
    snapshot_cache_misses_ := 0
    workers_ := List.replicate max_workers default }

/-- What the loop that fills the result loads from the output buffer of one
session. The workers are still running while the loop reads (the stop flag is
stored after it, `tpce_driver.cpp:343`) and every counter is loaded twice:
`entry_` holds the values the loads of lines 323-329 see, `sum_` the values the
loads of lines 330-336 see. -/
structure OutputReads where
  entry_ : Outputs
  sum_ : Outputs
  deriving DecidableEq, Repr, Inhabited

/-- The loop of `TpceDriver::run` that fills the result
(`tpce_driver.cpp:320-337`), from session `i` on; `reads` are the loads from
the output buffers of the sessions `i, i + 1, ...`. -/
def TpceDriver.collect : Nat → List OutputReads → Result → Outcome Result
  | _, [], result => Outcome.returns result
  | i, output :: rest, result =>
    if i < result.workers_.length then
      TpceDriver.collect (i + 1) rest
        { result with
          workers_ := result.workers_.set i
            { id_ := i
              processed_ := output.entry_.processed_
              race_aborts_ := output.entry_.race_aborts_
              unexpected_aborts_ := output.entry_.unexpected_aborts_
              largereadset_aborts_ := output.entry_.largereadset_aborts_
              user_requested_aborts_ := output.entry_.user_requested_aborts_
              snapshot_cache_hits_ := output.entry_.snapshot_cache_hits_
              snapshot_cache_misses_ := output.entry_.snapshot_cache_misses_ }
          processed_ := result.processed_ + output.sum_.processed_
          race_aborts_ := result.race_aborts_ + output.sum_.race_aborts_
          unexpected_aborts_ := result.unexpected_aborts_ + output.sum_.unexpected_aborts_
          largereadset_aborts_ :=
            result.largereadset_aborts_ + output.sum_.largereadset_aborts_
          user_requested_aborts_ :=
            result.user_requested_aborts_ + output.sum_.user_requested_aborts_
          snapshot_cache_hits_ :=
            result.snapshot_cache_hits_ + output.sum_.snapshot_cache_hits_
          snapshot_cache_misses_ :=
            result.snapshot_cache_misses_ + output.sum_.snapshot_cache_misses_ }
    else
      Outcome.out_of_bounds

/-- The end of `TpceDriver::run` for an experiment that ran to completion
(`tpce_driver.cpp:313-337`): the `Result` it returns. `total_thread_count` is
`options.thread_.get_total_thread_count()`, `reads` holds the loads from the
output buffer of every session, in session order. -/
def TpceDriver.run (max_workers total_thread_count : Nat) (reads : List OutputReads) :
    Outcome Result :=
  TpceDriver.collect 0 reads
    { Result.construct max_workers with worker_count_ := total_thread_count }

/-- The flags of `tpce_driver.cpp` that decide how far `driver_main` gets.
`hot_threshold` is an `int32` flag. -/
structure Flags where
  take_snapshot : Bool
  hot_threshold : Int
  deriving DecidableEq, Repr, Inhabited

/-- The default values of the flags (`tpce_driver.cpp:57`, `:76`). -/
def Flags.default : Flags := { take_snapshot := false, hot_threshold := -1 }

/-- Modelled from the spec: the part of `EngineOptions` the claims speak of,
`storage.hot_threshold`. The type of the field is not among the sources; the
model keeps the flag value assigned to it. -/
structure EngineOptions where
  hot_threshold_ : Int
  deriving DecidableEq, Repr, Inhabited

/-- What `driver_main` meets outside the program: whether the folders can be
created, whether the NVM folder is mounted, and whether the engine initializes,
runs and uninitializes without error. -/
structure Environment where
  create_folder_ok : Bool
  nvm_folder_exists : Bool
  create_tpce_folder_ok : Bool
  engine_ok : Bool
  deriving DecidableEq, Repr, Inhabited

/-- How `driver_main` ends: the value it returns and the options the engine
was constructed with (`none`: no engine was started). -/
structure Exit where
  status : Nat
  engine_options : Option EngineOptions
  deriving DecidableEq, Repr, Inhabited

/-- `driver_main` (`tpce_driver.cpp:354-530`), as far as the return value and
the start of the engine go; the options other than
`options.storage_.hot_threshold_` are left out. -/
def driver_main (flags : Flags) (env : Environment) : Outcome Exit :=
  if !env.create_folder_ok then
    -- "Couldn't create " << folder
    Outcome.returns { status := 1, engine_options := none }
  else if flags.take_snapshot && !env.nvm_folder_exists then
    -- "The NVM-folder " << nvm_folder << " not mounted yet"
    Outcome.returns { status := 1, engine_options := none }
  else if flags.take_snapshot && !env.create_tpce_folder_ok then
    -- "Couldn't create " << tpce_folder
    Outcome.returns { status := 1, engine_options := none }
  else if flags.hot_threshold > 256 then
    -- "Hot page threshold is too large"
    Outcome.returns { status := 1, engine_options := none }
  else
    let options : EngineOptions := { hot_threshold_ := flags.hot_threshold }
    if env.engine_ok then
      Outcome.returns { status := 0, engine_options := some options }
    else
      -- COERCE_ERROR(engine.initialize()), COERCE_ERROR(engine.uninitialize())
      Outcome.aborted

/-- Three sample workers' outputs. -/
def sample_outputs : List Outputs :=
  [ { processed_ := 100, race_aborts_ := 3, unexpected_aborts_ := 0,
      largereadset_aborts_ := 1, user_requested_aborts_ := 2,
      snapshot_cache_hits_ := 10, snapshot_cache_misses_ := 4 },
    { processed_ := 90, race_aborts_ := 5, unexpected_aborts_ := 1,
      largereadset_aborts_ := 0, user_requested_aborts_ := 2,
      snapshot_cache_hits_ := 7, snapshot_cache_misses_ := 6 },
    { processed_ := 110, race_aborts_ := 0, unexpected_aborts_ := 0,
      largereadset_aborts_ := 0, user_requested_aborts_ := 3,
      snapshot_cache_hits_ := 12, snapshot_cache_misses_ := 1 } ]

/-- The loads from the three sample workers when none of them changes its
output during the loop: both loads of a counter see the same value. -/
def sample_quiet_reads : List OutputReads :=
  sample_outputs.map fun output => { entry_ := output, sum_ := output }

/-- The loads from one worker that commits a transaction between the two loads
of its `processed_` counter: the first load sees 100, the second 101. -/
def sample_racing_reads : List OutputReads :=
  [ { entry_ :=
        { processed_ := 100, race_aborts_ := 3, unexpected_aborts_ := 0,
          largereadset_aborts_ := 1, user_requested_aborts_ := 2,
          snapshot_cache_hits_ := 10, snapshot_cache_misses_ := 4 }
      sum_ :=
        { processed_ := 101, race_aborts_ := 3, unexpected_aborts_ := 0,
          largereadset_aborts_ := 1, user_requested_aborts_ := 2,
          snapshot_cache_hits_ := 10, snapshot_cache_misses_ := 4 } } ]

/-- A sample environment in which nothing fails. -/
def sample_environment : Environment :=
  { create_folder_ok := true
    nvm_folder_exists := true
    create_tpce_folder_ok := true
    engine_ok := true }

end foedus.tpce

namespace foedus.log

open foedus

/-- The sample buffer under an open-ended mark of epoch 4, one epoch later
than the sample logger's current epoch. -/
def sample_later_buffer : ThreadLogBuffer :=
  { sample_buffer with logger_epoch_ := { epoch_ := 4 } }

/-- A sample state of the logger thread whose only assigned buffer is at a
later epoch; the stop flag is found set at the fourth poll. -/
def sample_skipping_state : HandlerState :=
  { logger := sample_logger
    buffers := [sample_later_buffer]
    stop_in := 3
    trace := [] }

/-- A sample savepoint taken after one file rotation: logger 0 is at file
ordinal 1, nothing of it durable yet. -/
def sample_rotated_savepoint : Savepoint :=
  { current_log_files_ := [1]
    current_log_files_offset_durable_ := [0]
    is_empty := false }

/-- A sample file system holding the empty file `log.1`. -/
def sample_rotated_disk : String → Option (List Nat) :=
  fun path => if path = "log.1" then some [] else none

end foedus.log

/-! ## Theorems: transaction read and write sets -/

namespace foedus.xct

open foedus

theorem add_to_read_set_dirty (x : Xct) (storage : Nat) (record : Record)
    (h : x.isolation_level_.is_dirty_read = true) :
    x.add_to_read_set storage record = Outcome.returns (ErrorCode.ERROR_CODE_OK, x) := by
  have h1 : x.isolation_level_ = IsolationLevel.DIRTY_READ_PREFER_SNAPSHOT
      ∨ x.isolation_level_ = IsolationLevel.DIRTY_READ_PREFER_VOLATILE := by
    cases hx : x.isolation_level_ <;> simp [IsolationLevel.is_dirty_read, hx] at h ⊢
  simp [Xct.add_to_read_set, h1]

theorem not_dirty_iff (l : IsolationLevel) :
    l.is_dirty_read = false ↔
      ¬ (l = IsolationLevel.DIRTY_READ_PREFER_SNAPSHOT
        ∨ l = IsolationLevel.DIRTY_READ_PREFER_VOLATILE) := by
  cases l <;> simp [IsolationLevel.is_dirty_read]

theorem add_to_read_set_full (x : Xct) (storage : Nat) (record : Record)
    (h : x.isolation_level_.is_dirty_read = false)
    (hfull : x.max_read_set_size_ ≤ x.read_set_size_) :
    x.add_to_read_set storage record
      = Outcome.returns (ErrorCode.ERROR_CODE_XCT_READ_SET_OVERFLOW, x) := by
  have h1 := (not_dirty_iff _).1 h
  simp [Xct.add_to_read_set, h1, hfull]

theorem add_to_read_set_room (x : Xct) (storage : Nat) (record : Record)
    (h : x.isolation_level_.is_dirty_read = false)
    (hroom : x.read_set_size_ < x.max_read_set_size_)
    (hfree : record.owner_id_.is_locked = false) :
    x.add_to_read_set storage record
      = Outcome.returns (ErrorCode.ERROR_CODE_OK,
          { x with
            read_set_ := x.read_set_.set x.read_set_size_
              { observed_owner_id_ := record.owner_id_
                storage_ := storage
                record_ := record.address }
            read_set_size_ := x.read_set_size_ + 1 }) := by
  have h1 := (not_dirty_iff _).1 h
  have h2 : ¬ x.max_read_set_size_ ≤ x.read_set_size_ := by omega
  simp [Xct.add_to_read_set, h1, h2, hfree]

theorem add_to_read_set_locked (x : Xct) (storage : Nat) (record : Record)
    (h : x.isolation_level_.is_dirty_read = false)
    (hroom : x.read_set_size_ < x.max_read_set_size_)
    (hlocked : record.owner_id_.is_locked = true) :
    x.add_to_read_set storage record = Outcome.blocked := by
  have h1 := (not_dirty_iff _).1 h
  have h2 : ¬ x.max_read_set_size_ ≤ x.read_set_size_ := by omega
  simp [Xct.add_to_read_set, h1, h2, hlocked, XctId.spin_while_locked]

theorem read_all_room (calls : List (Nat × Record)) :
    ∀ x : Xct, x.isolation_level_.is_dirty_read = false →
      x.read_set_size_ + calls.length ≤ x.max_read_set_size_ →
      (∀ c ∈ calls, c.2.owner_id_.is_locked = false) →
      ∃ x1 : Xct,
        read_all x calls
            = Outcome.returns (List.replicate calls.length ErrorCode.ERROR_CODE_OK, x1)
          ∧ x1.read_set_size_ = x.read_set_size_ + calls.length
          ∧ x1.isolation_level_ = x.isolation_level_
          ∧ x1.max_read_set_size_ = x.max_read_set_size_ := by
  induction calls with
  | nil => intro x _ _ _; exact ⟨x, rfl, rfl, rfl, rfl⟩
  | cons c cs ih =>
    intro x hiso hlen hfree
    simp only [List.length_cons] at hlen
    have hc := hfree c (List.mem_cons_self _ _)
    have hstep := add_to_read_set_room x c.1 c.2 hiso (by omega) hc
    generalize hx1 : ({ x with
      read_set_ := x.read_set_.set x.read_set_size_
        { observed_owner_id_ := c.2.owner_id_
          storage_ := c.1
          record_ := c.2.address }
      read_set_size_ := x.read_set_size_ + 1 } : Xct) = x1 at hstep
    have e1 : x1.read_set_size_ = x.read_set_size_ + 1 := by rw [← hx1]
    have e2 : x1.isolation_level_ = x.isolation_level_ := by rw [← hx1]
    have e3 : x1.max_read_set_size_ = x.max_read_set_size_ := by rw [← hx1]
    obtain ⟨x2, hrun, hsz, hi, hm⟩ := ih x1 (by rw [e2]; exact hiso)
      (by omega) (fun d hd => hfree d (List.mem_cons_of_mem _ hd))
    refine ⟨x2, ?_, ?_, ?_, ?_⟩
    · simp only [read_all, hstep, hrun, List.length_cons, List.replicate_succ]
    · simp only [List.length_cons]; omega
    · rw [hi, e2]
    · rw [hm, e3]

theorem read_all_snoc (calls : List (Nat × Record)) (c : Nat × Record) :
    ∀ (x x1 x2 : Xct) (es : List ErrorCode) (e : ErrorCode),
      read_all x calls = Outcome.returns (es, x1) →
      x1.add_to_read_set c.1 c.2 = Outcome.returns (e, x2) →
      read_all x (calls ++ [c]) = Outcome.returns (es ++ [e], x2) := by
  induction calls with
  | nil =>
    intro x x1 x2 es e h1 h2
    simp only [read_all, Outcome.returns.injEq, Prod.mk.injEq] at h1
    obtain ⟨rfl, rfl⟩ := h1
    simp only [List.nil_append, read_all, h2]
  | cons d ds ih =>
    intro x x1 x2 es e h1 h2
    simp only [read_all] at h1
    cases hd : x.add_to_read_set d.1 d.2 with
    | returns r =>
      obtain ⟨e0, y⟩ := r
      rw [hd] at h1
      simp only [] at h1
      cases hr : read_all y ds with
      | returns r2 =>
        obtain ⟨es2, y2⟩ := r2
        rw [hr] at h1
        simp only [Outcome.returns.injEq, Prod.mk.injEq] at h1
        obtain ⟨rfl, rfl⟩ := h1
        have := ih y y2 x2 es2 e hr h2
        rw [List.cons_append]
        simp only [read_all, hd, this, List.cons_append]
      | blocked => rw [hr] at h1; cases h1
      | out_of_fuel => rw [hr] at h1; cases h1
      | out_of_bounds => rw [hr] at h1; cases h1
      | aborted => rw [hr] at h1; cases h1
    | blocked => rw [hd] at h1; cases h1
    | out_of_fuel => rw [hd] at h1; cases h1
    | out_of_bounds => rw [hd] at h1; cases h1
    | aborted => rw [hd] at h1; cases h1

/-- C1: `add_to_read_set` returns `ERROR_CODE_XCT_READ_SET_OVERFLOW` exactly
when the isolation level is not a dirty-read level and
`read_set_size_ >= max_read_set_size_`, and then the transaction state is
unchanged. Hence, from an empty read set under a non-dirty-read level, reading
`max_read_set_size_` (unlocked) records returns OK every time and the next call
returns the overflow code. -/
theorem add_to_read_set_overflow_iff (x : Xct) (storage : Nat) (record : Record) :
    ((∃ x1, x.add_to_read_set storage record
          = Outcome.returns (ErrorCode.ERROR_CODE_XCT_READ_SET_OVERFLOW, x1))
        ↔ (x.isolation_level_.is_dirty_read = false
            ∧ x.read_set_size_ ≥ x.max_read_set_size_))
    ∧ (∀ x1, x.add_to_read_set storage record
          = Outcome.returns (ErrorCode.ERROR_CODE_XCT_READ_SET_OVERFLOW, x1) → x1 = x)
    ∧ (∀ calls : List (Nat × Record),
        x.isolation_level_.is_dirty_read = false →
        x.read_set_size_ = 0 →
        calls.length = x.max_read_set_size_ →
        (∀ c ∈ calls, c.2.owner_id_.is_locked = false) →
        ∃ x1, read_all x (calls ++ [(storage, record)])
          = Outcome.returns
              (List.replicate x.max_read_set_size_ ErrorCode.ERROR_CODE_OK
                ++ [ErrorCode.ERROR_CODE_XCT_READ_SET_OVERFLOW], x1)) := by
  have key : ∀ x1, x.add_to_read_set storage record
      = Outcome.returns (ErrorCode.ERROR_CODE_XCT_READ_SET_OVERFLOW, x1) →
      (x.isolation_level_.is_dirty_read = false
        ∧ x.read_set_size_ ≥ x.max_read_set_size_) ∧ x1 = x := by
    intro x1 h
    cases hd : x.isolation_level_.is_dirty_read with
    | true =>
      rw [add_to_read_set_dirty x storage record hd] at h
      simp at h
    | false =>
      by_cases hfull : x.max_read_set_size_ ≤ x.read_set_size_
      · rw [add_to_read_set_full x storage record hd hfull] at h
        simp only [Outcome.returns.injEq, Prod.mk.injEq, true_and] at h
        exact ⟨⟨rfl, hfull⟩, h.symm⟩
      · cases hl : record.owner_id_.is_locked with
        | true =>
          rw [add_to_read_set_locked x storage record hd (by omega) hl] at h
          cases h
        | false =>
          rw [add_to_read_set_room x storage record hd (by omega) hl] at h
          simp at h
  refine ⟨⟨?_, ?_⟩, ?_, ?_⟩
  · rintro ⟨x1, h⟩
    exact (key x1 h).1
  · rintro ⟨hd, hfull⟩
    exact ⟨x, add_to_read_set_full x storage record hd hfull⟩
  · intro x1 h
    exact (key x1 h).2
  · intro calls hd hempty hlen hfree
    obtain ⟨x1, hrun, hsz, hi, hm⟩ := read_all_room calls x hd (by omega) hfree
    have hlast := add_to_read_set_full x1 storage record (by rw [hi]; exact hd) (by omega)
    refine ⟨x1, ?_⟩
    have := read_all_snoc calls (storage, record) x x1 x1 _ _ hrun hlast
    rw [this, hlen]

theorem add_to_read_set_overflow_iff_witness :
    sample_xct.isolation_level_.is_dirty_read = false
    ∧ sample_xct.read_set_size_ = 0
    ∧ [(7, sample_record), (8, sample_record)].length = sample_xct.max_read_set_size_
    ∧ (∀ c ∈ [(7, sample_record), (8, sample_record)], c.2.owner_id_.is_locked = false)
    ∧ ∃ x1, read_all sample_xct
          ([(7, sample_record), (8, sample_record)] ++ [(9, sample_locked_record)])
        = Outcome.returns
            ([ErrorCode.ERROR_CODE_OK, ErrorCode.ERROR_CODE_OK,
              ErrorCode.ERROR_CODE_XCT_READ_SET_OVERFLOW], x1) :=
  ⟨rfl, rfl, rfl, by decide,
    (add_to_read_set_overflow_iff sample_xct 9 sample_locked_record).2.2
      [(7, sample_record), (8, sample_record)] rfl rfl rfl (by decide)⟩

/-- C2: under either dirty-read isolation level `add_to_read_set` returns
`ERROR_CODE_OK` for every storage and record (locked or not) and leaves the
whole transaction state, in particular `read_set_size_` and every read-set
entry, as it was; no bound on the read-set size is assumed. -/
theorem add_to_read_set_dirty_read_noop (x : Xct) (storage : Nat) (record : Record)
    (h : x.isolation_level_ = IsolationLevel.DIRTY_READ_PREFER_SNAPSHOT
      ∨ x.isolation_level_ = IsolationLevel.DIRTY_READ_PREFER_VOLATILE) :
    ∃ x1, x.add_to_read_set storage record = Outcome.returns (ErrorCode.ERROR_CODE_OK, x1)
      ∧ x1.read_set_size_ = x.read_set_size_
      ∧ x1.read_set_ = x.read_set_
      ∧ x1 = x := by
  refine ⟨x, ?_, rfl, rfl, rfl⟩
  simp [Xct.add_to_read_set, h]

theorem add_to_read_set_dirty_read_noop_witness :
    sample_full_dirty_xct.read_set_size_ = sample_full_dirty_xct.max_read_set_size_
    ∧ ∃ x1, sample_full_dirty_xct.add_to_read_set 7 sample_locked_record
          = Outcome.returns (ErrorCode.ERROR_CODE_OK, x1)
        ∧ x1.read_set_size_ = 2
        ∧ x1.read_set_ = [default, default]
        ∧ x1 = sample_full_dirty_xct :=
  ⟨rfl, add_to_read_set_dirty_read_noop sample_full_dirty_xct 7 sample_locked_record
    (Or.inr rfl)⟩

/-- C3: for a non-dirty-read isolation level, an unlocked record and
`read_set_size_ = n < max_read_set_size_` (the array having room for
`max_read_set_size_` entries), `add_to_read_set` returns `ERROR_CODE_OK`,
sets `read_set_size_` to `n + 1`, stores `{storage, record, owner id of the
record}` at index `n`, and leaves entries `0..n-1` and the write set
unchanged. -/
theorem add_to_read_set_appends (x : Xct) (storage : Nat) (record : Record) (n : Nat)
    (hiso : x.isolation_level_.is_dirty_read = false)
    (hfree : record.owner_id_.is_locked = false)
    (hn : x.read_set_size_ = n)
    (hroom : n < x.max_read_set_size_)
    (hcap : x.max_read_set_size_ ≤ x.read_set_.length) :
    ∃ x1, x.add_to_read_set storage record = Outcome.returns (ErrorCode.ERROR_CODE_OK, x1)
      ∧ x1.read_set_size_ = n + 1
      ∧ x1.read_set_[n]? = some
          { observed_owner_id_ := record.owner_id_
            storage_ := storage
            record_ := record.address }
      ∧ (∀ i, i < n → x1.read_set_[i]? = x.read_set_[i]?)
      ∧ x1.write_set_ = x.write_set_
      ∧ x1.write_set_size_ = x.write_set_size_ := by
  subst hn
  refine ⟨_, add_to_read_set_room x storage record hiso hroom hfree, rfl, ?_, ?_, rfl, rfl⟩
  · simp only [List.getElem?_set_self (show x.read_set_size_ < x.read_set_.length by omega)]
  · intro i hi
    simp only [List.getElem?_set_ne (show x.read_set_size_ ≠ i by omega)]

theorem add_to_read_set_appends_witness :
    ∃ x1, sample_xct.add_to_read_set 7 sample_record
        = Outcome.returns (ErrorCode.ERROR_CODE_OK, x1)
      ∧ x1.read_set_size_ = 0 + 1
      ∧ x1.read_set_[0]? = some
          { observed_owner_id_ := { epoch := 3, ordinal := 1, locked := false }
            storage_ := 7
            record_ := 100 }
      ∧ (∀ i, i < 0 → x1.read_set_[i]? = sample_xct.read_set_[i]?)
      ∧ x1.write_set_ = sample_xct.write_set_
      ∧ x1.write_set_size_ = sample_xct.write_set_size_ :=
  add_to_read_set_appends sample_xct 7 sample_record 0 rfl rfl rfl (by decide) (by decide)

/-- C4: `add_to_write_set` returns `ERROR_CODE_XCT_WRITE_SET_OVERFLOW` exactly
when `write_set_size_ >= max_write_set_size_`, whatever the isolation level,
and on overflow the whole state (write set, its size, read set) is
unchanged. -/
theorem add_to_write_set_overflow_iff (x : Xct) (storage : Nat) (record : Record)
    (log_entry : Nat) :
    ((x.add_to_write_set storage record log_entry).1
          = ErrorCode.ERROR_CODE_XCT_WRITE_SET_OVERFLOW
        ↔ x.write_set_size_ ≥ x.max_write_set_size_)
    ∧ (∀ level : IsolationLevel,
        ({ x with isolation_level_ := level }.add_to_write_set storage record log_entry).1
          = (x.add_to_write_set storage record log_entry).1)
    ∧ ((x.add_to_write_set storage record log_entry).1
          = ErrorCode.ERROR_CODE_XCT_WRITE_SET_OVERFLOW →
        (x.add_to_write_set storage record log_entry).2 = x) := by
  by_cases hfull : x.max_write_set_size_ ≤ x.write_set_size_
  · simp [Xct.add_to_write_set, hfull]
  · simp [Xct.add_to_write_set, hfull]

theorem add_to_write_set_overflow_iff_witness :
    (sample_full_dirty_xct.add_to_write_set 7 sample_record 55).1
        = ErrorCode.ERROR_CODE_XCT_WRITE_SET_OVERFLOW
    ∧ (sample_full_dirty_xct.add_to_write_set 7 sample_record 55).2 = sample_full_dirty_xct :=
  ⟨(add_to_write_set_overflow_iff sample_full_dirty_xct 7 sample_record 55).1.2 (by decide),
    (add_to_write_set_overflow_iff sample_full_dirty_xct 7 sample_record 55).2.2 (by decide)⟩

/-- C5: for `write_set_size_ = n < max_write_set_size_` (the array having room
for `max_write_set_size_` entries), `add_to_write_set` returns
`ERROR_CODE_OK`, sets `write_set_size_` to `n + 1`, stores `{storage, record,
current owner id of the record, log entry}` at index `n`, and leaves entries
`0..n-1` and the read set unchanged. -/
theorem add_to_write_set_appends (x : Xct) (storage : Nat) (record : Record)
    (log_entry : Nat) (n : Nat)
    (hn : x.write_set_size_ = n)
    (hroom : n < x.max_write_set_size_)
    (hcap : x.max_write_set_size_ ≤ x.write_set_.length) :
    (x.add_to_write_set storage record log_entry).1 = ErrorCode.ERROR_CODE_OK
      ∧ (x.add_to_write_set storage record log_entry).2.write_set_size_ = n + 1
      ∧ (x.add_to_write_set storage record log_entry).2.write_set_[n]? = some
          { observed_owner_id_ := record.owner_id_
            storage_ := storage
            record_ := record.address
            log_entry_ := log_entry }
      ∧ (∀ i, i < n →
          (x.add_to_write_set storage record log_entry).2.write_set_[i]? = x.write_set_[i]?)
      ∧ (x.add_to_write_set storage record log_entry).2.read_set_ = x.read_set_
      ∧ (x.add_to_write_set storage record log_entry).2.read_set_size_
          = x.read_set_size_ := by
  subst hn
  have h2 : ¬ x.max_write_set_size_ ≤ x.write_set_size_ := by omega
  simp only [Xct.add_to_write_set, ge_iff_le, h2, if_false, true_and]
  refine ⟨?_, ?_, trivial⟩
  · simp only [List.getElem?_set_self (show x.write_set_size_ < x.write_set_.length by omega)]
  · intro i hi
    simp only [List.getElem?_set_ne (show x.write_set_size_ ≠ i by omega)]

theorem add_to_write_set_appends_witness :
    (sample_xct.add_to_write_set 7 sample_locked_record 55).1 = ErrorCode.ERROR_CODE_OK
      ∧ (sample_xct.add_to_write_set 7 sample_locked_record 55).2.write_set_size_ = 0 + 1
      ∧ (sample_xct.add_to_write_set 7 sample_locked_record 55).2.write_set_[0]? = some
          { observed_owner_id_ := { epoch := 3, ordinal := 2, locked := true }
            storage_ := 7
            record_ := 200
            log_entry_ := 55 }
      ∧ (∀ i, i < 0 →
          (sample_xct.add_to_write_set 7 sample_locked_record 55).2.write_set_[i]?
            = sample_xct.write_set_[i]?)
      ∧ (sample_xct.add_to_write_set 7 sample_locked_record 55).2.read_set_
          = sample_xct.read_set_
      ∧ (sample_xct.add_to_write_set 7 sample_locked_record 55).2.read_set_size_
          = sample_xct.read_set_size_ :=
  add_to_write_set_appends sample_xct 7 sample_locked_record 55 0 rfl (by decide) (by decide)

/-- C6: `read_set_size_ <= max_read_set_size_ ∧ write_set_size_ <=
max_write_set_size_` is preserved by every call of `add_to_read_set` and of
`add_to_write_set`, for every isolation level and all arguments; the only call
that yields no new state is a read that waits on a locked record. -/
theorem sizes_bounded_preserved (x : Xct) (storage : Nat) (record : Record)
    (log_entry : Nat) (h : x.sizes_bounded) :
    (∀ e x1, x.add_to_read_set storage record = Outcome.returns (e, x1) → x1.sizes_bounded)
    ∧ (x.add_to_write_set storage record log_entry).2.sizes_bounded
    ∧ (record.owner_id_.is_locked = false →
        ∃ e x1, x.add_to_read_set storage record = Outcome.returns (e, x1)) := by
  obtain ⟨hr, hw⟩ := h
  refine ⟨?_, ?_, ?_⟩
  · intro e x1 hcall
    cases hd : x.isolation_level_.is_dirty_read with
    | true =>
      rw [add_to_read_set_dirty x storage record hd] at hcall
      simp only [Outcome.returns.injEq, Prod.mk.injEq] at hcall
      rw [← hcall.2]; exact ⟨hr, hw⟩
    | false =>
      by_cases hfull : x.max_read_set_size_ ≤ x.read_set_size_
      · rw [add_to_read_set_full x storage record hd hfull] at hcall
        simp only [Outcome.returns.injEq, Prod.mk.injEq] at hcall
        rw [← hcall.2]; exact ⟨hr, hw⟩
      · cases hl : record.owner_id_.is_locked with
        | true =>
          rw [add_to_read_set_locked x storage record hd (by omega) hl] at hcall
          cases hcall
        | false =>
          rw [add_to_read_set_room x storage record hd (by omega) hl] at hcall
          simp only [Outcome.returns.injEq, Prod.mk.injEq] at hcall
          rw [← hcall.2]
          exact ⟨by simp only []; omega, hw⟩
  · by_cases hfull : x.max_write_set_size_ ≤ x.write_set_size_
    · simp only [Xct.add_to_write_set, ge_iff_le, hfull, if_true]; exact ⟨hr, hw⟩
    · simp only [Xct.add_to_write_set, ge_iff_le, hfull, if_false]
      exact ⟨hr, by simp only []; omega⟩
  · intro hl
    cases hd : x.isolation_level_.is_dirty_read with
    | true => exact ⟨_, _, add_to_read_set_dirty x storage record hd⟩
    | false =>
      by_cases hfull : x.max_read_set_size_ ≤ x.read_set_size_
      · exact ⟨_, _, add_to_read_set_full x storage record hd hfull⟩
      · exact ⟨_, _, add_to_read_set_room x storage record hd (by omega) hl⟩

theorem sizes_bounded_preserved_witness :
    sample_xct.sizes_bounded
    ∧ (∀ e x1, sample_xct.add_to_read_set 7 sample_record = Outcome.returns (e, x1) →
        x1.sizes_bounded)
    ∧ (sample_xct.add_to_write_set 7 sample_record 55).2.sizes_bounded
    ∧ (sample_record.owner_id_.is_locked = false →
        ∃ e x1, sample_xct.add_to_read_set 7 sample_record = Outcome.returns (e, x1)) :=
  ⟨by decide, sizes_bounded_preserved sample_xct 7 sample_record 55 (by decide)⟩

end foedus.xct

/-! ## Theorems: the log writer -/

namespace foedus.log

open foedus

@[simp]
theorem bind_returns {α β : Type} (a : α) (f : α → Outcome β) :
    (Outcome.returns a).bind f = f a := rfl

theorem bind_eq_returns {α β : Type} {o : Outcome α} {f : α → Outcome β} {b : β}
    (h : o.bind f = Outcome.returns b) : ∃ a, o = Outcome.returns a ∧ f a = Outcome.returns b := by
  cases o with
  | returns a => exact ⟨a, rfl, h⟩
  | blocked => cases h
  | out_of_fuel => cases h
  | out_of_bounds => cases h
  | aborted => cases h

theorem store_length (mem : List Nat) (offset : Nat) (bytes : List Nat)
    (h : offset + bytes.length ≤ mem.length) :
    (store mem offset bytes).length = mem.length := by
  simp only [store, List.length_append, List.length_take, List.length_drop]
  omega

theorem take_store (mem : List Nat) (offset : Nat) (bytes : List Nat)
    (h : offset + bytes.length ≤ mem.length) :
    (store mem offset bytes).take (offset + bytes.length) = mem.take offset ++ bytes := by
  have h1 : (mem.take offset ++ bytes).length = offset + bytes.length := by
    simp only [List.length_append, List.length_take]; omega
  unfold store
  rw [← h1, List.take_left]

theorem take_store_below (mem : List Nat) (offset : Nat) (bytes : List Nat) (n : Nat)
    (h : offset ≤ mem.length) (hn : n ≤ offset) :
    (store mem offset bytes).take n = mem.take n := by
  have h1 : (mem.take offset).length = offset := by
    simp only [List.length_take]; omega
  unfold store
  rw [List.append_assoc, List.take_append_of_le_length (by omega), List.take_take]
  congr 1
  omega

theorem load_length (mem : List Nat) (offset n : Nat) (h : offset + n ≤ mem.length) :
    (load mem offset n).length = n := by
  simp only [load, List.length_take, List.length_drop]
  omega

theorem load_append (mem : List Nat) (offset n m : Nat) :
    load mem offset n ++ load mem (offset + n) m = load mem offset (n + m) := by
  simp only [load]
  rw [← List.drop_drop, List.take_add]

theorem load_store (mem : List Nat) (offset : Nat) (bytes : List Nat)
    (h : offset + bytes.length ≤ mem.length) :
    load (store mem offset bytes) offset bytes.length = bytes := by
  have h1 : (mem.take offset).length = offset := by
    simp only [List.length_take]; omega
  unfold load store
  rw [List.append_assoc, List.drop_left' h1, List.take_left' rfl]

theorem encode_length (h : LogHeader) : h.encode.length = LogHeader.size := by
  simp [LogHeader.encode, le_bytes, LogHeader.size]

theorem decode_encode (h : LogHeader) :
    LogHeader.decode h.encode
      = { storage_id_ := h.storage_id_ % 2 ^ 32
          log_length_ := h.log_length_ % 2 ^ 16
          log_type_code_ := h.log_type_code_ % 2 ^ 16 } := by
  simp only [LogHeader.decode, LogHeader.encode, le_bytes, load, le_value, List.cons_append,
    List.nil_append, List.drop, List.take, LogHeader.mk.injEq]
  refine ⟨?_, ?_, ?_⟩ <;> omega

theorem flush_log_empty (get_log_code : LogType → Nat) (l : Logger)
    (h : l.logger_buffer_cursor_ = 0) :
    l.flush_log get_log_code = Outcome.returns (ErrorCode.ERROR_CODE_OK, l) := by
  simp [Logger.flush_log, h]

theorem flush_log_aligned (get_log_code : LogType → Nat) (l : Logger)
    (hpos : l.logger_buffer_cursor_ ≠ 0)
    (hal : l.logger_buffer_cursor_ % LOG_WRITE_UNIT_SIZE = 0)
    (hle : l.logger_buffer_cursor_ ≤ l.logger_buffer_.length)
    (hdev : l.current_file_.device_ok = true) :
    l.flush_log get_log_code = Outcome.returns (ErrorCode.ERROR_CODE_OK,
      { l with
        current_file_ :=
          { l.current_file_ with
            content := l.current_file_.content
              ++ l.logger_buffer_.take l.logger_buffer_cursor_ }
        logger_buffer_cursor_ := 0 }) := by
  simp [Logger.flush_log, hpos, hal, DirectIoFile.write, hdev, hle]

theorem flush_log_padded (get_log_code : LogType → Nat) (l : Logger)
    (hun : l.logger_buffer_cursor_ % LOG_WRITE_UNIT_SIZE ≠ 0)
    (hfit : l.logger_buffer_cursor_ + LogHeader.size ≤ l.logger_buffer_.length)
    (hpad : l.logger_buffer_cursor_
        + (LOG_WRITE_UNIT_SIZE - l.logger_buffer_cursor_ % LOG_WRITE_UNIT_SIZE)
      ≤ l.logger_buffer_.length)
    (h64 : l.logger_buffer_.length < 2 ^ 64)
    (hdev : l.current_file_.device_ok = true) :
    l.flush_log get_log_code = Outcome.returns (ErrorCode.ERROR_CODE_OK,
      { l with
        logger_buffer_ := store l.logger_buffer_ l.logger_buffer_cursor_
          (LogHeader.encode
            { storage_id_ := 0
              log_length_ :=
                LOG_WRITE_UNIT_SIZE - l.logger_buffer_cursor_ % LOG_WRITE_UNIT_SIZE
              log_type_code_ := get_log_code LogType.FillerLogType })
        current_file_ :=
          { l.current_file_ with
            content := l.current_file_.content
              ++ (store l.logger_buffer_ l.logger_buffer_cursor_
                  (LogHeader.encode
                    { storage_id_ := 0
                      log_length_ :=
                        LOG_WRITE_UNIT_SIZE - l.logger_buffer_cursor_ % LOG_WRITE_UNIT_SIZE
                      log_type_code_ := get_log_code LogType.FillerLogType })).take
                (l.logger_buffer_cursor_
                  + (LOG_WRITE_UNIT_SIZE
                    - l.logger_buffer_cursor_ % LOG_WRITE_UNIT_SIZE)) }
        logger_buffer_cursor_ := 0 }) := by
  have hpos : l.logger_buffer_cursor_ ≠ 0 := by
    intro h0; rw [h0] at hun; simp at hun
  have hadd : add64 l.logger_buffer_cursor_
      (LOG_WRITE_UNIT_SIZE - l.logger_buffer_cursor_ % LOG_WRITE_UNIT_SIZE)
      = l.logger_buffer_cursor_
        + (LOG_WRITE_UNIT_SIZE - l.logger_buffer_cursor_ % LOG_WRITE_UNIT_SIZE) := by
    unfold add64
    apply Nat.mod_eq_of_lt
    omega
  have hlen := store_length l.logger_buffer_ l.logger_buffer_cursor_
    (LogHeader.encode
      { storage_id_ := 0
        log_length_ := LOG_WRITE_UNIT_SIZE - l.logger_buffer_cursor_ % LOG_WRITE_UNIT_SIZE
        log_type_code_ := get_log_code LogType.FillerLogType })
    (by rw [encode_length]; exact hfit)
  simp only [Logger.flush_log, hpos, if_false, hun, ne_eq, not_false_eq_true, if_true, hfit,
    bind_returns, DirectIoFile.write, hdev, hadd, hlen, hpad, and_self, not_true_eq_false]

theorem flush_log_header_overrun (get_log_code : LogType → Nat) (l : Logger)
    (hun : l.logger_buffer_cursor_ % LOG_WRITE_UNIT_SIZE ≠ 0)
    (hover : l.logger_buffer_.length < l.logger_buffer_cursor_ + LogHeader.size) :
    l.flush_log get_log_code = Outcome.out_of_bounds := by
  have hpos : l.logger_buffer_cursor_ ≠ 0 := by
    intro h0; rw [h0] at hun; simp at hun
  have hfit : ¬ l.logger_buffer_cursor_ + LogHeader.size ≤ l.logger_buffer_.length := by omega
  simp only [Logger.flush_log, hpos, if_false, hun, ne_eq, not_false_eq_true, if_true, hfit]
  rfl

theorem flush_log_device_failed (get_log_code : LogType → Nat) (l : Logger)
    (hpos : l.logger_buffer_cursor_ ≠ 0)
    (hal : l.logger_buffer_cursor_ % LOG_WRITE_UNIT_SIZE = 0)
    (hdev : l.current_file_.device_ok = false) :
    l.flush_log get_log_code
      = Outcome.returns (ErrorCode.ERROR_CODE_FS_WRITE_FAILED, l) := by
  simp [Logger.flush_log, hpos, hal, DirectIoFile.write, hdev]

theorem emitted_refl (l : Logger) (hready : l.io_ready)
    (hdev : l.current_file_.device_ok = true) : l.emitted l [] :=
  ⟨hready, hdev, rfl, (List.append_nil _).symm⟩

theorem emitted_trans {l l1 l2 : Logger} {bs cs : List Nat}
    (h1 : l.emitted l1 bs) (h2 : l1.emitted l2 cs) : l.emitted l2 (bs ++ cs) := by
  obtain ⟨_, _, e1, s1⟩ := h1
  obtain ⟨r2, d2, e2, s2⟩ := h2
  exact ⟨r2, d2, by rw [e2, e1], by rw [s2, s1, List.append_assoc]⟩

/-- When the I/O buffer is full, `flush_log` moves it to the file as it is. -/
theorem flush_log_full (get_log_code : LogType → Nat) (l : Logger)
    (hready : l.io_ready) (hdev : l.current_file_.device_ok = true)
    (hfull : l.logger_buffer_.length = l.logger_buffer_cursor_) :
    ∃ l1, l.flush_log get_log_code = Outcome.returns (ErrorCode.ERROR_CODE_OK, l1)
      ∧ l.emitted l1 [] ∧ l1.logger_buffer_cursor_ = 0 := by
  obtain ⟨hpos, hal, h64, hle⟩ := hready
  refine ⟨_, flush_log_aligned get_log_code l (by omega) (by rw [← hfull]; exact hal)
    hle hdev, ⟨⟨hpos, hal, h64, Nat.zero_le _⟩, hdev, rfl, ?_⟩, rfl⟩
  simp only [Logger.output_stream, List.take_zero, List.append_nil]

/-- One `memcpy` of the loop of `write_log`, with room for it on both sides. -/
theorem copy_emitted (l : Logger) (buffer : ThreadLogBuffer) (from_offset n : Nat)
    (hready : l.io_ready) (hdev : l.current_file_.device_ok = true)
    (hsrc : from_offset + n ≤ buffer.buffer_.length)
    (hdst : l.logger_buffer_cursor_ + n ≤ l.logger_buffer_.length) :
    l.emitted
      { l with
        logger_buffer_ := store l.logger_buffer_ l.logger_buffer_cursor_
          (load buffer.buffer_ from_offset n)
        logger_buffer_cursor_ := add64 l.logger_buffer_cursor_ n }
      (load buffer.buffer_ from_offset n) := by
  obtain ⟨hpos, hal, h64, hle⟩ := hready
  have hn := load_length buffer.buffer_ from_offset n hsrc
  have hlen := store_length l.logger_buffer_ l.logger_buffer_cursor_
    (load buffer.buffer_ from_offset n) (by rw [hn]; exact hdst)
  have hadd : add64 l.logger_buffer_cursor_ n = l.logger_buffer_cursor_ + n := by
    unfold add64
    apply Nat.mod_eq_of_lt
    omega
  refine ⟨⟨?_, ?_, ?_, ?_⟩, hdev, hlen, ?_⟩
  · simp only [hlen]; exact hpos
  · simp only [hlen]; exact hal
  · simp only [hlen]; exact h64
  · simp only [hlen, hadd]; exact hdst
  · simp only [Logger.output_stream, hadd]
    have := take_store l.logger_buffer_ l.logger_buffer_cursor_
      (load buffer.buffer_ from_offset n) (by rw [hn]; exact hdst)
    rw [hn] at this
    rw [this, List.append_assoc]

/-- The loop of `write_log` on a usable I/O buffer and a working device: it
either runs out of fuel or returns OK having emitted exactly the bytes
`[from_offset, upto_offset)` of the thread buffer, and `upto_offset -
from_offset + 1` units of fuel are enough. -/
theorem write_log_loop_emits (get_log_code : LogType → Nat) (buffer : ThreadLogBuffer)
    (upto_offset : Nat) (hup : upto_offset ≤ buffer.buffer_.length)
    (h64 : upto_offset < 2 ^ 64) :
    ∀ (fuel : Nat) (l : Logger) (from_offset : Nat),
      l.io_ready → l.current_file_.device_ok = true → from_offset ≤ upto_offset →
      (upto_offset - from_offset < fuel →
        ∃ l1, Logger.write_log_loop get_log_code fuel l buffer from_offset upto_offset
            = Outcome.returns (ErrorCode.ERROR_CODE_OK, l1)
          ∧ l.emitted l1 (load buffer.buffer_ from_offset (upto_offset - from_offset)))
      ∧ (Logger.write_log_loop get_log_code fuel l buffer from_offset upto_offset
            = Outcome.out_of_fuel
          ∨ ∃ l1, Logger.write_log_loop get_log_code fuel l buffer from_offset upto_offset
              = Outcome.returns (ErrorCode.ERROR_CODE_OK, l1)
            ∧ l.emitted l1
                (load buffer.buffer_ from_offset (upto_offset - from_offset))) := by
  intro fuel
  induction fuel with
  | zero =>
    intro l from_offset _ _ _
    exact ⟨fun h => absurd h (Nat.not_lt_zero _), Or.inl rfl⟩
  | succ fuel ih =>
    intro l from_offset hready hdev hle
    by_cases hlt : from_offset < upto_offset
    · -- the state after the optional flush
      have hflush : ∃ l1,
          (if l.logger_buffer_.length = l.logger_buffer_cursor_
            then l.flush_log get_log_code
            else Outcome.returns (ErrorCode.ERROR_CODE_OK, l))
            = Outcome.returns (ErrorCode.ERROR_CODE_OK, l1)
          ∧ l.emitted l1 []
          ∧ l1.logger_buffer_cursor_ < l1.logger_buffer_.length := by
        by_cases hfull : l.logger_buffer_.length = l.logger_buffer_cursor_
        · obtain ⟨l1, hf, hem, hc⟩ := flush_log_full get_log_code l hready hdev hfull
          refine ⟨l1, by rw [if_pos hfull]; exact hf, hem, ?_⟩
          rw [hc]; exact hem.1.1
        · refine ⟨l, by rw [if_neg hfull], emitted_refl l hready hdev, ?_⟩
          have := hready.2.2.2
          omega
      obtain ⟨l1, hf, hem1, hroom⟩ := hflush
      have hready1 := hem1.1
      have hdev1 := hem1.2.1
      have hsub : sub64 l1.logger_buffer_.length l1.logger_buffer_cursor_
          = l1.logger_buffer_.length - l1.logger_buffer_cursor_ := by
        have := hready1.2.2.1
        unfold sub64
        omega
      generalize hws : min (upto_offset - from_offset)
        (l1.logger_buffer_.length - l1.logger_buffer_cursor_) = ws
      have hws1 : 0 < ws := by omega
      have hws2 : from_offset + ws ≤ upto_offset := by omega
      have hws3 : l1.logger_buffer_cursor_ + ws ≤ l1.logger_buffer_.length := by omega
      have hcopy := copy_emitted l1 buffer from_offset ws hready1 hdev1 (by omega) hws3
      have hfrom : add64 from_offset ws = from_offset + ws := by
        unfold add64
        apply Nat.mod_eq_of_lt
        omega
      have hunfold : Logger.write_log_loop get_log_code (fuel + 1) l buffer from_offset
            upto_offset
          = Logger.write_log_loop get_log_code fuel
              { l1 with
                logger_buffer_ := store l1.logger_buffer_ l1.logger_buffer_cursor_
                  (load buffer.buffer_ from_offset ws)
                logger_buffer_cursor_ := add64 l1.logger_buffer_cursor_ ws }
              buffer (from_offset + ws) upto_offset := by
        rw [Logger.write_log_loop, if_pos hlt]
        simp only [hf, bind_returns, ne_eq, not_true_eq_false, if_false, hsub, hws, hfrom]
        rw [if_pos ⟨by omega, hws3⟩]
      obtain ⟨ih1, ih2⟩ := ih _ (from_offset + ws) hcopy.1 hcopy.2.1 hws2
      have hjoin : load buffer.buffer_ from_offset ws
            ++ load buffer.buffer_ (from_offset + ws) (upto_offset - (from_offset + ws))
          = load buffer.buffer_ from_offset (upto_offset - from_offset) := by
        rw [load_append]
        congr 1
        omega
      have hgood : ∀ l2,
          Logger.write_log_loop get_log_code fuel
              { l1 with
                logger_buffer_ := store l1.logger_buffer_ l1.logger_buffer_cursor_
                  (load buffer.buffer_ from_offset ws)
                logger_buffer_cursor_ := add64 l1.logger_buffer_cursor_ ws }
              buffer (from_offset + ws) upto_offset
            = Outcome.returns (ErrorCode.ERROR_CODE_OK, l2)
          ∧ Logger.emitted
              { l1 with
                logger_buffer_ := store l1.logger_buffer_ l1.logger_buffer_cursor_
                  (load buffer.buffer_ from_offset ws)
                logger_buffer_cursor_ := add64 l1.logger_buffer_cursor_ ws }
              l2 (load buffer.buffer_ (from_offset + ws) (upto_offset - (from_offset + ws))) →
          Logger.write_log_loop get_log_code (fuel + 1) l buffer from_offset upto_offset
            = Outcome.returns (ErrorCode.ERROR_CODE_OK, l2)
          ∧ l.emitted l2 (load buffer.buffer_ from_offset (upto_offset - from_offset)) := by
        rintro l2 ⟨hrun, hem2⟩
        refine ⟨by rw [hunfold, hrun], ?_⟩
        have := emitted_trans (emitted_trans hem1 hcopy) hem2
        rw [List.nil_append, hjoin] at this
        exact this
      refine ⟨?_, ?_⟩
      · intro hfuel
        obtain ⟨l2, h2⟩ := ih1 (by omega)
        exact ⟨l2, hgood l2 h2⟩
      · rcases ih2 with hout | ⟨l2, h2⟩
        · exact Or.inl (by rw [hunfold, hout])
        · exact Or.inr ⟨l2, hgood l2 h2⟩
    · have heq : upto_offset - from_offset = 0 := by omega
      have hret : Logger.write_log_loop get_log_code (fuel + 1) l buffer from_offset
          upto_offset = Outcome.returns (ErrorCode.ERROR_CODE_OK, l) := by
        rw [Logger.write_log_loop, if_neg hlt]
      have hem : l.emitted l (load buffer.buffer_ from_offset (upto_offset - from_offset)) := by
        rw [heq]
        have : load buffer.buffer_ from_offset 0 = [] := by simp [load]
        rw [this]
        exact emitted_refl l hready hdev
      exact ⟨fun _ => ⟨l, hret, hem⟩, Or.inr ⟨l, hret, hem⟩⟩

/-- In the straight (no wrap-around) case `write_log` is its loop. -/
theorem write_log_straight (get_log_code : LogType → Nat) (fuel : Nat) (l : Logger)
    (buffer : ThreadLogBuffer) (upto_offset : Nat)
    (h : ¬ buffer.get_offset_durable > upto_offset) :
    Logger.write_log get_log_code (fuel + 1) l buffer upto_offset
      = (Logger.write_log_loop get_log_code fuel l buffer buffer.get_offset_durable
          upto_offset).bind fun r => Outcome.returns (r.1, r.2, buffer) := by
  rw [Logger.write_log]
  simp only [h, if_false]

/-- In the wrap-around case `write_log` is two nested calls of itself. -/
theorem write_log_wrapped (get_log_code : LogType → Nat) (fuel : Nat) (l : Logger)
    (buffer : ThreadLogBuffer) (upto_offset : Nat)
    (h : buffer.get_offset_durable > upto_offset) :
    Logger.write_log get_log_code (fuel + 1) l buffer upto_offset
      = (Logger.write_log get_log_code fuel l buffer buffer.buffer_size_).bind fun r1 =>
          if r1.1 ≠ ErrorCode.ERROR_CODE_OK then Outcome.returns r1
          else (Logger.write_log get_log_code fuel r1.2.1 r1.2.2 upto_offset).bind fun r2 =>
            if r2.1 ≠ ErrorCode.ERROR_CODE_OK then Outcome.returns r2
            else Outcome.returns (ErrorCode.ERROR_CODE_OK, r2.2.1, r2.2.2) := by
  rw [Logger.write_log]
  simp only [h, if_true]

/-- No path of `write_log` stores into the thread log buffer: whenever the
call returns, the buffer, its durable offset included, is what it was. -/
theorem write_log_buffer_unchanged (get_log_code : LogType → Nat) :
    ∀ (fuel : Nat) (l : Logger) (buffer : ThreadLogBuffer) (upto_offset : Nat)
      (r : ErrorCode × Logger × ThreadLogBuffer),
      Logger.write_log get_log_code fuel l buffer upto_offset = Outcome.returns r →
      r.2.2 = buffer := by
  intro fuel
  induction fuel with
  | zero => intro l buffer upto_offset r h; simp [Logger.write_log] at h
  | succ fuel ih =>
    intro l buffer upto_offset r h
    by_cases hw : buffer.get_offset_durable > upto_offset
    · rw [write_log_wrapped get_log_code fuel l buffer upto_offset hw] at h
      obtain ⟨r1, h1, h⟩ := bind_eq_returns h
      have e1 := ih l buffer _ r1 h1
      by_cases hc1 : r1.1 = ErrorCode.ERROR_CODE_OK
      · simp only [hc1, ne_eq, not_true_eq_false, if_false] at h
        obtain ⟨r2, h2, h⟩ := bind_eq_returns h
        have e2 := ih _ _ _ r2 h2
        by_cases hc2 : r2.1 = ErrorCode.ERROR_CODE_OK
        · simp only [hc2, ne_eq, not_true_eq_false, if_false, Outcome.returns.injEq] at h
          rw [← h]; simp only []; rw [e2, e1]
        · simp only [hc2, ne_eq, not_false_eq_true, if_true, Outcome.returns.injEq] at h
          rw [← h, e2, e1]
      · simp only [hc1, ne_eq, not_false_eq_true, if_true, Outcome.returns.injEq] at h
        rw [← h, e1]
    · rw [write_log_straight get_log_code fuel l buffer upto_offset hw] at h
      obtain ⟨r0, _, h⟩ := bind_eq_returns h
      simp only [Outcome.returns.injEq] at h
      rw [← h]

/-- In the wrap-around case `write_log` cannot return OK: the second nested
call meets the same durable offset and wraps around again. -/
theorem write_log_wrapped_not_ok (get_log_code : LogType → Nat) :
    ∀ (fuel : Nat) (l : Logger) (buffer : ThreadLogBuffer) (upto_offset : Nat)
      (r : ErrorCode × Logger × ThreadLogBuffer),
      buffer.get_offset_durable > upto_offset →
      Logger.write_log get_log_code fuel l buffer upto_offset = Outcome.returns r →
      r.1 ≠ ErrorCode.ERROR_CODE_OK := by
  intro fuel
  induction fuel with
  | zero => intro l buffer upto_offset r _ h; simp [Logger.write_log] at h
  | succ fuel ih =>
    intro l buffer upto_offset r hw h
    rw [write_log_wrapped get_log_code fuel l buffer upto_offset hw] at h
    obtain ⟨r1, h1, h⟩ := bind_eq_returns h
    have e1 := write_log_buffer_unchanged get_log_code fuel l buffer _ r1 h1
    by_cases hc1 : r1.1 = ErrorCode.ERROR_CODE_OK
    · simp only [hc1, ne_eq, not_true_eq_false, if_false] at h
      obtain ⟨r2, h2, h⟩ := bind_eq_returns h
      rw [e1] at h2
      have hc2 := ih _ buffer upto_offset r2 hw h2
      simp only [hc2, ne_eq, not_false_eq_true, if_true, Outcome.returns.injEq] at h
      rw [← h]; exact hc2
    · simp only [hc1, ne_eq, not_false_eq_true, if_true, Outcome.returns.injEq] at h
      rw [← h]; exact hc1

/-- The straight case of `write_log` on a usable I/O buffer and a working
device returns OK, given `upto_offset - durable + 2` units of fuel, having
emitted exactly the bytes `[durable, upto_offset)`; the buffer is unchanged. -/
theorem write_log_straight_emits (get_log_code : LogType → Nat) (fuel : Nat) (l : Logger)
    (buffer : ThreadLogBuffer) (upto_offset : Nat)
    (hready : l.io_ready) (hdev : l.current_file_.device_ok = true)
    (hle : buffer.get_offset_durable ≤ upto_offset)
    (hup : upto_offset ≤ buffer.buffer_.length) (h64 : upto_offset < 2 ^ 64)
    (hfuel : upto_offset - buffer.get_offset_durable + 1 < fuel) :
    ∃ l1, Logger.write_log get_log_code fuel l buffer upto_offset
        = Outcome.returns (ErrorCode.ERROR_CODE_OK, l1, buffer)
      ∧ l.emitted l1
          (load buffer.buffer_ buffer.get_offset_durable
            (upto_offset - buffer.get_offset_durable)) := by
  obtain ⟨k, rfl⟩ : ∃ k, fuel = k + 1 := ⟨fuel - 1, by omega⟩
  obtain ⟨l1, hrun, hem⟩ := (write_log_loop_emits get_log_code buffer upto_offset hup h64 k l
    buffer.get_offset_durable hready hdev hle).1 (by omega)
  refine ⟨l1, ?_, hem⟩
  rw [write_log_straight get_log_code k l buffer upto_offset (by omega), hrun, bind_returns]

/-- In the wrap-around case, on a usable I/O buffer and a working device,
`write_log` does not return for any amount of fuel: the first nested call
copies the tail and returns with the durable offset where it was, and the
second nested call is a wrap-around call again. -/
theorem write_log_wrapped_diverges (get_log_code : LogType → Nat) (buffer : ThreadLogBuffer)
    (upto_offset : Nat) (hw : buffer.get_offset_durable > upto_offset)
    (hdur : buffer.get_offset_durable ≤ buffer.buffer_size_)
    (hsize : buffer.buffer_size_ ≤ buffer.buffer_.length)
    (h64 : buffer.buffer_size_ < 2 ^ 64) :
    ∀ (fuel : Nat) (l : Logger), l.io_ready → l.current_file_.device_ok = true →
      Logger.write_log get_log_code fuel l buffer upto_offset = Outcome.out_of_fuel := by
  intro fuel
  induction fuel with
  | zero => intro l _ _; rfl
  | succ fuel ih =>
    intro l hready hdev
    rw [write_log_wrapped get_log_code fuel l buffer upto_offset hw]
    cases fuel with
    | zero => rfl
    | succ k =>
      rw [write_log_straight get_log_code k l buffer buffer.buffer_size_ (by omega)]
      rcases (write_log_loop_emits get_log_code buffer buffer.buffer_size_ hsize h64 k l
        buffer.get_offset_durable hready hdev hdur).2 with hout | ⟨l1, hrun, hem⟩
      · rw [hout]; rfl
      · rw [hrun]
        simp only [bind_returns, ne_eq, not_true_eq_false, if_false]
        rw [ih l1 hem.1 hem.2.1]
        rfl

theorem sample_logger_length : sample_logger.logger_buffer_.length = 4096 :=
  List.length_replicate 4096 0

theorem sample_logger_io_ready : sample_logger.io_ready := by
  refine ⟨?_, ?_, ?_, ?_⟩
  · rw [sample_logger_length]; decide
  · rw [sample_logger_length]; decide
  · rw [sample_logger_length]; norm_num
  · rw [sample_logger_length]; exact Nat.zero_le _

/-- C7 (not what the code does): `write_log` never advances the durable
offset. In the straight case, on a usable I/O buffer and a working device, the
call returns OK with the thread buffer untouched, so
`buffer->get_offset_durable()` still has its old value, which is not
`upto_offset`. -/
theorem write_log_leaves_offset_durable (get_log_code : LogType → Nat) (fuel : Nat)
    (l : Logger) (buffer : ThreadLogBuffer) (upto_offset : Nat)
    (hready : l.io_ready) (hdev : l.current_file_.device_ok = true)
    (hlt : buffer.get_offset_durable < upto_offset)
    (hup : upto_offset ≤ buffer.buffer_.length) (h64 : upto_offset < 2 ^ 64)
    (hfuel : upto_offset - buffer.get_offset_durable + 1 < fuel) :
    ∃ l1 b1, Logger.write_log get_log_code fuel l buffer upto_offset
        = Outcome.returns (ErrorCode.ERROR_CODE_OK, l1, b1)
      ∧ b1.get_offset_durable = buffer.get_offset_durable
      ∧ b1.get_offset_durable ≠ upto_offset := by
  obtain ⟨l1, hrun, _⟩ := write_log_straight_emits get_log_code fuel l buffer upto_offset
    hready hdev (by omega) hup h64 hfuel
  exact ⟨l1, buffer, hrun, rfl, by omega⟩

theorem write_log_leaves_offset_durable_witness :
    sample_buffer.get_offset_durable = 0
    ∧ ∃ l1 b1, Logger.write_log sample_get_log_code 6 sample_logger sample_buffer 4
        = Outcome.returns (ErrorCode.ERROR_CODE_OK, l1, b1)
      ∧ b1.get_offset_durable = sample_buffer.get_offset_durable
      ∧ b1.get_offset_durable ≠ 4 :=
  ⟨rfl, write_log_leaves_offset_durable sample_get_log_code 6 sample_logger sample_buffer 4
    sample_logger_io_ready rfl (by decide) (by decide) (by norm_num) (by decide)⟩

/-- C8 (not what the code does in the wrap-around case): on a usable I/O
buffer and a working device, the straight case `durable < upto_offset` appends
exactly the bytes `[durable, upto_offset)` of the thread buffer to the output
stream. In the wrap-around case `durable > upto_offset` the call never returns
OK, and on a well-formed thread buffer it does not return at all, whatever the
amount of fuel: it never delivers the tail followed by the head. -/
theorem write_log_output (get_log_code : LogType → Nat) (fuel : Nat)
    (l : Logger) (buffer : ThreadLogBuffer) (upto_offset : Nat)
    (hready : l.io_ready) (hdev : l.current_file_.device_ok = true) :
    (buffer.get_offset_durable < upto_offset →
      upto_offset ≤ buffer.buffer_.length → upto_offset < 2 ^ 64 →
      upto_offset - buffer.get_offset_durable + 1 < fuel →
      ∃ l1, Logger.write_log get_log_code fuel l buffer upto_offset
          = Outcome.returns (ErrorCode.ERROR_CODE_OK, l1, buffer)
        ∧ l1.output_stream = l.output_stream
            ++ load buffer.buffer_ buffer.get_offset_durable
                (upto_offset - buffer.get_offset_durable))
    ∧ (buffer.get_offset_durable > upto_offset →
      ∀ r, Logger.write_log get_log_code fuel l buffer upto_offset = Outcome.returns r →
        r.1 ≠ ErrorCode.ERROR_CODE_OK)
    ∧ (buffer.get_offset_durable > upto_offset →
      buffer.get_offset_durable ≤ buffer.buffer_size_ →
      buffer.buffer_size_ ≤ buffer.buffer_.length → buffer.buffer_size_ < 2 ^ 64 →
      Logger.write_log get_log_code fuel l buffer upto_offset = Outcome.out_of_fuel) := by
  refine ⟨?_, ?_, ?_⟩
  · intro hlt hup h64 hfuel
    obtain ⟨l1, hrun, hem⟩ := write_log_straight_emits get_log_code fuel l buffer upto_offset
      hready hdev (by omega) hup h64 hfuel
    exact ⟨l1, hrun, hem.2.2.2⟩
  · intro hw r h
    exact write_log_wrapped_not_ok get_log_code fuel l buffer upto_offset r hw h
  · intro hw hdur hsize h64
    exact write_log_wrapped_diverges get_log_code buffer upto_offset hw hdur hsize h64 fuel l
      hready hdev

theorem write_log_output_witness :
    (∃ l1, Logger.write_log sample_get_log_code 6 sample_logger sample_buffer 4
        = Outcome.returns (ErrorCode.ERROR_CODE_OK, l1, sample_buffer)
      ∧ l1.output_stream = sample_logger.output_stream ++ load sample_buffer.buffer_ 0 (4 - 0))
    ∧ sample_wrapped_buffer.get_offset_durable = 6
    ∧ Logger.write_log sample_get_log_code 1000 sample_logger sample_wrapped_buffer 2
        = Outcome.out_of_fuel :=
  ⟨(write_log_output sample_get_log_code 6 sample_logger sample_buffer 4
      sample_logger_io_ready rfl).1 (by decide) (by decide) (by norm_num) (by decide),
    rfl,
    (write_log_output sample_get_log_code 1000 sample_logger sample_wrapped_buffer 2
      sample_logger_io_ready rfl).2.2 (by decide) (by decide) (by decide)
      (by show (8 : Nat) < 2 ^ 64; norm_num)⟩

theorem load_length_le (mem : List Nat) (offset n : Nat) :
    (load mem offset n).length ≤ mem.length - offset := by
  simp only [load, List.length_take, List.length_drop]
  omega

theorem load_take (mem : List Nat) (offset n k : Nat) (h : offset + n ≤ k) :
    load (mem.take k) offset n = load mem offset n := by
  simp only [load, List.drop_take, List.take_take]
  congr 1
  omega

theorem load_store_take (mem : List Nat) (offset : Nat) (bytes : List Nat) (k : Nat)
    (h : offset + bytes.length ≤ mem.length) (hk : offset + bytes.length ≤ k) :
    load ((store mem offset bytes).take k) offset bytes.length = bytes := by
  rw [load_take _ _ _ _ hk, load_store _ _ _ h]

/-- C9, amended: with the cursor at 0 `flush_log` returns OK and changes
nothing. With a cursor `c > 0` inside an I/O buffer that is a positive multiple
of 4096, where `c` is a multiple of 4096 or at least 8 bytes are left in the
4096-byte unit of `c`, and a file write that succeeds, `flush_log` appends to
the file the smallest multiple of 4096 bytes not less than `c`: its first `c`
bytes are the buffered bytes, and when `c` is not a multiple of 4096 the eight
bytes at offset `c` are the filler header `{storage_id = 0, log_length = 4096 -
c mod 4096, log_type_code = filler}`; the cursor is reset to 0. -/
theorem flush_log_writes_whole_units (get_log_code : LogType → Nat) (l : Logger) :
    (l.logger_buffer_cursor_ = 0 →
      l.flush_log get_log_code = Outcome.returns (ErrorCode.ERROR_CODE_OK, l))
    ∧ (0 < l.logger_buffer_cursor_ → l.io_ready →
      (l.logger_buffer_cursor_ % LOG_WRITE_UNIT_SIZE = 0
        ∨ l.logger_buffer_cursor_ % LOG_WRITE_UNIT_SIZE + LogHeader.size
            ≤ LOG_WRITE_UNIT_SIZE) →
      l.current_file_.device_ok = true →
      ∃ l1 written,
        l.flush_log get_log_code = Outcome.returns (ErrorCode.ERROR_CODE_OK, l1)
        ∧ l1.logger_buffer_cursor_ = 0
        ∧ l1.current_file_.content = l.current_file_.content ++ written
        ∧ written.length % LOG_WRITE_UNIT_SIZE = 0
        ∧ l.logger_buffer_cursor_ ≤ written.length
        ∧ (∀ m, m % LOG_WRITE_UNIT_SIZE = 0 → l.logger_buffer_cursor_ ≤ m →
            written.length ≤ m)
        ∧ written.take l.logger_buffer_cursor_
            = l.logger_buffer_.take l.logger_buffer_cursor_
        ∧ (l.logger_buffer_cursor_ % LOG_WRITE_UNIT_SIZE ≠ 0 →
            load written l.logger_buffer_cursor_ LogHeader.size
              = LogHeader.encode
                  { storage_id_ := 0
                    log_length_ :=
                      LOG_WRITE_UNIT_SIZE - l.logger_buffer_cursor_ % LOG_WRITE_UNIT_SIZE
                    log_type_code_ := get_log_code LogType.FillerLogType }
            ∧ LogHeader.decode (load written l.logger_buffer_cursor_ LogHeader.size)
              = { storage_id_ := 0
                  log_length_ :=
                    LOG_WRITE_UNIT_SIZE - l.logger_buffer_cursor_ % LOG_WRITE_UNIT_SIZE
                  log_type_code_ := get_log_code LogType.FillerLogType % 2 ^ 16 })) := by
  refine ⟨flush_log_empty get_log_code l, ?_⟩
  intro hpos hready hfit hdev
  obtain ⟨hsz, hmul, h64, hle⟩ := hready
  by_cases hal : l.logger_buffer_cursor_ % LOG_WRITE_UNIT_SIZE = 0
  · refine ⟨_, l.logger_buffer_.take l.logger_buffer_cursor_,
      flush_log_aligned get_log_code l (by omega) hal hle hdev, rfl, rfl, ?_, ?_, ?_, ?_, ?_⟩
    · rw [List.length_take, Nat.min_eq_left hle]; exact hal
    · rw [List.length_take, Nat.min_eq_left hle]
    · intro m _ hm
      rw [List.length_take, Nat.min_eq_left hle]; exact hm
    · rw [List.take_take, Nat.min_self]
    · intro hun; exact absurd hal hun
  · have hfit2 : l.logger_buffer_cursor_ % LOG_WRITE_UNIT_SIZE + LogHeader.size
        ≤ LOG_WRITE_UNIT_SIZE := by
      rcases hfit with h | h
      · exact absurd h hal
      · exact h
    simp only [LOG_WRITE_UNIT_SIZE, LogHeader.size] at hmul hal hfit2
    have hpad : l.logger_buffer_cursor_
        + (LOG_WRITE_UNIT_SIZE - l.logger_buffer_cursor_ % LOG_WRITE_UNIT_SIZE)
        ≤ l.logger_buffer_.length := by
      simp only [LOG_WRITE_UNIT_SIZE]; omega
    have hroom : l.logger_buffer_cursor_ + LogHeader.size ≤ l.logger_buffer_.length := by
      simp only [LogHeader.size]; simp only [LOG_WRITE_UNIT_SIZE] at hpad; omega
    generalize hh : LogHeader.encode
      { storage_id_ := 0
        log_length_ := LOG_WRITE_UNIT_SIZE - l.logger_buffer_cursor_ % LOG_WRITE_UNIT_SIZE
        log_type_code_ := get_log_code LogType.FillerLogType } = hdr
    have hhl : hdr.length = LogHeader.size := by rw [← hh, encode_length]
    have hrun := flush_log_padded get_log_code l (by simpa [LOG_WRITE_UNIT_SIZE] using hal)
      hroom hpad h64 hdev
    rw [hh] at hrun
    have hlen := store_length l.logger_buffer_ l.logger_buffer_cursor_ hdr
      (by rw [hhl]; exact hroom)
    have hwl : ((store l.logger_buffer_ l.logger_buffer_cursor_ hdr).take
        (l.logger_buffer_cursor_
          + (LOG_WRITE_UNIT_SIZE - l.logger_buffer_cursor_ % LOG_WRITE_UNIT_SIZE))).length
        = l.logger_buffer_cursor_
          + (LOG_WRITE_UNIT_SIZE - l.logger_buffer_cursor_ % LOG_WRITE_UNIT_SIZE) := by
      rw [List.length_take, hlen, Nat.min_eq_left hpad]
    have hload : load ((store l.logger_buffer_ l.logger_buffer_cursor_ hdr).take
        (l.logger_buffer_cursor_
          + (LOG_WRITE_UNIT_SIZE - l.logger_buffer_cursor_ % LOG_WRITE_UNIT_SIZE)))
        l.logger_buffer_cursor_ LogHeader.size = hdr := by
      rw [← hhl]
      apply load_store_take
      · rw [hhl]; exact hroom
      · rw [hhl]; simp only [LOG_WRITE_UNIT_SIZE, LogHeader.size]; omega
    refine ⟨_, _, hrun, rfl, rfl, ?_, ?_, ?_, ?_, ?_⟩
    · rw [hwl]; simp only [LOG_WRITE_UNIT_SIZE]; omega
    · rw [hwl]; omega
    · intro m hm hcm
      rw [hwl]; simp only [LOG_WRITE_UNIT_SIZE] at hm ⊢; omega
    · rw [List.take_take, Nat.min_eq_left (by omega)]
      exact take_store_below _ _ _ _ hle (Nat.le_refl _)
    · intro _
      refine ⟨hload, ?_⟩
      rw [hload, ← hh, decode_encode]
      simp only [LOG_WRITE_UNIT_SIZE, LogHeader.mk.injEq, Nat.zero_mod, true_and, and_true]
      omega

theorem sample_unaligned_logger_length :
    sample_unaligned_logger.logger_buffer_.length = 8192 :=
  List.length_replicate 8192 0

theorem sample_unaligned_logger_io_ready : sample_unaligned_logger.io_ready := by
  refine ⟨?_, ?_, ?_, ?_⟩
  · rw [sample_unaligned_logger_length]; decide
  · rw [sample_unaligned_logger_length]; decide
  · rw [sample_unaligned_logger_length]; norm_num
  · rw [sample_unaligned_logger_length]; decide

theorem sample_tail_logger_io_ready : sample_tail_logger.io_ready := by
  have h : sample_tail_logger.logger_buffer_.length = 4096 := List.length_replicate 4096 0
  refine ⟨?_, ?_, ?_, ?_⟩
  · rw [h]; decide
  · rw [h]; decide
  · rw [h]; norm_num
  · rw [h]; decide

theorem sample_pending_logger_io_ready : sample_pending_logger.io_ready := by
  have h : sample_pending_logger.logger_buffer_.length = 4096 := List.length_replicate 4096 0
  refine ⟨?_, ?_, ?_, ?_⟩
  · rw [h]; decide
  · rw [h]; decide
  · rw [h]; norm_num
  · rw [h]; decide

theorem flush_log_writes_whole_units_witness :
    ∃ l1 written,
      sample_pending_logger.flush_log sample_get_log_code
        = Outcome.returns (ErrorCode.ERROR_CODE_OK, l1)
      ∧ l1.logger_buffer_cursor_ = 0
      ∧ l1.current_file_.content = sample_pending_logger.current_file_.content ++ written
      ∧ written.length % LOG_WRITE_UNIT_SIZE = 0
      ∧ 40 ≤ written.length
      ∧ LogHeader.decode (load written 40 LogHeader.size)
          = { storage_id_ := 0, log_length_ := 4056, log_type_code_ := 1 } := by
  obtain ⟨l1, written, h1, h2, h3, h4, h5, _, _, h8⟩ :=
    (flush_log_writes_whole_units sample_get_log_code sample_pending_logger).2
      (by decide) sample_pending_logger_io_ready (Or.inr (by decide)) rfl
  exact ⟨l1, written, h1, h2, h3, h4, h5, (h8 (by decide)).2⟩

/-- C9 as stated fails. With an 8 KiB I/O buffer and the cursor at 4095,
`flush_log` returns OK having written 4096 bytes, so the file holds a single
byte from offset 4095 on: the eight-byte filler header `{0, 1, filler}` is not
in the file at offset `c`. With a 4 KiB I/O buffer and the cursor at 4095 the
header does not even fit into the I/O buffer: the store at offset `c` runs
seven bytes past its end. -/
theorem flush_log_filler_cut_off :
    (0 < sample_unaligned_logger.logger_buffer_cursor_
      ∧ sample_unaligned_logger.io_ready
      ∧ sample_unaligned_logger.current_file_.content = []
      ∧ ∃ l1, sample_unaligned_logger.flush_log sample_get_log_code
            = Outcome.returns (ErrorCode.ERROR_CODE_OK, l1)
          ∧ l1.current_file_.content.length = 4096
          ∧ load l1.current_file_.content 4095 LogHeader.size
              ≠ LogHeader.encode
                  { storage_id_ := 0
                    log_length_ := 1
                    log_type_code_ := sample_get_log_code LogType.FillerLogType })
    ∧ (0 < sample_tail_logger.logger_buffer_cursor_
      ∧ sample_tail_logger.io_ready
      ∧ sample_tail_logger.flush_log sample_get_log_code = Outcome.out_of_bounds) := by
  refine ⟨?_, by decide, sample_tail_logger_io_ready,
    flush_log_header_overrun sample_get_log_code sample_tail_logger (by decide)
      (by rw [show sample_tail_logger.logger_buffer_.length = 4096 from
        List.length_replicate 4096 0]; decide)⟩
  refine ⟨by decide, sample_unaligned_logger_io_ready, rfl, ?_⟩
  have hrun := flush_log_padded sample_get_log_code sample_unaligned_logger (by decide)
    (by rw [sample_unaligned_logger_length]; decide)
    (by rw [sample_unaligned_logger_length]; decide)
    (by rw [sample_unaligned_logger_length]; norm_num) rfl
  refine ⟨_, hrun, ?_, ?_⟩
  · have hlen := store_length sample_unaligned_logger.logger_buffer_
      sample_unaligned_logger.logger_buffer_cursor_
      (LogHeader.encode
        { storage_id_ := 0
          log_length_ := LOG_WRITE_UNIT_SIZE
            - sample_unaligned_logger.logger_buffer_cursor_ % LOG_WRITE_UNIT_SIZE
          log_type_code_ := sample_get_log_code LogType.FillerLogType })
      (by rw [encode_length, sample_unaligned_logger_length]; decide)
    simp only [List.length_append, List.length_take, hlen, sample_unaligned_logger_length]
    decide
  · intro h
    have h1 := load_length_le
      (sample_unaligned_logger.current_file_.content
        ++ (store sample_unaligned_logger.logger_buffer_
            sample_unaligned_logger.logger_buffer_cursor_
            (LogHeader.encode
              { storage_id_ := 0
                log_length_ := LOG_WRITE_UNIT_SIZE
                  - sample_unaligned_logger.logger_buffer_cursor_ % LOG_WRITE_UNIT_SIZE
                log_type_code_ := sample_get_log_code LogType.FillerLogType })).take
          (sample_unaligned_logger.logger_buffer_cursor_
            + (LOG_WRITE_UNIT_SIZE
              - sample_unaligned_logger.logger_buffer_cursor_ % LOG_WRITE_UNIT_SIZE)))
      4095 LogHeader.size
    have hlen := store_length sample_unaligned_logger.logger_buffer_
      sample_unaligned_logger.logger_buffer_cursor_
      (LogHeader.encode
        { storage_id_ := 0
          log_length_ := LOG_WRITE_UNIT_SIZE
            - sample_unaligned_logger.logger_buffer_cursor_ % LOG_WRITE_UNIT_SIZE
          log_type_code_ := sample_get_log_code LogType.FillerLogType })
      (by rw [encode_length, sample_unaligned_logger_length]; decide)
    simp only [] at h
    rw [h, encode_length] at h1
    simp only [List.length_append, List.length_take, hlen, sample_unaligned_logger_length]
      at h1
    revert h1
    decide

theorem marker_encode_length (m : EpochMarkerLogType) :
    m.encode.length = EpochMarkerLogType.size := by
  simp [EpochMarkerLogType.encode, LogHeader.encode, le_bytes, EpochMarkerLogType.size]

theorem marker_decode_encode (m : EpochMarkerLogType) :
    EpochMarkerLogType.decode m.encode
      = { header_ :=
            { storage_id_ := m.header_.storage_id_ % 2 ^ 32
              log_length_ := m.header_.log_length_ % 2 ^ 16
              log_type_code_ := m.header_.log_type_code_ % 2 ^ 16 }
          old_epoch_ := { epoch_ := m.old_epoch_.epoch_ % 2 ^ 32 }
          new_epoch_ := { epoch_ := m.new_epoch_.epoch_ % 2 ^ 32 } } := by
  simp only [EpochMarkerLogType.decode, EpochMarkerLogType.encode, LogHeader.decode,
    LogHeader.encode, le_bytes, load, le_value, List.cons_append, List.nil_append, List.drop,
    List.take, EpochMarkerLogType.mk.injEq, LogHeader.mk.injEq, Epoch.mk.injEq]
  refine ⟨⟨?_, ?_, ?_⟩, ?_, ?_⟩ <;> omega

/-- A flush that succeeds: the I/O buffer is usable, the filler header (when
one is needed) can be stored inside it, and the device accepts the write. The
cursor is back at 0; the buffer keeps its size and the epochs are untouched. -/
theorem flush_log_succeeds (get_log_code : LogType → Nat) (l : Logger)
    (hready : l.io_ready)
    (hfit : l.logger_buffer_cursor_ % LOG_WRITE_UNIT_SIZE = 0
      ∨ l.logger_buffer_cursor_ + LogHeader.size ≤ l.logger_buffer_.length)
    (hdev : l.current_file_.device_ok = true) :
    ∃ l0, l.flush_log get_log_code = Outcome.returns (ErrorCode.ERROR_CODE_OK, l0)
      ∧ l0.logger_buffer_cursor_ = 0
      ∧ l0.logger_buffer_.length = l.logger_buffer_.length
      ∧ l0.current_epoch_ = l.current_epoch_
      ∧ l0.durable_epoch_ = l.durable_epoch_ := by
  obtain ⟨hsz, hmul, h64, hle⟩ := hready
  by_cases hzero : l.logger_buffer_cursor_ = 0
  · exact ⟨l, flush_log_empty get_log_code l hzero, hzero, rfl, rfl, rfl⟩
  · by_cases hal : l.logger_buffer_cursor_ % LOG_WRITE_UNIT_SIZE = 0
    · exact ⟨_, flush_log_aligned get_log_code l hzero hal hle hdev, rfl, rfl, rfl, rfl⟩
    · have hroom : l.logger_buffer_cursor_ + LogHeader.size ≤ l.logger_buffer_.length := by
        rcases hfit with h | h
        · exact absurd h hal
        · exact h
      have hpad : l.logger_buffer_cursor_
          + (LOG_WRITE_UNIT_SIZE - l.logger_buffer_cursor_ % LOG_WRITE_UNIT_SIZE)
          ≤ l.logger_buffer_.length := by
        simp only [LOG_WRITE_UNIT_SIZE] at hmul hal ⊢; omega
      refine ⟨_, flush_log_padded get_log_code l hal hroom hpad h64 hdev, rfl, ?_, rfl, rfl⟩
      exact store_length _ _ _ (by rw [encode_length]; exact hroom)

/-- A flush that the device turns down: with buffered bytes, room for the
filler header when one is needed, and a device that rejects the write,
`flush_log` returns the error of the write. -/
theorem flush_log_device_rejects (get_log_code : LogType → Nat) (l : Logger)
    (hfit : l.logger_buffer_cursor_ % LOG_WRITE_UNIT_SIZE = 0
      ∨ l.logger_buffer_cursor_ + LogHeader.size ≤ l.logger_buffer_.length)
    (hpos : l.logger_buffer_cursor_ ≠ 0)
    (hdev : l.current_file_.device_ok = false) :
    ∃ l0, l.flush_log get_log_code
        = Outcome.returns (ErrorCode.ERROR_CODE_FS_WRITE_FAILED, l0) := by
  by_cases hal : l.logger_buffer_cursor_ % LOG_WRITE_UNIT_SIZE = 0
  · exact ⟨l, flush_log_device_failed get_log_code l hpos hal hdev⟩
  · have hroom : l.logger_buffer_cursor_ + LogHeader.size ≤ l.logger_buffer_.length := by
      rcases hfit with h | h
      · exact absurd h hal
      · exact h
    refine ⟨{ l with
        logger_buffer_ := store l.logger_buffer_ l.logger_buffer_cursor_
          (LogHeader.encode
            { storage_id_ := 0
              log_length_ :=
                LOG_WRITE_UNIT_SIZE - l.logger_buffer_cursor_ % LOG_WRITE_UNIT_SIZE
              log_type_code_ := get_log_code LogType.FillerLogType })
        logger_buffer_cursor_ := add64 l.logger_buffer_cursor_
          (LOG_WRITE_UNIT_SIZE - l.logger_buffer_cursor_ % LOG_WRITE_UNIT_SIZE) }, ?_⟩
    simp [Logger.flush_log, hpos, hal, hroom, DirectIoFile.write, hdev]

/-- C10, amended. When the flush at the start succeeds (usable I/O buffer,
room for the filler header, the device accepts the write), for every valid
`new_epoch` later than the current epoch `E`, `switch_current_epoch(new_epoch)`
returns with the file as `flush_log` left it, the sixteen bytes at offset 0 of
the I/O buffer being the epoch marker `{storage_id = 0, log_length =
sizeof(EpochMarkerLogType), code of EpochMarkerLogType, old_epoch = E,
new_epoch}`, the cursor equal to `sizeof(EpochMarkerLogType)` and
`current_epoch_` equal to `new_epoch`. Whenever `flush_log` reports an error,
for every logger state and every `new_epoch`, `COERCE_ERROR` ends the process:
the call does not return, so no marker is written and `current_epoch_` is not
advanced; that is the case whenever there are buffered bytes and the device
rejects the write. -/
theorem switch_current_epoch_writes_marker (get_log_code : LogType → Nat) (l : Logger)
    (new_epoch : Epoch) :
    (l.io_ready →
      (l.logger_buffer_cursor_ % LOG_WRITE_UNIT_SIZE = 0
        ∨ l.logger_buffer_cursor_ + LogHeader.size ≤ l.logger_buffer_.length) →
      l.current_file_.device_ok = true →
      new_epoch.is_valid = true →
      l.current_epoch_.before new_epoch = true →
      ∃ l0 l1,
        l.flush_log get_log_code = Outcome.returns (ErrorCode.ERROR_CODE_OK, l0)
        ∧ l.switch_current_epoch get_log_code new_epoch = Outcome.returns l1
        ∧ l1.current_file_ = l0.current_file_
        ∧ load l1.logger_buffer_ 0 EpochMarkerLogType.size
            = EpochMarkerLogType.encode
                { header_ :=
                    { storage_id_ := 0
                      log_length_ := EpochMarkerLogType.size
                      log_type_code_ := get_log_code LogType.EpochMarkerLogType }
                  old_epoch_ := l.current_epoch_
                  new_epoch_ := new_epoch }
        ∧ EpochMarkerLogType.decode (load l1.logger_buffer_ 0 EpochMarkerLogType.size)
            = { header_ :=
                  { storage_id_ := 0
                    log_length_ := EpochMarkerLogType.size
                    log_type_code_ := get_log_code LogType.EpochMarkerLogType % 2 ^ 16 }
                old_epoch_ := { epoch_ := l.current_epoch_.epoch_ % 2 ^ 32 }
                new_epoch_ := { epoch_ := new_epoch.epoch_ % 2 ^ 32 } }
        ∧ l1.logger_buffer_cursor_ = EpochMarkerLogType.size
        ∧ l1.current_epoch_ = new_epoch)
    ∧ (∀ code l0, l.flush_log get_log_code = Outcome.returns (code, l0) →
        code ≠ ErrorCode.ERROR_CODE_OK →
        l.switch_current_epoch get_log_code new_epoch = Outcome.aborted)
    ∧ ((l.logger_buffer_cursor_ % LOG_WRITE_UNIT_SIZE = 0
          ∨ l.logger_buffer_cursor_ + LogHeader.size ≤ l.logger_buffer_.length) →
        l.logger_buffer_cursor_ ≠ 0 →
        l.current_file_.device_ok = false →
        l.switch_current_epoch get_log_code new_epoch = Outcome.aborted) := by
  have habort : ∀ code l0, l.flush_log get_log_code = Outcome.returns (code, l0) →
      code ≠ ErrorCode.ERROR_CODE_OK →
      l.switch_current_epoch get_log_code new_epoch = Outcome.aborted := by
    intro code l0 hflush hcode
    simp only [Logger.switch_current_epoch, hflush, bind_returns, ne_eq, hcode,
      not_false_eq_true, if_true]
  refine ⟨?_, habort, ?_⟩
  · intro hready hfit hdev _hvalid _hlater
    obtain ⟨l0, hflush, hc0, hlen0, he0, _⟩ :=
      flush_log_succeeds get_log_code l hready hfit hdev
    obtain ⟨hsz, hmul, h64, hle⟩ := hready
    have hbig : EpochMarkerLogType.size ≤ l0.logger_buffer_.length := by
      rw [hlen0]
      simp only [LOG_WRITE_UNIT_SIZE] at hmul
      simp only [EpochMarkerLogType.size]
      omega
    generalize hm : EpochMarkerLogType.encode
        { header_ :=
            { storage_id_ := 0
              log_length_ := EpochMarkerLogType.size
              log_type_code_ := get_log_code LogType.EpochMarkerLogType }
          old_epoch_ := l.current_epoch_
          new_epoch_ := new_epoch } = marker
    have hml : marker.length = EpochMarkerLogType.size := by rw [← hm, marker_encode_length]
    have hrun : l.switch_current_epoch get_log_code new_epoch
        = Outcome.returns
            { l0 with
              logger_buffer_ := store l0.logger_buffer_ 0 marker
              logger_buffer_cursor_ := EpochMarkerLogType.size
              current_epoch_ := new_epoch } := by
      have hadd : add64 0 EpochMarkerLogType.size = EpochMarkerLogType.size := by
        simp [add64, EpochMarkerLogType.size]
      simp only [Logger.switch_current_epoch, hflush, bind_returns, ne_eq, not_true_eq_false,
        if_false, hc0, Nat.zero_add, hbig, if_true, he0, hm, hadd]
    have hload : load (store l0.logger_buffer_ 0 marker) 0 EpochMarkerLogType.size
        = marker := by
      rw [← hml]
      exact load_store _ _ _ (by rw [hml, Nat.zero_add]; exact hbig)
    refine ⟨l0, _, hflush, hrun, rfl, hload, ?_, rfl, rfl⟩
    simp only [hload]
    rw [← hm, marker_decode_encode]
    simp [EpochMarkerLogType.size]
  · intro hfit hpos hdev
    obtain ⟨l0, hflush⟩ := flush_log_device_rejects get_log_code l hfit hpos hdev
    exact habort _ l0 hflush (by decide)

/-- The sample logger with 40 buffered bytes switches from epoch 3 to epoch 5;
the sample logger with a full I/O buffer whose device rejects writes does
not return from the switch. -/
theorem switch_current_epoch_writes_marker_witness :
    (∃ l0 l1,
      sample_pending_logger.flush_log sample_get_log_code
        = Outcome.returns (ErrorCode.ERROR_CODE_OK, l0)
      ∧ sample_pending_logger.switch_current_epoch sample_get_log_code { epoch_ := 5 }
        = Outcome.returns l1
      ∧ l1.current_file_ = l0.current_file_
      ∧ EpochMarkerLogType.decode (load l1.logger_buffer_ 0 EpochMarkerLogType.size)
          = { header_ := { storage_id_ := 0, log_length_ := 16, log_type_code_ := 2 }
              old_epoch_ := { epoch_ := 3 }
              new_epoch_ := { epoch_ := 5 } }
      ∧ l1.logger_buffer_cursor_ = 16
      ∧ l1.current_epoch_ = { epoch_ := 5 })
    ∧ sample_failing_logger.switch_current_epoch sample_get_log_code { epoch_ := 5 }
        = Outcome.aborted := by
  obtain ⟨l0, l1, h1, h2, h3, _, h5, h6, h7⟩ :=
    (switch_current_epoch_writes_marker sample_get_log_code sample_pending_logger
      { epoch_ := 5 }).1 sample_pending_logger_io_ready
      (Or.inr (by rw [show sample_pending_logger.logger_buffer_.length = 4096 from
        List.length_replicate 4096 0]; decide))
      rfl (by decide) (by decide)
  refine ⟨⟨l0, l1, h1, h2, h3, h5, h6, h7⟩, ?_⟩
  exact (switch_current_epoch_writes_marker sample_get_log_code sample_failing_logger
    { epoch_ := 5 }).2.2 (Or.inl (by decide)) (by decide) rfl

theorem sample_failing_logger_io_ready : sample_failing_logger.io_ready := by
  have h : sample_failing_logger.logger_buffer_.length = 4096 := List.length_replicate 4096 0
  refine ⟨?_, ?_, ?_, ?_⟩
  · rw [h]; decide
  · rw [h]; decide
  · rw [h]; norm_num
  · rw [h]; decide

/-- C10 as stated fails: a logger whose (full, well-formed) I/O buffer cannot
be flushed because the file write fails. For the valid epoch 5, later than the
current epoch 3, `switch_current_epoch` does not write a marker and does not
advance `current_epoch_`: `COERCE_ERROR(flush_log())` ends the process. -/
theorem switch_current_epoch_aborts_when_flush_fails :
    sample_failing_logger.io_ready
    ∧ Epoch.is_valid { epoch_ := 5 } = true
    ∧ sample_failing_logger.current_epoch_.before { epoch_ := 5 } = true
    ∧ sample_failing_logger.flush_log sample_get_log_code
        = Outcome.returns (ErrorCode.ERROR_CODE_FS_WRITE_FAILED, sample_failing_logger)
    ∧ sample_failing_logger.switch_current_epoch sample_get_log_code { epoch_ := 5 }
        = Outcome.aborted := by
  have hflush := flush_log_device_failed sample_get_log_code sample_failing_logger
    (by decide) (by decide) rfl
  refine ⟨sample_failing_logger_io_ready, by decide, by decide, hflush, ?_⟩
  simp only [Logger.switch_current_epoch, hflush, bind_returns]
  decide

end foedus.log

/-! ## Theorems: the rendezvous -/

namespace foedus.thread

open foedus

/-- C20 fails on the code in its `wait_until` part. A `Rendezvous` is a
one-shot event as far as its other members go: a newly constructed one is not
signaled; after `signal()` `is_signaled()` is true; once it is signaled every
operation that can be called returns and leaves it signaled; `wait()` then
returns at once, with the state as it was, and `wait_for()` returns true for
every timeout, whatever the other threads do. But `wait_until()` returns
nothing in any state and for any time point: its body passes the time point to
`condition_.wait_for`, which takes a duration, so no call of it is
well-formed. -/
theorem rendezvous_one_shot (r : Rendezvous) :
    Rendezvous.construct.is_signaled = false
    ∧ r.signal.is_signaled = true
    ∧ (r.is_signaled = true →
        (∀ call, ∃ r1, r.after call = Outcome.returns r1 ∧ r1.is_signaled = true)
        ∧ (∀ signal_arrives, r.wait signal_arrives = Outcome.returns r)
        ∧ (∀ timeout signal_arrives, r.wait_for timeout signal_arrives = (true, r)))
    ∧ (∀ until_ signal_arrives, r.wait_until until_ signal_arrives = none)
    ∧ (∀ ticks signal_arrives,
        condition_wait_for (TimeArgument.time_point ticks) signal_arrives = none
        ∧ condition_wait_for (TimeArgument.duration ticks) signal_arrives
            = some (decide (signal_arrives ∧ 0 < ticks))) := by
  refine ⟨rfl, rfl, ?_, fun _ _ => rfl, fun _ _ => ⟨rfl, rfl⟩⟩
  intro h
  have hw : ∀ a, r.wait a = Outcome.returns r := by
    intro a; simp [Rendezvous.wait, h]
  have hf : ∀ t a, r.wait_for t a = (true, r) := by
    intro t a; simp [Rendezvous.wait_for, h]
  refine ⟨?_, hw, hf⟩
  intro call
  cases call with
  | signal => exact ⟨r.signal, rfl, rfl⟩
  | is_signaled => exact ⟨r, rfl, h⟩
  | wait a => exact ⟨r, hw a, h⟩
  | wait_for t a => exact ⟨r, by simp [Rendezvous.after, hf], h⟩

/-- A signaled rendezvous: `wait` and `wait_for` return at once, and a
`wait_until` for the time point 3 has no result. -/
theorem rendezvous_one_shot_witness :
    Rendezvous.construct.signal.is_signaled = true
    ∧ (∀ call, ∃ r1, Rendezvous.construct.signal.after call = Outcome.returns r1
        ∧ r1.is_signaled = true)
    ∧ Rendezvous.construct.signal.wait false = Outcome.returns Rendezvous.construct.signal
    ∧ Rendezvous.construct.signal.wait_for 0 false = (true, Rendezvous.construct.signal)
    ∧ Rendezvous.construct.signal.wait_until 3 false = none :=
  ⟨rfl, ((rendezvous_one_shot Rendezvous.construct.signal).2.2.1 rfl).1,
    ((rendezvous_one_shot Rendezvous.construct.signal).2.2.1 rfl).2.1 false,
    ((rendezvous_one_shot Rendezvous.construct.signal).2.2.1 rfl).2.2 0 false,
    (rendezvous_one_shot Rendezvous.construct.signal).2.2.2.1 3 false⟩

end foedus.thread

/-! ## Theorems: the array partitioner -/

namespace foedus.storage.array

open foedus

theorem partition_batch_cons (p : ArrayPartitioner) (offset : Nat) (rest : List Nat) :
    p.partition_batch (offset :: rest)
      = match p.bucket_owners_[offset / p.bucket_size_]? with
        | none => Outcome.out_of_bounds
        | some owner =>
          (p.partition_batch rest).bind fun results => Outcome.returns (owner :: results) := by
  rw [ArrayPartitioner.partition_batch]
  rfl

/-- What `partition_batch` does while the buckets stay in range: for a
partitioner with `bucket_size_ = floor(array_size_ / kInteriorFanout) >= 1` and
a batch of logs all of whose buckets `floor(offset / bucket_size_)` are below
`kInteriorFanout`, the size of `bucket_owners_`, it returns, for each
`i < logs_count`, `results[i] = bucket_owners_[floor(offset_i / bucket_size_)]`:
each result is a function of that log's own offset. -/
theorem partition_batch_owner (p : ArrayPartitioner) (offsets : List Nat)
    (_hbucket : p.bucket_size_ = p.array_size_ / kInteriorFanout)
    (_hpos : 1 ≤ p.bucket_size_)
    (howners : p.bucket_owners_.length = kInteriorFanout)
    (hin : ∀ offset ∈ offsets, offset / p.bucket_size_ < kInteriorFanout) :
    ∃ results : List Nat, p.partition_batch offsets = Outcome.returns results
      ∧ results.length = offsets.length
      ∧ ∀ (i offset : Nat), offsets[i]? = some offset →
          results[i]? = p.bucket_owners_[offset / p.bucket_size_]? := by
  induction offsets with
  | nil => exact ⟨[], rfl, rfl, by intro i offset h; simp at h⟩
  | cons o rest ih =>
    obtain ⟨results, hrun, hlen, hres⟩ := ih (fun x hx => hin x (List.mem_cons_of_mem _ hx))
    have ho : o / p.bucket_size_ < p.bucket_owners_.length := by
      rw [howners]; exact hin o (List.mem_cons_self _ _)
    refine ⟨p.bucket_owners_[o / p.bucket_size_] :: results, ?_, ?_, ?_⟩
    · rw [partition_batch_cons, List.getElem?_eq_getElem ho, hrun]
      rfl
    · simp only [List.length_cons, hlen]
    · intro i offset h
      cases i with
      | zero =>
        simp only [List.getElem?_cons_zero, Option.some.injEq] at h
        subst h
        simp only [List.getElem?_cons_zero, List.getElem?_eq_getElem ho]
      | succ j =>
        simp only [List.getElem?_cons_succ] at h
        simp only [List.getElem?_cons_succ]
        exact hres j offset h

/-- Three offsets of the sample array whose buckets are 0, 1 and 250. -/
theorem partition_batch_owner_witness :
    ∃ results : List Nat,
      sample_partitioner.partition_batch [0, 3984, 999983] = Outcome.returns results
      ∧ results.length = 3
      ∧ ∀ (i offset : Nat), [0, 3984, 999983][i]? = some offset →
          results[i]? = sample_partitioner.bucket_owners_[offset / 3984]? :=
  partition_batch_owner sample_partitioner [0, 3984, 999983] (by decide) (by decide)
    (by simp [sample_partitioner]) (by decide)

/-- C16 fails on the code: in the partitionable 1,000,000-element array, where
`bucket_size_ = floor(1000000 / 251) = 3984`, the log offset 999,990 is below
`array_size_`, yet its bucket is `floor(999990 / 3984) = 251 =
kInteriorFanout`. The code's own `ASSERT_ND(bucket < kInteriorFanout)` does not
hold and the lookup `bucket_owners_[251]` is outside the `kInteriorFanout`
entries of the array, so no entry of `bucket_owners_` is the result. -/
theorem partition_batch_bucket_out_of_range :
    sample_partitioner.is_partitionable = true
    ∧ sample_partitioner.bucket_size_ = sample_partitioner.array_size_ / kInteriorFanout
    ∧ sample_partitioner.bucket_owners_.length = kInteriorFanout
    ∧ 999990 < sample_partitioner.array_size_
    ∧ ConstDiv.div64 sample_partitioner.bucket_size_ 999990 = kInteriorFanout
    ∧ sample_partitioner.partition_batch [999990] = Outcome.out_of_bounds := by
  have hlen : sample_partitioner.bucket_owners_.length = kInteriorFanout := by
    simp [sample_partitioner]
  refine ⟨rfl, by decide, hlen, by decide, by decide, ?_⟩
  have hnone : sample_partitioner.bucket_owners_[999990 / sample_partitioner.bucket_size_]?
      = none := by
    apply List.getElem?_eq_none
    rw [hlen]
    decide
  rw [partition_batch_cons, hnone]

theorem excessive_count_eq (direct_children total_partitions : Nat)
    (hdc : direct_children ≤ kInteriorFanout) :
    excessive_count direct_children total_partitions
      = direct_children * 12 / (total_partitions * 10) + 1 := by
  unfold excessive_count
  apply Nat.mod_eq_of_lt
  have h1 : direct_children * 12 / (total_partitions * 10) ≤ direct_children * 12 :=
    Nat.div_le_self _ _
  simp only [kInteriorFanout] at hdc
  omega

/-- C17, amended: in the first pass a child (read through its root pointer,
its primary partition being the NUMA node of the volatile page when the
volatile pointer's offset is non-zero and the node encoded in the snapshot
pointer otherwise, a node below `total_partitions`) is deferred as excessive
exactly when its primary partition already holds at least
`floor(direct_children * 12 / (total_partitions * 10)) + 1` children;
otherwise it is assigned to the primary partition, whose count goes up by
one. -/
theorem first_pass_step_defers_iff (direct_children total_partitions : Nat)
    (root : List DualPagePointer) (st : Assignment) (child : Nat) (pointer : DualPagePointer)
    (hdc : direct_children ≤ kInteriorFanout)
    (hroot : root[child]? = some pointer)
    (hnode : primary_partition pointer < st.counts.length)
    (hchild : child < st.bucket_owners_.length) :
    excessive_count direct_children total_partitions
        = direct_children * 12 / (total_partitions * 10) + 1
    ∧ primary_partition pointer
        = (if pointer.volatile_pointer_.offset ≠ 0 then pointer.volatile_pointer_.numa_node
          else pointer.snapshot_pointer_ / 2 ^ 56 % 2 ^ 8)
    ∧ (st.counts[primary_partition pointer]
          ≥ direct_children * 12 / (total_partitions * 10) + 1 →
        first_pass_step (excessive_count direct_children total_partitions) root st child
          = Outcome.returns
              { st with excessive_children := st.excessive_children ++ [child] })
    ∧ (st.counts[primary_partition pointer]
          < direct_children * 12 / (total_partitions * 10) + 1 →
        first_pass_step (excessive_count direct_children total_partitions) root st child
          = Outcome.returns
              { st with
                counts := st.counts.set (primary_partition pointer)
                  (st.counts[primary_partition pointer] + 1)
                bucket_owners_ := st.bucket_owners_.set child (primary_partition pointer) }) := by
  have hE := excessive_count_eq direct_children total_partitions hdc
  refine ⟨hE, rfl, ?_, ?_⟩
  · intro h
    simp only [first_pass_step, hroot, List.getElem?_eq_getElem hnode, hE, ge_iff_le, h,
      if_true]
  · intro h
    have h1 : ¬ direct_children * 12 / (total_partitions * 10) + 1
        ≤ st.counts[primary_partition pointer] := by omega
    have h2 : (st.counts[primary_partition pointer] + 1) % 2 ^ 16
        = st.counts[primary_partition pointer] + 1 := by
      apply Nat.mod_eq_of_lt
      have := Nat.div_le_self (direct_children * 12) (total_partitions * 10)
      simp only [kInteriorFanout] at hdc
      omega
    simp only [first_pass_step, hroot, List.getElem?_eq_getElem hnode, hE, ge_iff_le, h1,
      if_false, hchild, if_true, h2]

theorem first_pass_step_defers_iff_witness :
    first_pass_step (excessive_count 10 4) (sample_root 10 0)
        { counts := [4, 0, 0, 0], excessive_children := [], bucket_owners_ := [0, 0, 0, 0, 9] }
        4
      = Outcome.returns
          { counts := [4, 0, 0, 0], excessive_children := [4],
            bucket_owners_ := [0, 0, 0, 0, 9] } :=
  (first_pass_step_defers_iff 10 4 (sample_root 10 0)
    { counts := [4, 0, 0, 0], excessive_children := [], bucket_owners_ := [0, 0, 0, 0, 9] }
    4 { snapshot_pointer_ := 0, volatile_pointer_ := { numa_node := 0, offset := 1 } }
    (by decide) (by decide) (by decide) (by decide)).2.2.1 (by decide)

set_option maxRecDepth 100000 in
/-- C17 as stated fails: with 251 direct children and 4 partitions,
`ceil(251 * 1.2 / 4) = 76`. When the first 77 children all live on node 0, the
first 76 are assigned to partition 0 and child 76 is deferred although
partition 0 holds exactly 76 children, not more than 76. -/
theorem first_pass_defers_at_the_bound :
    (251 * 12 + (4 * 10 - 1)) / (4 * 10) = 76
    ∧ (first_pass (excessive_count 251 4) (sample_root 251 0)
          { counts := List.replicate 4 0
            excessive_children := []
            bucket_owners_ := List.replicate kInteriorFanout 0 }
          (List.range 77)).bind
        (fun st => Outcome.returns (st.counts, st.excessive_children))
      = Outcome.returns ([76, 0, 0, 0], [76]) := by
  decide

/-- The scan keeps the first partition with the least count among those it has
seen: the result is at most as loaded as every scanned partition and strictly
less loaded than every scanned partition with a smaller id. -/
theorem most_needy_scan_spec (counts : List Nat) :
    ∀ (partitions : List Nat) (start : Nat),
      (∀ p ∈ partitions, start < p) → partitions.Pairwise (· < ·) →
      (most_needy_scan counts start partitions = start
          ∨ most_needy_scan counts start partitions ∈ partitions)
        ∧ (most_needy_scan counts start partitions ≠ start →
            counts.getD (most_needy_scan counts start partitions) 0 < counts.getD start 0)
        ∧ counts.getD (most_needy_scan counts start partitions) 0 ≤ counts.getD start 0
        ∧ (∀ p ∈ partitions,
            counts.getD (most_needy_scan counts start partitions) 0 ≤ counts.getD p 0)
        ∧ (∀ p ∈ partitions, p < most_needy_scan counts start partitions →
            counts.getD (most_needy_scan counts start partitions) 0 < counts.getD p 0) := by
  intro partitions
  induction partitions with
  | nil =>
    intro start _ _
    simp [most_needy_scan]
  | cons q qs ih =>
    intro start hstart hsorted
    have hq : start < q := hstart q (List.mem_cons_self _ _)
    obtain ⟨hqs, hsorted'⟩ := List.pairwise_cons.1 hsorted
    by_cases hlt : counts.getD q 0 < counts.getD start 0
    · have hscan : most_needy_scan counts start (q :: qs) = most_needy_scan counts q qs := by
        simp only [most_needy_scan, hlt, if_true]
      obtain ⟨h1, h2, h3, h4, h5⟩ := ih q hqs hsorted'
      rw [hscan]
      refine ⟨?_, ?_, ?_, ?_, ?_⟩
      · rcases h1 with h | h
        · exact Or.inr (by rw [h]; exact List.mem_cons_self _ _)
        · exact Or.inr (List.mem_cons_of_mem _ h)
      · intro _; omega
      · omega
      · intro p hp
        rcases List.mem_cons.1 hp with rfl | hp
        · exact h3
        · exact h4 p hp
      · intro p hp hlt2
        rcases List.mem_cons.1 hp with rfl | hp
        · by_cases he : most_needy_scan counts p qs = p
          · omega
          · exact h2 he
        · exact h5 p hp hlt2
    · have hscan : most_needy_scan counts start (q :: qs)
          = most_needy_scan counts start qs := by
        simp only [most_needy_scan, hlt, if_false]
      obtain ⟨h1, h2, h3, h4, h5⟩ := ih start
        (fun p hp => hstart p (List.mem_cons_of_mem _ hp)) hsorted'
      rw [hscan]
      refine ⟨?_, h2, h3, ?_, ?_⟩
      · rcases h1 with h | h
        · exact Or.inl h
        · exact Or.inr (List.mem_cons_of_mem _ h)
      · intro p hp
        rcases List.mem_cons.1 hp with rfl | hp
        · omega
        · exact h4 p hp
      · intro p hp hlt2
        rcases List.mem_cons.1 hp with rfl | hp
        · rcases h1 with h | h
          · rw [h] at hlt2; omega
          · by_cases he : most_needy_scan counts start qs = start
            · rw [he] at hlt2; omega
            · have := h2 he; omega
        · exact h5 p hp hlt2

/-- The partition picked by the second pass is a partition with the least
count, and the one with the lowest id among those. -/
theorem most_needy_spec (counts : List Nat) (total_partitions : Nat)
    (htp : 0 < total_partitions) :
    most_needy counts total_partitions < total_partitions
      ∧ (∀ p, p < total_partitions →
          counts.getD (most_needy counts total_partitions) 0 ≤ counts.getD p 0)
      ∧ (∀ p, p < most_needy counts total_partitions →
          counts.getD (most_needy counts total_partitions) 0 < counts.getD p 0) := by
  obtain ⟨h1, h2, h3, h4, h5⟩ := most_needy_scan_spec counts
    (List.range' 1 (total_partitions - 1)) 0
    (by intro p hp; rw [List.mem_range'_1] at hp; omega)
    (List.pairwise_lt_range' 1 (total_partitions - 1))
  unfold most_needy
  have hmem : most_needy_scan counts 0 (List.range' 1 (total_partitions - 1)) = 0
      ∨ (1 ≤ most_needy_scan counts 0 (List.range' 1 (total_partitions - 1))
        ∧ most_needy_scan counts 0 (List.range' 1 (total_partitions - 1))
            < 1 + (total_partitions - 1)) := by
    rcases h1 with h | h
    · exact Or.inl h
    · exact Or.inr (List.mem_range'_1.1 h)
  refine ⟨by omega, ?_, ?_⟩
  · intro p hp
    by_cases h0 : p = 0
    · rw [h0]; exact h3
    · exact h4 p (List.mem_range'_1.2 (by omega))
  · intro p hp
    by_cases h0 : p = 0
    · rw [h0]
      exact h2 (by omega)
    · exact h5 p (List.mem_range'_1.2 (by omega)) hp

/-- The children deferred by the first pass are appended to
`excessive_children` in the order in which the pass meets them. -/
theorem first_pass_excessive_sublist (excessive : Nat) (root : List DualPagePointer) :
    ∀ (children : List Nat) (st st1 : Assignment),
      first_pass excessive root st children = Outcome.returns st1 →
      ∃ deferred, deferred.Sublist children
        ∧ st1.excessive_children = st.excessive_children ++ deferred := by
  intro children
  induction children with
  | nil =>
    intro st st1 h
    simp only [first_pass, Outcome.returns.injEq] at h
    exact ⟨[], List.Sublist.refl _, by rw [h, List.append_nil]⟩
  | cons c cs ih =>
    intro st st1 h
    simp only [first_pass] at h
    cases hstep : first_pass_step excessive root st c with
    | returns st2 =>
      rw [hstep] at h
      obtain ⟨deferred, hsub, heq⟩ := ih st2 st1 h
      have h2 : st2.excessive_children = st.excessive_children
          ∨ st2.excessive_children = st.excessive_children ++ [c] := by
        cases hroot : root[c]? with
        | none => simp [first_pass_step, hroot] at hstep
        | some pointer =>
          cases hcount : st.counts[primary_partition pointer]? with
          | none => simp [first_pass_step, hroot, hcount] at hstep
          | some count =>
            by_cases hge : count ≥ excessive
            · simp only [first_pass_step, hroot, hcount, hge, if_true,
                Outcome.returns.injEq] at hstep
              rw [← hstep]; exact Or.inr rfl
            · by_cases hlen : c < st.bucket_owners_.length
              · simp only [first_pass_step, hroot, hcount, hge, if_false, hlen, if_true,
                  Outcome.returns.injEq] at hstep
                rw [← hstep]; exact Or.inl rfl
              · simp [first_pass_step, hroot, hcount, hge, hlen] at hstep
      rcases h2 with h2 | h2
      · exact ⟨deferred, List.Sublist.cons _ hsub, by rw [heq, h2]⟩
      · exact ⟨c :: deferred, List.Sublist.cons₂ _ hsub, by
          rw [heq, h2, List.append_assoc, List.singleton_append]⟩
    | blocked => rw [hstep] at h; cases h
    | out_of_fuel => rw [hstep] at h; cases h
    | out_of_bounds => rw [hstep] at h; cases h
    | aborted => rw [hstep] at h; cases h

/-- C18: in the second pass every deferred child, the deferred children being
taken in index order, is assigned to a partition whose count is minimal among
all partitions at that moment, the one with the lowest id on ties, and that
partition's count is then increased by one. -/
theorem second_pass_step_least_loaded (total_partitions : Nat) (st : Assignment)
    (child : Nat)
    (htp : 0 < total_partitions)
    (hcounts : st.counts.length = total_partitions)
    (hsmall : ∀ count ∈ st.counts, count + 1 < 2 ^ 16)
    (hchild : child < st.bucket_owners_.length) :
    (∃ needy,
      needy < total_partitions
      ∧ (∀ p, p < total_partitions → st.counts.getD needy 0 ≤ st.counts.getD p 0)
      ∧ (∀ p, p < needy → st.counts.getD needy 0 < st.counts.getD p 0)
      ∧ second_pass_step total_partitions st child
          = Outcome.returns
              { st with
                counts := st.counts.set needy (st.counts.getD needy 0 + 1)
                bucket_owners_ := st.bucket_owners_.set child needy })
    ∧ (∀ rest, second_pass total_partitions st (child :: rest)
        = (second_pass_step total_partitions st child).bind fun st1 =>
            second_pass total_partitions st1 rest)
    ∧ (∀ direct_children excessive root owners st1,
        first_pass excessive root
            { counts := List.replicate total_partitions 0
              excessive_children := []
              bucket_owners_ := owners }
            (List.range direct_children) = Outcome.returns st1 →
        st1.excessive_children.Pairwise (· < ·)) := by
  refine ⟨?_, fun _ => rfl, ?_⟩
  · obtain ⟨h1, h2, h3⟩ := most_needy_spec st.counts total_partitions htp
    have hlt : most_needy st.counts total_partitions < st.counts.length := by
      rw [hcounts]; exact h1
    have hget : st.counts.getD (most_needy st.counts total_partitions) 0
        = st.counts[most_needy st.counts total_partitions] := by
      rw [List.getD_eq_getElem _ _ hlt]
    refine ⟨most_needy st.counts total_partitions, h1, h2, h3, ?_⟩
    have hmod : (st.counts[most_needy st.counts total_partitions] + 1) % 2 ^ 16
        = st.counts[most_needy st.counts total_partitions] + 1 :=
      Nat.mod_eq_of_lt (hsmall _ (List.getElem_mem _))
    simp only [second_pass_step, List.getElem?_eq_getElem hlt, hchild, if_true, hmod, hget]
  · intro direct_children excessive root owners st1 hrun
    obtain ⟨deferred, hsub, heq⟩ := first_pass_excessive_sublist excessive root _ _ _ hrun
    rw [heq, List.nil_append]
    exact List.Pairwise.sublist hsub (List.pairwise_lt_range direct_children)

theorem second_pass_step_least_loaded_witness :
    ∃ needy,
      needy < 4
      ∧ (∀ p, p < 4 → [4, 2, 1, 1].getD needy 0 ≤ [4, 2, 1, 1].getD p 0)
      ∧ (∀ p, p < needy → [4, 2, 1, 1].getD needy 0 < [4, 2, 1, 1].getD p 0)
      ∧ second_pass_step 4
            { counts := [4, 2, 1, 1], excessive_children := [8, 9],
              bucket_owners_ := [0, 0, 0, 0, 1, 1, 2, 3, 7, 7] } 8
          = Outcome.returns
              { counts := [4, 2, 1, 1].set needy ([4, 2, 1, 1].getD needy 0 + 1)
                excessive_children := [8, 9]
                bucket_owners_ := [0, 0, 0, 0, 1, 1, 2, 3, 7, 7].set 8 needy } :=
  (second_pass_step_least_loaded 4
    { counts := [4, 2, 1, 1], excessive_children := [8, 9],
      bucket_owners_ := [0, 0, 0, 0, 1, 1, 2, 3, 7, 7] } 8
    (by decide) (by decide) (by decide) (by decide)).1

end foedus.storage.array

namespace foedus.storage.array

open foedus

theorem bind_returns_assign {α β : Type} (a : α) (f : α → Outcome β) :
    (Outcome.returns a).bind f = f a := rfl

theorem getD_set_counts (l : List Nat) (i j v : Nat) (hi : i < l.length) :
    (l.set i v).getD j 0 = if j = i then v else l.getD j 0 := by
  simp only [List.getD_eq_getElem?_getD, List.getElem?_set]
  by_cases h : i = j
  · subst h; simp [hi]
  · have h' : ¬ j = i := fun e => h e.symm
    simp [h, h']

theorem sum_set_succ : ∀ (l : List Nat) (i : Nat), i < l.length →
    (l.set i (l.getD i 0 + 1)).sum = l.sum + 1 := by
  intro l
  induction l with
  | nil => intro i hi; simp at hi
  | cons x xs ih =>
    intro i hi
    cases i with
    | zero => simp; omega
    | succ j =>
      have hj : j < xs.length := by simpa using hi
      have := ih j hj
      simp only [List.set_cons_succ, List.sum_cons, List.getD_cons_succ, this]
      omega

theorem owned_after_set (assigned : Finset Nat) (owners : List Nat) (child partition p : Nat)
    (hnew : child ∉ assigned) (hlen : child < owners.length) :
    ((insert child assigned).filter fun c => (owners.set child partition)[c]? = some p).card
      = (assigned.filter fun c => owners[c]? = some p).card
        + (if p = partition then 1 else 0) := by
  by_cases hp : p = partition
  · subst hp
    have hset : ((insert child assigned).filter
          fun c => (owners.set child p)[c]? = some p)
        = insert child (assigned.filter fun c => owners[c]? = some p) := by
      ext c
      simp only [Finset.mem_filter, Finset.mem_insert, List.getElem?_set]
      by_cases hc : child = c
      · subst hc; simp [hlen]
      · have hc' : ¬ c = child := fun e => hc e.symm
        simp [hc, hc']
    rw [hset, Finset.card_insert_of_not_mem (by simp [hnew])]
    simp
  · have hset : ((insert child assigned).filter
          fun c => (owners.set child partition)[c]? = some p)
        = assigned.filter fun c => owners[c]? = some p := by
      ext c
      simp only [Finset.mem_filter, Finset.mem_insert, List.getElem?_set]
      by_cases hc : child = c
      · subst hc
        have : ¬ partition = p := fun e => hp e.symm
        simp [hlen, hnew, this]
      · have hc' : ¬ c = child := fun e => hc e.symm
        simp [hc, hc']
    rw [hset]
    simp [hp]

/-- Giving an unassigned child to a partition whose count is below the cap
keeps the bookkeeping right. -/
theorem tallies_assign (st : Assignment) (total_partitions cap : Nat)
    (assigned : Finset Nat) (child partition : Nat)
    (h : st.tallies total_partitions cap assigned)
    (hnew : child ∉ assigned) (hlen : child < st.bucket_owners_.length)
    (hp : partition < total_partitions) (hcap : st.counts.getD partition 0 < cap) :
    Assignment.tallies
      { st with
        counts := st.counts.set partition (st.counts.getD partition 0 + 1)
        bucket_owners_ := st.bucket_owners_.set child partition }
      total_partitions cap (insert child assigned) := by
  obtain ⟨h1, h2, h3, h4⟩ := h
  have hpl : partition < st.counts.length := by rw [h1]; exact hp
  refine ⟨?_, ?_, ?_, ?_⟩
  · simp only [List.length_set]; exact h1
  · intro p
    simp only []
    rw [getD_set_counts _ _ _ _ hpl, owned_after_set _ _ _ _ _ hnew hlen, ← h2 p]
    by_cases e : p = partition
    · simp [e]
    · simp [e]
  · simp only []
    rw [sum_set_succ _ _ hpl, h3, Finset.card_insert_of_not_mem hnew]
  · intro p
    simp only []
    rw [getD_set_counts _ _ _ _ hpl]
    by_cases e : p = partition
    · simp only [e, if_true]; omega
    · simp only [e, if_false]; exact h4 p

theorem tallies_congr (st st1 : Assignment) (total_partitions cap : Nat)
    (assigned assigned1 : Finset Nat)
    (h : st.tallies total_partitions cap assigned)
    (hc : st1.counts = st.counts) (ho : st1.bucket_owners_ = st.bucket_owners_)
    (hs : assigned1 = assigned) :
    st1.tallies total_partitions cap assigned1 := by
  unfold Assignment.tallies at h ⊢
  rw [hc, ho, hs]
  exact h

theorem excessive_count_lt (direct_children total_partitions : Nat) :
    excessive_count direct_children total_partitions < 2 ^ 16 := by
  unfold excessive_count
  exact Nat.mod_lt _ (by norm_num)

/-- The first loop, from child `k` on, keeps the bookkeeping right for the set
of children below the loop index that were not deferred. -/
theorem first_pass_tallies (direct_children total_partitions : Nat)
    (root : List DualPagePointer)
    (hroot : direct_children ≤ root.length)
    (hnodes : ∀ child pointer, child < direct_children → root[child]? = some pointer →
      primary_partition pointer < total_partitions) :
    ∀ (m k : Nat) (st : Assignment),
      k + m ≤ direct_children →
      direct_children ≤ st.bucket_owners_.length →
      st.tallies total_partitions (excessive_count direct_children total_partitions)
        ((Finset.range k).filter fun c => c ∉ st.excessive_children) →
      (∀ c ∈ st.excessive_children, c < k) →
      st.excessive_children.Nodup →
      ∃ st1,
        first_pass (excessive_count direct_children total_partitions) root st
            (List.range' k m) = Outcome.returns st1
        ∧ st1.bucket_owners_.length = st.bucket_owners_.length
        ∧ st1.tallies total_partitions (excessive_count direct_children total_partitions)
            ((Finset.range (k + m)).filter fun c => c ∉ st1.excessive_children)
        ∧ (∀ c ∈ st1.excessive_children, c < k + m)
        ∧ st1.excessive_children.Nodup := by
  intro m
  induction m with
  | zero =>
    intro k st _ _ ht hlt hnd
    exact ⟨st, rfl, rfl, ht, hlt, hnd⟩
  | succ m ih =>
    intro k st hk hown ht hlt hnd
    have hkr : k < root.length := by omega
    have hnode := hnodes k root[k] (by omega) (List.getElem?_eq_getElem hkr)
    have hcl : primary_partition root[k] < st.counts.length := by rw [ht.1]; exact hnode
    have hkn : k ∉ st.excessive_children := fun hmem => Nat.lt_irrefl k (hlt k hmem)
    -- the state after the step for child `k`
    have hstep : ∃ st2,
        first_pass_step (excessive_count direct_children total_partitions) root st k
          = Outcome.returns st2
        ∧ st2.bucket_owners_.length = st.bucket_owners_.length
        ∧ st2.tallies total_partitions (excessive_count direct_children total_partitions)
            ((Finset.range (k + 1)).filter fun c => c ∉ st2.excessive_children)
        ∧ (∀ c ∈ st2.excessive_children, c < k + 1)
        ∧ st2.excessive_children.Nodup := by
      by_cases hge : st.counts[primary_partition root[k]]
          ≥ excessive_count direct_children total_partitions
      · refine ⟨{ st with excessive_children := st.excessive_children ++ [k] }, ?_, rfl, ?_,
          ?_, ?_⟩
        · simp only [first_pass_step, List.getElem?_eq_getElem hkr,
            List.getElem?_eq_getElem hcl, hge, if_true]
        · refine tallies_congr st _ _ _ _ _ ht rfl rfl ?_
          ext c
          simp only [Finset.mem_filter, Finset.mem_range, List.mem_append,
            List.mem_singleton, not_or]
          constructor
          · rintro ⟨_, h2, h3⟩; exact ⟨by omega, h2⟩
          · rintro ⟨h1, h2⟩; exact ⟨by omega, h2, by omega⟩
        · intro c hc
          simp only [List.mem_append, List.mem_singleton] at hc
          rcases hc with hc | hc
          · have := hlt c hc; omega
          · omega
        · simp only []
          rw [List.nodup_append]
          refine ⟨hnd, List.nodup_singleton k, ?_⟩
          intro a ha hb
          simp only [List.mem_singleton] at hb
          subst hb
          exact hkn ha
      · have hlt2 : st.counts[primary_partition root[k]]
            < excessive_count direct_children total_partitions := by omega
        have hmod : (st.counts[primary_partition root[k]] + 1) % 2 ^ 16
            = st.counts[primary_partition root[k]] + 1 := by
          apply Nat.mod_eq_of_lt
          have := excessive_count_lt direct_children total_partitions
          omega
        have hgetD : st.counts.getD (primary_partition root[k]) 0
            = st.counts[primary_partition root[k]] := List.getD_eq_getElem _ _ hcl
        have hkl : k < st.bucket_owners_.length := by omega
        refine ⟨{ st with
            counts := st.counts.set (primary_partition root[k])
              (st.counts.getD (primary_partition root[k]) 0 + 1)
            bucket_owners_ := st.bucket_owners_.set k (primary_partition root[k]) },
          ?_, ?_, ?_, ?_, hnd⟩
        · simp only [first_pass_step, List.getElem?_eq_getElem hkr,
            List.getElem?_eq_getElem hcl, ge_iff_le, hge, if_false, hkl, if_true, hmod, hgetD]
        · simp only [List.length_set]
        · have hS : ((Finset.range (k + 1)).filter fun c => c ∉ st.excessive_children)
              = insert k ((Finset.range k).filter fun c => c ∉ st.excessive_children) := by
            ext c
            simp only [Finset.mem_filter, Finset.mem_range, Finset.mem_insert]
            constructor
            · rintro ⟨h1, h2⟩
              by_cases hck : c = k
              · exact Or.inl hck
              · exact Or.inr ⟨by omega, h2⟩
            · rintro (h | ⟨h1, h2⟩)
              · subst h; exact ⟨by omega, hkn⟩
              · exact ⟨by omega, h2⟩
          simp only []
          rw [hS]
          exact tallies_assign st _ _ _ k _ ht (by simp) hkl hnode (by rw [hgetD]; exact hlt2)
        · intro c hc
          have := hlt c hc; omega
    obtain ⟨st2, hs1, hs2, hs3, hs4, hs5⟩ := hstep
    obtain ⟨st1, hr1, hr2, hr3, hr4, hr5⟩ := ih (k + 1) st2 (by omega) (by omega) hs3 hs4 hs5
    refine ⟨st1, ?_, by rw [hr2, hs2], ?_, ?_, hr5⟩
    · rw [List.range'_succ]
      simp only [first_pass, hs1, bind_returns_assign, hr1]
    · have : k + 1 + m = k + (m + 1) := by omega
      rw [← this]; exact hr3
    · intro c hc
      have := hr4 c hc; omega

theorem length_mul_le_sum (bound : Nat) : ∀ (l : List Nat),
    (∀ p, p < l.length → bound ≤ l.getD p 0) → l.length * bound ≤ l.sum := by
  intro l
  induction l with
  | nil => intro _; simp
  | cons x xs ih =>
    intro h
    have h0 : bound ≤ x := by simpa using h 0 (by simp)
    have hrest := ih (fun p hp => by simpa using h (p + 1) (by simpa using hp))
    simp only [List.length_cons, List.sum_cons, Nat.succ_mul]
    omega

theorem sum_le_getD_add (cap : Nat) : ∀ (l : List Nat) (q : Nat), q < l.length →
    (∀ p, l.getD p 0 ≤ cap) → l.sum ≤ l.getD q 0 + (l.length - 1) * cap := by
  intro l
  induction l with
  | nil => intro q hq; simp at hq
  | cons x xs ih =>
    intro q hq h
    have hx : x ≤ cap := by simpa using h 0
    have hxs : ∀ p, xs.getD p 0 ≤ cap := fun p => by simpa using h (p + 1)
    cases q with
    | zero =>
      have hsum : xs.sum ≤ xs.length * cap := by
        clear ih hq h
        induction xs with
        | nil => simp
        | cons y ys ihy =>
          have hy : y ≤ cap := by simpa using hxs 0
          have := ihy (fun p => by simpa using hxs (p + 1))
          simp only [List.sum_cons, List.length_cons, Nat.succ_mul]
          omega
      simp only [List.sum_cons, List.getD_cons_zero, List.length_cons, Nat.add_sub_cancel]
      omega
    | succ j =>
      have hj : j < xs.length := by simpa using hq
      have := ih j hj hxs
      obtain ⟨n, hn⟩ : ∃ n, xs.length = n + 1 := ⟨xs.length - 1, by omega⟩
      simp only [List.sum_cons, List.getD_cons_succ, List.length_cons, Nat.add_sub_cancel]
      rw [hn] at this ⊢
      simp only [Nat.add_sub_cancel, Nat.succ_mul] at this ⊢
      omega

/-- With at least one partition, `total_partitions` times the cap is more than
the number of direct children: not every partition can be at the cap. -/
theorem children_lt_partitions_mul_cap (direct_children total_partitions : Nat)
    (hdc : direct_children ≤ kInteriorFanout) (htp : 0 < total_partitions) :
    direct_children
      < total_partitions * excessive_count direct_children total_partitions := by
  rw [excessive_count_eq direct_children total_partitions hdc]
  have h := Nat.lt_mul_div_succ (direct_children * 12) (show 0 < total_partitions * 10 by omega)
  have e : total_partitions * 10 * (direct_children * 12 / (total_partitions * 10) + 1)
      = 10 * (total_partitions * (direct_children * 12 / (total_partitions * 10) + 1)) := by
    ring
  rw [e] at h
  omega

/-- The second loop keeps the bookkeeping right while it hands out the
deferred children `pending`. -/
theorem second_pass_tallies (direct_children total_partitions : Nat)
    (hdc : direct_children ≤ kInteriorFanout) (htp : 0 < total_partitions) :
    ∀ (pending : List Nat) (st : Assignment) (assigned : Finset Nat),
      st.tallies total_partitions (excessive_count direct_children total_partitions)
        assigned →
      pending.Nodup →
      (∀ c ∈ pending, c ∉ assigned ∧ c < direct_children) →
      assigned ⊆ Finset.range direct_children →
      direct_children ≤ st.bucket_owners_.length →
      ∃ st1,
        second_pass total_partitions st pending = Outcome.returns st1
        ∧ st1.bucket_owners_.length = st.bucket_owners_.length
        ∧ st1.tallies total_partitions (excessive_count direct_children total_partitions)
            (assigned ∪ pending.toFinset) := by
  intro pending
  induction pending with
  | nil =>
    intro st assigned ht _ _ _ _
    exact ⟨st, rfl, rfl, by simpa using ht⟩
  | cons child rest ih =>
    intro st assigned ht hnd hpend hsub hown
    obtain ⟨hchild_new, hchild_lt⟩ := hpend child (List.mem_cons_self _ _)
    obtain ⟨hn1, hn2, _⟩ := most_needy_spec st.counts total_partitions htp
    have hnl : most_needy st.counts total_partitions < st.counts.length := by
      rw [ht.1]; exact hn1
    have hgetD : st.counts.getD (most_needy st.counts total_partitions) 0
        = st.counts[most_needy st.counts total_partitions] := List.getD_eq_getElem _ _ hnl
    -- the least count is below the cap
    have hcard : assigned.card < direct_children := by
      have hins : insert child assigned ⊆ Finset.range direct_children := by
        intro c hc
        rcases Finset.mem_insert.1 hc with h | h
        · rw [h]; exact Finset.mem_range.2 hchild_lt
        · exact hsub h
      have := Finset.card_le_card hins
      rw [Finset.card_insert_of_not_mem hchild_new, Finset.card_range] at this
      omega
    have hmin : st.counts.getD (most_needy st.counts total_partitions) 0
        < excessive_count direct_children total_partitions := by
      have h1 := length_mul_le_sum (st.counts.getD (most_needy st.counts total_partitions) 0)
        st.counts (fun p hp => hn2 p (by rw [← ht.1]; exact hp))
      rw [ht.1, ht.2.2.1] at h1
      have h2 := children_lt_partitions_mul_cap direct_children total_partitions hdc htp
      by_contra hcon
      have h3 : total_partitions * excessive_count direct_children total_partitions
          ≤ total_partitions
            * st.counts.getD (most_needy st.counts total_partitions) 0 :=
        Nat.mul_le_mul_left _ (by omega)
      omega
    have hmod : (st.counts[most_needy st.counts total_partitions] + 1) % 2 ^ 16
        = st.counts[most_needy st.counts total_partitions] + 1 := by
      apply Nat.mod_eq_of_lt
      have := excessive_count_lt direct_children total_partitions
      omega
    have hkl : child < st.bucket_owners_.length := by omega
    have hstep : second_pass_step total_partitions st child
        = Outcome.returns
            { st with
              counts := st.counts.set (most_needy st.counts total_partitions)
                (st.counts.getD (most_needy st.counts total_partitions) 0 + 1)
              bucket_owners_ := st.bucket_owners_.set child
                (most_needy st.counts total_partitions) } := by
      simp only [second_pass_step, List.getElem?_eq_getElem hnl, hkl, if_true, hmod, hgetD]
    have ht2 := tallies_assign st _ _ _ child _ ht hchild_new hkl hn1 hmin
    obtain ⟨hnd1, hnd2⟩ := List.nodup_cons.1 hnd
    obtain ⟨st1, hr1, hr2, hr3⟩ := ih _ (insert child assigned) ht2 hnd2
      (by
        intro c hc
        obtain ⟨h1, h2⟩ := hpend c (List.mem_cons_of_mem _ hc)
        refine ⟨?_, h2⟩
        intro hmem
        rcases Finset.mem_insert.1 hmem with h | h
        · subst h; exact hnd1 hc
        · exact h1 h)
      (by
        intro c hc
        rcases Finset.mem_insert.1 hc with h | h
        · rw [h]; exact Finset.mem_range.2 hchild_lt
        · exact hsub h)
      (by simp only [List.length_set]; exact hown)
    refine ⟨st1, ?_, ?_, ?_⟩
    · simp only [second_pass, hstep, bind_returns_assign, hr1]
    · rw [hr2]; simp only [List.length_set]
    · have hS : assigned ∪ (child :: rest).toFinset
          = insert child assigned ∪ rest.toFinset := by
        ext c
        simp only [Finset.mem_union, List.mem_toFinset, List.mem_cons, Finset.mem_insert]
        tauto
      rw [hS]; exact hr3

theorem owned_children_eq_card (owners : List Nat) (partition : Nat) :
    ∀ direct_children, direct_children ≤ owners.length →
      owned_children owners direct_children partition
        = ((Finset.range direct_children).filter
            fun c => owners[c]? = some partition).card := by
  intro direct_children
  induction direct_children with
  | zero => intro _; simp [owned_children]
  | succ n ih =>
    intro hn
    have hlt : n < owners.length := by omega
    have ih' := ih (by omega)
    unfold owned_children at ih' ⊢
    rw [List.take_succ, List.count_append, ih', Finset.range_succ, Finset.filter_insert,
      List.getElem?_eq_getElem hlt]
    by_cases h : owners[n] = partition
    · simp only [h, Option.toList_some, List.count_singleton, beq_self_eq_true, if_true]
      rw [Finset.card_insert_of_not_mem (by simp)]
    · have h' : ¬ (some owners[n] = some partition) := by simpa using h
      simp only [h', if_false, Option.toList_some, List.count_singleton]
      simp [h]

/-- The outcome of the two loops: they return, `counts` is the census of
`bucket_owners_` over the direct children, it adds up to `direct_children`, and
no partition is above the cap. -/
theorem assign_buckets_tallies (direct_children total_partitions : Nat)
    (root : List DualPagePointer) (owners : List Nat)
    (hdc : direct_children ≤ kInteriorFanout) (htp : 0 < total_partitions)
    (hroot : direct_children ≤ root.length)
    (hown : direct_children ≤ owners.length)
    (hnodes : ∀ child pointer, child < direct_children → root[child]? = some pointer →
      primary_partition pointer < total_partitions) :
    ∃ st, assign_buckets direct_children total_partitions root owners = Outcome.returns st
      ∧ st.counts.length = total_partitions
      ∧ st.counts.sum = direct_children
      ∧ (∀ p, st.counts.getD p 0 = owned_children st.bucket_owners_ direct_children p)
      ∧ (∀ p, st.counts.getD p 0 ≤ excessive_count direct_children total_partitions) := by
  have hinit : Assignment.tallies
      { counts := List.replicate total_partitions 0
        excessive_children := []
        bucket_owners_ := owners }
      total_partitions (excessive_count direct_children total_partitions)
      ((Finset.range 0).filter fun c => c ∉ ([] : List Nat)) := by
    refine ⟨by simp, ?_, by simp, ?_⟩
    · intro p
      simp [List.getD_eq_getElem?_getD, List.getElem?_replicate]
      split <;> rfl
    · intro p
      simp [List.getD_eq_getElem?_getD, List.getElem?_replicate]
      split <;> simp
  obtain ⟨st1, h1, h2, h3, h4, h5⟩ := first_pass_tallies direct_children total_partitions
    root hroot hnodes direct_children 0 _ (by omega) hown hinit (by simp) (by simp)
  rw [Nat.zero_add] at h3 h4
  obtain ⟨st2, g1, g2, g3⟩ := second_pass_tallies direct_children total_partitions hdc htp
    st1.excessive_children st1 _ h3 h5
    (by
      intro c hc
      exact ⟨by simp [hc], h4 c hc⟩)
    (Finset.filter_subset _ _) (by rw [h2]; exact hown)
  have hS : ((Finset.range direct_children).filter fun c => c ∉ st1.excessive_children)
      ∪ st1.excessive_children.toFinset = Finset.range direct_children := by
    ext c
    simp only [Finset.mem_union, Finset.mem_filter, Finset.mem_range, List.mem_toFinset]
    constructor
    · rintro (⟨h, _⟩ | h)
      · exact h
      · exact h4 c h
    · intro h
      by_cases hm : c ∈ st1.excessive_children
      · exact Or.inr hm
      · exact Or.inl ⟨h, hm⟩
  rw [hS] at g3
  obtain ⟨t1, t2, t3, t4⟩ := g3
  refine ⟨st2, ?_, t1, ?_, ?_, t4⟩
  · unfold assign_buckets
    rw [List.range_eq_range', h1]
    exact g1
  · rw [t3, Finset.card_range]
  · intro p
    rw [t2 p, owned_children_eq_card _ _ _ (by rw [g2, h2]; exact hown)]

theorem sample_root_length (n node : Nat) : (sample_root n node).length = n := by
  simp [sample_root]

theorem sample_root_primary (n node child : Nat) (pointer : DualPagePointer)
    (h : (sample_root n node)[child]? = some pointer) :
    primary_partition pointer = node := by
  have hmem : pointer ∈ sample_root n node := List.getElem?_mem h
  have := List.eq_of_mem_replicate hmem
  rw [this]
  rfl

/-- C19, amended: for every placement of the root's direct children on NUMA
nodes below `total_partitions`, construction succeeds and the numbers of
children owned by any two partitions differ by at most `cap - (direct_children
- (total_partitions - 1) * cap)` (subtraction stopping at 0), where `cap =
floor(direct_children * 12 / (total_partitions * 10)) + 1` is the most one
partition can own; for 4 partitions and 251 direct children that is `76 - (251
- 228) = 53`. -/
theorem construct_balance (array_id array_size levels direct_children total_partitions : Nat)
    (root : List DualPagePointer) (owners : List Nat)
    (hlevels : levels ≠ 1)
    (hdc : direct_children ≤ kInteriorFanout) (htp : 0 < total_partitions)
    (hroot : direct_children ≤ root.length)
    (hown : direct_children ≤ owners.length)
    (hnodes : ∀ child pointer, child < direct_children → root[child]? = some pointer →
      primary_partition pointer < total_partitions) :
    ∃ p, ArrayPartitioner.construct array_id array_size levels direct_children
          total_partitions root owners = Outcome.returns p
      ∧ ∀ a b, a < total_partitions → b < total_partitions →
          owned_children p.bucket_owners_ direct_children a
            ≤ owned_children p.bucket_owners_ direct_children b
              + ((direct_children * 12 / (total_partitions * 10) + 1)
                - (direct_children
                  - (total_partitions - 1)
                    * (direct_children * 12 / (total_partitions * 10) + 1))) := by
  obtain ⟨st, hrun, hlen, hsum, hcensus, hcap⟩ := assign_buckets_tallies direct_children
    total_partitions root owners hdc htp hroot hown hnodes
  rw [excessive_count_eq direct_children total_partitions hdc] at hcap
  have hc : ArrayPartitioner.construct array_id array_size levels direct_children
      total_partitions root owners
      = Outcome.returns
          { array_id_ := array_id
            array_size_ := array_size
            bucket_size_ := array_size / kInteriorFanout
            array_single_page_ := false
            bucket_owners_ := st.bucket_owners_ } := by
    simp only [ArrayPartitioner.construct, hlevels, if_false, hrun, bind_returns_assign]
  refine ⟨_, hc, ?_⟩
  intro a b _ hb
  simp only []
  rw [← hcensus a, ← hcensus b]
  have h1 := hcap a
  have h2 := sum_le_getD_add (direct_children * 12 / (total_partitions * 10) + 1) st.counts b
    (by rw [hlen]; exact hb) hcap
  rw [hsum, hlen] at h2
  omega

theorem construct_balance_witness :
    ∃ p, ArrayPartitioner.construct 1 1000 2 10 4 (sample_root 10 0)
          (List.replicate kInteriorFanout 0) = Outcome.returns p
      ∧ ∀ a b, a < 4 → b < 4 →
          owned_children p.bucket_owners_ 10 a
            ≤ owned_children p.bucket_owners_ 10 b
              + ((10 * 12 / (4 * 10) + 1) - (10 - (4 - 1) * (10 * 12 / (4 * 10) + 1))) :=
  construct_balance 1 1000 2 10 4 (sample_root 10 0) (List.replicate kInteriorFanout 0)
    (by decide) (by decide) (by decide) (by rw [sample_root_length])
    (by rw [List.length_replicate]; decide)
    (fun child pointer _ h => by rw [sample_root_primary 10 0 child pointer h]; decide)

set_option maxRecDepth 100000 in
/-- C19 as stated fails: with 4 partitions and 251 direct children, of which
84 live on node 0, 84 on node 1 and 83 on node 2, the partitions end up owning
76, 76, 76 and 23 children. Partitions 0 and 3 differ by 53, more than the
claimed 13 and more than `ceil(251 * 1.2 / 4) - floor(251 / 4) = 76 - 62`. -/
theorem construct_unbalanced :
    (251 * 12 + (4 * 10 - 1)) / (4 * 10) - 251 / 4 = 14
    ∧ (ArrayPartitioner.construct 1 1000000 2 251 4
          (sample_root 84 0 ++ sample_root 84 1 ++ sample_root 83 2)
          (List.replicate kInteriorFanout 0)).bind
        (fun p => Outcome.returns ([0, 1, 2, 3].map (owned_children p.bucket_owners_ 251)))
      = Outcome.returns [76, 76, 76, 23] := by
  decide

end foedus.storage.array

/-! ## Theorems: the logger's epochs, files and initialization -/

namespace foedus.log

open foedus

/-- What `flush_log` leaves alone, whatever it returns: the epochs, the
ordinals, the path of the current file and the recorded end offset. -/
theorem flush_log_frame (get_log_code : LogType → Nat) (l l1 : Logger) (code : ErrorCode)
    (h : l.flush_log get_log_code = Outcome.returns (code, l1)) :
    l1.current_epoch_ = l.current_epoch_
      ∧ l1.durable_epoch_ = l.durable_epoch_
      ∧ l1.oldest_ordinal_ = l.oldest_ordinal_
      ∧ l1.current_ordinal_ = l.current_ordinal_
      ∧ l1.current_file_path_ = l.current_file_path_
      ∧ l1.current_file_offset_end_ = l.current_file_offset_end_
      ∧ l1.log_file_size_mb_ = l.log_file_size_mb_ := by
  unfold Logger.flush_log at h
  by_cases hz : l.logger_buffer_cursor_ = 0
  · simp only [hz, if_true, Outcome.returns.injEq, Prod.mk.injEq] at h
    rw [← h.2]
    exact ⟨rfl, rfl, rfl, rfl, rfl, rfl, rfl⟩
  · simp only [hz, if_false] at h
    by_cases hal : l.logger_buffer_cursor_ % LOG_WRITE_UNIT_SIZE = 0
    · simp only [hal, ne_eq, not_true_eq_false, if_false, bind_returns] at h
      split at h
      · simp only [Outcome.returns.injEq, Prod.mk.injEq] at h
        rw [← h.2]
        exact ⟨rfl, rfl, rfl, rfl, rfl, rfl, rfl⟩
      · simp only [Outcome.returns.injEq, Prod.mk.injEq] at h
        rw [← h.2]
        exact ⟨rfl, rfl, rfl, rfl, rfl, rfl, rfl⟩
    · simp only [hal, ne_eq, not_false_eq_true, if_true] at h
      by_cases hfit : l.logger_buffer_cursor_ + LogHeader.size ≤ l.logger_buffer_.length
      · simp only [hfit, if_true, bind_returns] at h
        split at h
        · simp only [Outcome.returns.injEq, Prod.mk.injEq] at h
          rw [← h.2]
          exact ⟨rfl, rfl, rfl, rfl, rfl, rfl, rfl⟩
        · simp only [Outcome.returns.injEq, Prod.mk.injEq] at h
          rw [← h.2]
          exact ⟨rfl, rfl, rfl, rfl, rfl, rfl, rfl⟩
      · simp only [hfit, if_false] at h
        cases h

/-- The `while` loop of `write_log` leaves the epochs of the logger alone. -/
theorem write_log_loop_epochs (get_log_code : LogType → Nat) (buffer : ThreadLogBuffer)
    (upto_offset : Nat) :
    ∀ (fuel : Nat) (l : Logger) (from_offset : Nat) (r : ErrorCode × Logger),
      Logger.write_log_loop get_log_code fuel l buffer from_offset upto_offset
        = Outcome.returns r →
      r.2.durable_epoch_ = l.durable_epoch_ ∧ r.2.current_epoch_ = l.current_epoch_ := by
  intro fuel
  induction fuel with
  | zero =>
    intro l from_offset r h
    simp [Logger.write_log_loop] at h
  | succ fuel ih =>
    intro l from_offset r h
    unfold Logger.write_log_loop at h
    by_cases hlt : from_offset < upto_offset
    · simp only [hlt, if_true] at h
      obtain ⟨r0, hflush, hrest⟩ := bind_eq_returns h
      have hr0 : r0.2.durable_epoch_ = l.durable_epoch_
          ∧ r0.2.current_epoch_ = l.current_epoch_ := by
        by_cases hfull : l.logger_buffer_.length = l.logger_buffer_cursor_
        · simp only [hfull, if_true] at hflush
          have hframe := flush_log_frame get_log_code l r0.2 r0.1 hflush
          exact ⟨hframe.2.1, hframe.1⟩
        · simp only [hfull, if_false, Outcome.returns.injEq] at hflush
          rw [← hflush]
          exact ⟨rfl, rfl⟩
      by_cases hcode : r0.1 = ErrorCode.ERROR_CODE_OK
      · simp only [hcode, ne_eq, not_true_eq_false, if_false] at hrest
        split at hrest
        · have hnext := ih _ _ _ hrest
          exact ⟨hnext.1.trans hr0.1, hnext.2.trans hr0.2⟩
        · cases hrest
      · simp only [ne_eq, hcode, not_false_eq_true, if_true, Outcome.returns.injEq] at hrest
        rw [← hrest]
        exact hr0
    · simp only [hlt, if_false, Outcome.returns.injEq] at h
      rw [← h]
      exact ⟨rfl, rfl⟩

/-- `write_log` leaves the epochs of the logger alone. -/
theorem write_log_epochs (get_log_code : LogType → Nat) :
    ∀ (fuel : Nat) (l : Logger) (buffer : ThreadLogBuffer) (upto_offset : Nat)
      (r : ErrorCode × Logger × ThreadLogBuffer),
      Logger.write_log get_log_code fuel l buffer upto_offset = Outcome.returns r →
      r.2.1.durable_epoch_ = l.durable_epoch_ ∧ r.2.1.current_epoch_ = l.current_epoch_ := by
  intro fuel
  induction fuel with
  | zero =>
    intro l buffer upto_offset r h
    simp [Logger.write_log] at h
  | succ fuel ih =>
    intro l buffer upto_offset r h
    by_cases hw : buffer.get_offset_durable > upto_offset
    · rw [write_log_wrapped get_log_code fuel l buffer upto_offset hw] at h
      obtain ⟨r1, h1, hrest⟩ := bind_eq_returns h
      have hr1 := ih _ _ _ _ h1
      by_cases hcode : r1.1 = ErrorCode.ERROR_CODE_OK
      · simp only [hcode, ne_eq, not_true_eq_false, if_false] at hrest
        obtain ⟨r2, h2, hrest2⟩ := bind_eq_returns hrest
        have hr2 := ih _ _ _ _ h2
        by_cases hcode2 : r2.1 = ErrorCode.ERROR_CODE_OK
        · simp only [hcode2, ne_eq, not_true_eq_false, if_false,
            Outcome.returns.injEq] at hrest2
          rw [← hrest2]
          exact ⟨hr2.1.trans hr1.1, hr2.2.trans hr1.2⟩
        · simp only [ne_eq, hcode2, not_false_eq_true, if_true,
            Outcome.returns.injEq] at hrest2
          rw [← hrest2]
          exact ⟨hr2.1.trans hr1.1, hr2.2.trans hr1.2⟩
      · simp only [ne_eq, hcode, not_false_eq_true, if_true, Outcome.returns.injEq] at hrest
        rw [← hrest]
        exact hr1
    · rw [write_log_straight get_log_code fuel l buffer upto_offset hw] at h
      obtain ⟨r0, h0, hrest⟩ := bind_eq_returns h
      simp only [Outcome.returns.injEq] at hrest
      rw [← hrest]
      exact write_log_loop_epochs get_log_code buffer upto_offset fuel l _ r0 h0

/-- `switch_current_epoch` sets the current epoch and leaves the durable epoch
alone. -/
theorem switch_current_epoch_epochs (get_log_code : LogType → Nat) (l l1 : Logger)
    (new_epoch : Epoch)
    (h : l.switch_current_epoch get_log_code new_epoch = Outcome.returns l1) :
    l1.durable_epoch_ = l.durable_epoch_ ∧ l1.current_epoch_ = new_epoch := by
  unfold Logger.switch_current_epoch at h
  obtain ⟨r, hflush, hrest⟩ := bind_eq_returns h
  dsimp only at hrest
  have hframe := flush_log_frame get_log_code l r.2 r.1 hflush
  by_cases hcode : r.1 = ErrorCode.ERROR_CODE_OK
  · simp only [hcode, ne_eq, not_true_eq_false, if_false] at hrest
    split at hrest
    · simp only [Outcome.returns.injEq] at hrest
      rw [← hrest]
      exact ⟨hframe.2.1, rfl⟩
    · cases hrest
  · simp only [ne_eq, hcode, not_false_eq_true, if_true] at hrest
    cases hrest

/-- The loop body of `handle_logger` leaves the durable epoch alone. -/
theorem visit_durable_epoch (get_log_code : LogType → Nat) (fuel : Nat) (v : LoopVars)
    (buffer : ThreadLogBuffer) (r : LoopVars × ThreadLogBuffer)
    (h : Logger.visit get_log_code fuel v buffer = Outcome.returns r) :
    r.1.logger.durable_epoch_ = v.logger.durable_epoch_ := by
  unfold Logger.visit at h
  simp only at h
  split_ifs at h
  all_goals first
    | (cases h; done)
    | (simp only [Outcome.returns.injEq] at h; rw [← h])
    | (obtain ⟨r0, hwrite, hrest⟩ := bind_eq_returns h
       have hr0 := write_log_epochs get_log_code _ _ _ _ r0 hwrite
       split_ifs at hrest
       simp only [Outcome.returns.injEq] at hrest
       rw [← hrest]
       exact hr0.1)

/-- The `for` loop of `handle_logger` leaves the durable epoch alone. -/
theorem pass_durable_epoch (get_log_code : LogType → Nat) (fuel : Nat) :
    ∀ (buffers : List ThreadLogBuffer) (v : LoopVars) (stop_in : Nat)
      (r : LoopVars × List ThreadLogBuffer × Nat),
      Logger.pass get_log_code fuel v buffers stop_in = Outcome.returns r →
      r.1.logger.durable_epoch_ = v.logger.durable_epoch_ := by
  intro buffers
  induction buffers with
  | nil =>
    intro v stop_in r h
    simp only [Logger.pass, Outcome.returns.injEq] at h
    rw [← h]
  | cons buffer rest ih =>
    intro v stop_in r h
    unfold Logger.pass at h
    split at h
    · simp only [Outcome.returns.injEq] at h
      rw [← h]
    · obtain ⟨r0, hvisit, hrest⟩ := bind_eq_returns h
      obtain ⟨r1, hpass, hret⟩ := bind_eq_returns hrest
      simp only [Outcome.returns.injEq] at hret
      rw [← hret]
      exact (ih _ _ _ hpass).trans (visit_durable_epoch get_log_code fuel v buffer r0 hvisit)

/-- One run of the body of the `do` loop of `handle_logger` leaves the durable
epoch alone. -/
theorem iterate_durable_epoch (get_log_code : LogType → Nat) (fuel : Nat) (s : HandlerState)
    (more : Bool) (r : HandlerState × Bool)
    (h : Logger.iterate get_log_code fuel s more = Outcome.returns r) :
    r.1.logger.durable_epoch_ = s.logger.durable_epoch_ := by
  unfold Logger.iterate at h
  obtain ⟨r0, hpass, hrest⟩ := bind_eq_returns h
  have hr0 := pass_durable_epoch get_log_code fuel _ _ _ r0 hpass
  split at hrest
  · obtain ⟨l1, hswitch, hret⟩ := bind_eq_returns hrest
    simp only [Outcome.returns.injEq] at hret
    rw [← hret]
    exact (switch_current_epoch_epochs get_log_code _ l1 _ hswitch).1.trans hr0
  · simp only [Outcome.returns.injEq] at hrest
    rw [← hrest]
    exact hr0

/-- Whatever `initialize_once` returns, it has set the durable epoch to the
default-constructed, invalid epoch. -/
theorem initialize_once_durable_epoch (l l1 : Logger) (savepoint : Savepoint)
    (disk : String → Option (List Nat)) (device_ok : Bool) (io_buffer : List Nat)
    (code : ErrorCode)
    (h : l.initialize_once savepoint disk device_ok io_buffer = Outcome.returns (code, l1)) :
    l1.durable_epoch_ = Epoch.invalid := by
  unfold Logger.initialize_once at h
  simp only at h
  repeat' split at h
  all_goals first
    | (cases h; done)
    | (simp only [Outcome.returns.injEq, Prod.mk.injEq] at h; rw [← h.2])

/-- No operation of the logger changes the durable epoch of a logger whose
durable epoch is the invalid epoch. -/
theorem operation_durable_epoch (get_log_code : LogType → Nat) (l l1 : Logger)
    (hinv : l.durable_epoch_ = Epoch.invalid)
    (hop : Logger.Operation get_log_code l l1) :
    l1.durable_epoch_ = l.durable_epoch_ := by
  cases hop with
  | initialize_once _ _ savepoint disk device_ok io_buffer code h =>
    rw [hinv]
    exact initialize_once_durable_epoch l l1 savepoint disk device_ok io_buffer code h
  | flush_log _ _ code h =>
    exact (flush_log_frame get_log_code l l1 code h).2.1
  | write_log _ _ fuel buffer buffer1 upto_offset code h =>
    exact (write_log_epochs get_log_code fuel l buffer upto_offset _ h).1
  | switch_current_epoch _ _ new_epoch h =>
    exact (switch_current_epoch_epochs get_log_code l l1 new_epoch h).1
  | pass s s1 fuel more more1 h =>
    exact iterate_durable_epoch get_log_code fuel s more _ h

/-- From its initialization on, the durable epoch of a logger is the invalid
epoch. -/
theorem initialized_durable_epoch (get_log_code : LogType → Nat) (l : Logger)
    (hinit : Logger.Initialized get_log_code l) : l.durable_epoch_ = Epoch.invalid := by
  induction hinit with
  | start l l1 savepoint disk device_ok io_buffer h =>
    exact initialize_once_durable_epoch l l1 savepoint disk device_ok io_buffer _ h
  | step l l1 _ hop ih =>
    exact (operation_durable_epoch get_log_code l l1 ih hop).trans ih

/-- The sample logger is initialized from the unset sample savepoint on the
empty file system. -/
theorem sample_initialize_once :
    sample_logger.initialize_once sample_savepoint sample_disk true (List.replicate 4096 0)
      = Outcome.returns (ErrorCode.ERROR_CODE_OK, sample_initialized_logger) := by
  rfl

theorem sample_initialized_logger_io_ready : sample_initialized_logger.io_ready := by
  have h : sample_initialized_logger.logger_buffer_.length = 4096 := List.length_replicate 4096 0
  refine ⟨?_, ?_, ?_, ?_⟩
  · rw [h]; decide
  · rw [h]; decide
  · rw [h]; norm_num
  · rw [h]; decide

/-- Whatever `flush_log` returns, the device is as it was. -/
theorem flush_log_device_ok (get_log_code : LogType → Nat) (l l1 : Logger) (code : ErrorCode)
    (h : l.flush_log get_log_code = Outcome.returns (code, l1)) :
    l1.current_file_.device_ok = l.current_file_.device_ok := by
  unfold Logger.flush_log at h
  by_cases hz : l.logger_buffer_cursor_ = 0
  · simp only [hz, if_true, Outcome.returns.injEq, Prod.mk.injEq] at h
    rw [← h.2]
  · simp only [hz, if_false] at h
    by_cases hal : l.logger_buffer_cursor_ % LOG_WRITE_UNIT_SIZE = 0
    · simp only [hal, ne_eq, not_true_eq_false, if_false, bind_returns] at h
      unfold DirectIoFile.write at h
      split_ifs at h
      all_goals
        simp only [Outcome.returns.injEq, Prod.mk.injEq] at h
        rw [← h.2]
    · simp only [hal, ne_eq, not_false_eq_true, if_true] at h
      by_cases hfit : l.logger_buffer_cursor_ + LogHeader.size ≤ l.logger_buffer_.length
      · simp only [hfit, if_true, bind_returns] at h
        unfold DirectIoFile.write at h
        split_ifs at h
        all_goals
          simp only [Outcome.returns.injEq, Prod.mk.injEq] at h
          rw [← h.2]
      · simp only [hfit, if_false] at h
        cases h

/-- A switch of the current epoch that goes through, for any `new_epoch`
whatsoever: when the flush at its start succeeds, `switch_current_epoch`
returns with `current_epoch_ = new_epoch`, the marker `{old = current_epoch_,
new = new_epoch}` at the start of the I/O buffer, and a logger that is still
usable. -/
theorem switch_current_epoch_returns (get_log_code : LogType → Nat) (l : Logger)
    (new_epoch : Epoch)
    (hready : l.io_ready)
    (hfit : l.logger_buffer_cursor_ % LOG_WRITE_UNIT_SIZE = 0
      ∨ l.logger_buffer_cursor_ + LogHeader.size ≤ l.logger_buffer_.length)
    (hdev : l.current_file_.device_ok = true) :
    ∃ l1, l.switch_current_epoch get_log_code new_epoch = Outcome.returns l1
      ∧ l1.current_epoch_ = new_epoch
      ∧ l1.logger_buffer_cursor_ = EpochMarkerLogType.size
      ∧ l1.io_ready
      ∧ l1.current_file_.device_ok = true
      ∧ EpochMarkerLogType.decode (load l1.logger_buffer_ 0 EpochMarkerLogType.size)
          = { header_ :=
                { storage_id_ := 0
                  log_length_ := EpochMarkerLogType.size
                  log_type_code_ := get_log_code LogType.EpochMarkerLogType % 2 ^ 16 }
              old_epoch_ := { epoch_ := l.current_epoch_.epoch_ % 2 ^ 32 }
              new_epoch_ := { epoch_ := new_epoch.epoch_ % 2 ^ 32 } } := by
  obtain ⟨l0, hflush, hc0, hlen0, he0, _⟩ := flush_log_succeeds get_log_code l hready hfit hdev
  have hdev0 := (flush_log_device_ok get_log_code l l0 _ hflush).trans hdev
  obtain ⟨hsz, hmul, h64, hle⟩ := hready
  have hbig : EpochMarkerLogType.size ≤ l0.logger_buffer_.length := by
    rw [hlen0]
    simp only [LOG_WRITE_UNIT_SIZE] at hmul
    simp only [EpochMarkerLogType.size]
    omega
  generalize hm : EpochMarkerLogType.encode
      { header_ :=
          { storage_id_ := 0
            log_length_ := EpochMarkerLogType.size
            log_type_code_ := get_log_code LogType.EpochMarkerLogType }
        old_epoch_ := l.current_epoch_
        new_epoch_ := new_epoch } = marker
  have hml : marker.length = EpochMarkerLogType.size := by rw [← hm, marker_encode_length]
  have hrun : l.switch_current_epoch get_log_code new_epoch
      = Outcome.returns
          { l0 with
            logger_buffer_ := store l0.logger_buffer_ 0 marker
            logger_buffer_cursor_ := EpochMarkerLogType.size
            current_epoch_ := new_epoch } := by
    have hadd : add64 0 EpochMarkerLogType.size = EpochMarkerLogType.size := by
      simp [add64, EpochMarkerLogType.size]
    simp only [Logger.switch_current_epoch, hflush, bind_returns, ne_eq, not_true_eq_false,
      if_false, hc0, Nat.zero_add, hbig, if_true, he0, hm, hadd]
  have hstore : (store l0.logger_buffer_ 0 marker).length = l0.logger_buffer_.length :=
    store_length _ _ _ (by rw [hml, Nat.zero_add]; exact hbig)
  have hload : load (store l0.logger_buffer_ 0 marker) 0 EpochMarkerLogType.size = marker := by
    rw [← hml]
    exact load_store _ _ _ (by rw [hml, Nat.zero_add]; exact hbig)
  refine ⟨_, hrun, rfl, rfl, ⟨?_, ?_, ?_, ?_⟩, hdev0, ?_⟩
  · show 0 < (store l0.logger_buffer_ 0 marker).length
    rw [hstore, hlen0]; exact hsz
  · show (store l0.logger_buffer_ 0 marker).length % LOG_WRITE_UNIT_SIZE = 0
    rw [hstore, hlen0]; exact hmul
  · show (store l0.logger_buffer_ 0 marker).length < 2 ^ 64
    rw [hstore, hlen0]; exact h64
  · show EpochMarkerLogType.size ≤ (store l0.logger_buffer_ 0 marker).length
    rw [hstore]; exact hbig
  · show EpochMarkerLogType.decode
        (load (store l0.logger_buffer_ 0 marker) 0 EpochMarkerLogType.size) = _
    rw [hload, ← hm, marker_decode_encode]
    simp [EpochMarkerLogType.size]

/-- C12: from its initialization on, no operation of the logger
(`initialize_once` again, `flush_log`, `write_log`, `switch_current_epoch`, a
pass of `handle_logger`) moves `durable_epoch_` to an earlier epoch: the
operation leaves it as it was. -/
theorem durable_epoch_monotone (get_log_code : LogType → Nat) (l l1 : Logger)
    (hinit : Logger.Initialized get_log_code l)
    (hop : Logger.Operation get_log_code l l1) :
    l1.durable_epoch_.before l.durable_epoch_ = false
      ∧ l1.durable_epoch_ = l.durable_epoch_ := by
  have hinv := initialized_durable_epoch get_log_code l hinit
  have h := operation_durable_epoch get_log_code l l1 hinv hop
  rw [h, hinv]
  exact ⟨by decide, rfl⟩

/-- The sample logger, once initialized, switches to epoch 3: its durable epoch
is not moved to an earlier epoch. -/
theorem durable_epoch_monotone_witness :
    Logger.Initialized sample_get_log_code sample_initialized_logger
    ∧ ∃ l1, sample_initialized_logger.switch_current_epoch sample_get_log_code { epoch_ := 3 }
          = Outcome.returns l1
        ∧ l1.current_epoch_ = { epoch_ := 3 }
        ∧ l1.durable_epoch_.before sample_initialized_logger.durable_epoch_ = false
        ∧ l1.durable_epoch_ = sample_initialized_logger.durable_epoch_ := by
  have hinit : Logger.Initialized sample_get_log_code sample_initialized_logger :=
    Logger.Initialized.start _ _ _ _ _ _ sample_initialize_once
  obtain ⟨l1, hswitch, hcur, _⟩ :=
    switch_current_epoch_returns sample_get_log_code sample_initialized_logger { epoch_ := 3 }
      sample_initialized_logger_io_ready (Or.inl (by decide)) rfl
  obtain ⟨h1, h2⟩ := durable_epoch_monotone sample_get_log_code sample_initialized_logger l1
    hinit (Logger.Operation.switch_current_epoch _ _ _ hswitch)
  exact ⟨hinit, l1, hswitch, hcur, h1, h2⟩

/-- C13 fails on the code: no operation of the logger advances the durable
epoch. For every initialized logger whose current epoch `E` is valid, a
`switch_current_epoch` from `E` to a later `new_epoch` returns with
`current_epoch_ = new_epoch` and `durable_epoch_` still the invalid epoch, not
"a valid epoch not earlier than `E`"; and it stays invalid whatever the logger
does next. -/
theorem durable_epoch_never_advances (get_log_code : LogType → Nat) (l l1 : Logger)
    (E new_epoch : Epoch)
    (hinit : Logger.Initialized get_log_code l)
    (_hcurrent : l.current_epoch_ = E)
    (_hvalid : E.is_valid = true)
    (_hlater : E.before new_epoch = true)
    (hswitch : l.switch_current_epoch get_log_code new_epoch = Outcome.returns l1) :
    l1.current_epoch_ = new_epoch
      ∧ l1.durable_epoch_ = Epoch.invalid
      ∧ l1.durable_epoch_.is_valid = false
      ∧ ∀ l2, Logger.Operation get_log_code l1 l2 → l2.durable_epoch_.is_valid = false := by
  have hinit1 : Logger.Initialized get_log_code l1 :=
    Logger.Initialized.step l l1 hinit (Logger.Operation.switch_current_epoch _ _ _ hswitch)
  have hinv1 := initialized_durable_epoch get_log_code l1 hinit1
  refine ⟨(switch_current_epoch_epochs get_log_code l l1 new_epoch hswitch).2, hinv1, ?_, ?_⟩
  · rw [hinv1]; rfl
  · intro l2 hop
    rw [initialized_durable_epoch get_log_code l2 (Logger.Initialized.step l1 l2 hinit1 hop)]
    rfl

/-- The sample logger, initialized and at the valid epoch 3, switches to the
later epoch 4: the durable epoch is still invalid. -/
theorem durable_epoch_never_advances_witness :
    ∃ l l1, Logger.Initialized sample_get_log_code l
      ∧ l.current_epoch_ = { epoch_ := 3 }
      ∧ l.switch_current_epoch sample_get_log_code { epoch_ := 4 } = Outcome.returns l1
      ∧ l1.current_epoch_ = { epoch_ := 4 }
      ∧ l1.durable_epoch_.is_valid = false := by
  have hinit : Logger.Initialized sample_get_log_code sample_initialized_logger :=
    Logger.Initialized.start _ _ _ _ _ _ sample_initialize_once
  obtain ⟨l, hswitch, hcur, hcursor, hready, hdev, _⟩ :=
    switch_current_epoch_returns sample_get_log_code sample_initialized_logger { epoch_ := 3 }
      sample_initialized_logger_io_ready (Or.inl (by decide)) rfl
  have hinit3 : Logger.Initialized sample_get_log_code l :=
    Logger.Initialized.step _ _ hinit (Logger.Operation.switch_current_epoch _ _ _ hswitch)
  have hfit : l.logger_buffer_cursor_ % LOG_WRITE_UNIT_SIZE = 0
      ∨ l.logger_buffer_cursor_ + LogHeader.size ≤ l.logger_buffer_.length := by
    right
    obtain ⟨hsz, hmul, _, _⟩ := hready
    rw [hcursor]
    simp only [LOG_WRITE_UNIT_SIZE] at hmul
    simp only [EpochMarkerLogType.size, LogHeader.size]
    omega
  obtain ⟨l1, hswitch1, _⟩ :=
    switch_current_epoch_returns sample_get_log_code l { epoch_ := 4 } hready hfit hdev
  obtain ⟨h1, _, h3, _⟩ := durable_epoch_never_advances sample_get_log_code l l1
    { epoch_ := 3 } { epoch_ := 4 } hinit3 hcur (by decide) (by decide) hswitch1
  exact ⟨l, l1, hinit3, hcur, hswitch1, h1, h3⟩

/-- What a `flush_log` that returns OK has appended to the file: as many bytes
as the padded cursor counts. -/
theorem flush_log_appends (get_log_code : LogType → Nat) (l l1 : Logger)
    (h : l.flush_log get_log_code = Outcome.returns (ErrorCode.ERROR_CODE_OK, l1)) :
    l1.current_file_.content.length
      = l.current_file_.content.length
        + (if l.logger_buffer_cursor_ % LOG_WRITE_UNIT_SIZE = 0 then l.logger_buffer_cursor_
          else add64 l.logger_buffer_cursor_
            (LOG_WRITE_UNIT_SIZE - l.logger_buffer_cursor_ % LOG_WRITE_UNIT_SIZE)) := by
  unfold Logger.flush_log at h
  by_cases hz : l.logger_buffer_cursor_ = 0
  · simp only [hz, if_true, Outcome.returns.injEq, Prod.mk.injEq, true_and] at h
    rw [← h, hz]
    simp
  · simp only [hz, if_false] at h
    by_cases hal : l.logger_buffer_cursor_ % LOG_WRITE_UNIT_SIZE = 0
    · simp only [hal, ne_eq, not_true_eq_false, if_false, bind_returns] at h
      unfold DirectIoFile.write at h
      simp only [hal, if_true]
      by_cases hw : l.current_file_.device_ok = true
          ∧ l.logger_buffer_cursor_ ≤ l.logger_buffer_.length
      · simp only [if_pos hw, ne_eq, not_true_eq_false, if_false, Outcome.returns.injEq,
          Prod.mk.injEq, true_and] at h
        rw [← h]
        simp only [List.length_append, List.length_take]
        have := hw.2
        omega
      · simp [if_neg hw] at h
    · simp only [hal, ne_eq, not_false_eq_true, if_true] at h
      by_cases hfit : l.logger_buffer_cursor_ + LogHeader.size ≤ l.logger_buffer_.length
      · simp only [hfit, if_true, bind_returns] at h
        unfold DirectIoFile.write at h
        simp only [hal, if_false]
        generalize hbuf : store l.logger_buffer_ l.logger_buffer_cursor_ _ = buf at h
        generalize hpad : add64 l.logger_buffer_cursor_ _ = pad at h ⊢
        by_cases hw : l.current_file_.device_ok = true ∧ pad ≤ buf.length
        · simp only [if_pos hw, ne_eq, not_true_eq_false, if_false, Outcome.returns.injEq,
            Prod.mk.injEq, true_and] at h
          rw [← h]
          simp only [List.length_append, List.length_take]
          have := hw.2
          omega
        · simp [if_neg hw] at h
      · simp only [hfit, if_false] at h
        cases h

/-- C14 fails on the code: `flush_log` never switches the file. When the padded
cursor plus `current_file_offset_end_` (the length of the file so far) exceeds
`log_file_size_mb_ << 20`, a `flush_log` that returns OK has left
`current_ordinal_` and `current_file_path_` as they were, has appended the
whole padded buffer to the same file, which is now longer than the configured
size, and has not moved `current_file_offset_end_`. -/
theorem flush_log_never_rotates (get_log_code : LogType → Nat) (l l1 : Logger) (padded : Nat)
    (hpadded : padded
      = if l.logger_buffer_cursor_ % LOG_WRITE_UNIT_SIZE = 0 then l.logger_buffer_cursor_
        else add64 l.logger_buffer_cursor_
          (LOG_WRITE_UNIT_SIZE - l.logger_buffer_cursor_ % LOG_WRITE_UNIT_SIZE))
    (hend : l.current_file_offset_end_ = l.current_file_.content.length)
    (hover : l.log_file_size_mb_ * 2 ^ 20 < padded + l.current_file_offset_end_)
    (hflush : l.flush_log get_log_code = Outcome.returns (ErrorCode.ERROR_CODE_OK, l1)) :
    l1.current_ordinal_ = l.current_ordinal_
      ∧ l1.current_file_path_ = l.current_file_path_
      ∧ l1.current_file_.content.length = l.current_file_.content.length + padded
      ∧ l1.log_file_size_mb_ * 2 ^ 20 < l1.current_file_.content.length
      ∧ l1.current_file_offset_end_ = l.current_file_offset_end_ := by
  have hframe := flush_log_frame get_log_code l l1 _ hflush
  have happ := flush_log_appends get_log_code l l1 hflush
  rw [← hpadded] at happ
  refine ⟨hframe.2.2.2.1, hframe.2.2.2.2.1, happ, ?_, hframe.2.2.2.2.2.1⟩
  rw [hframe.2.2.2.2.2.2, happ]
  omega

theorem sample_full_file_logger_length :
    sample_full_file_logger.current_file_.content.length = 1048576 :=
  List.length_replicate 1048576 0

/-- The sample logger whose file holds the configured 1 MiB flushes its full
4 KiB buffer: same ordinal, same path, and the file is 4096 bytes beyond the
configured size. -/
theorem flush_log_never_rotates_witness :
    sample_full_file_logger.log_file_size_mb_ * 2 ^ 20 = 1048576
    ∧ sample_full_file_logger.current_file_offset_end_ = 1048576
    ∧ ∃ l1, sample_full_file_logger.flush_log sample_get_log_code
          = Outcome.returns (ErrorCode.ERROR_CODE_OK, l1)
        ∧ l1.current_ordinal_ = 0
        ∧ l1.current_file_path_ = "log.0"
        ∧ l1.current_file_.content.length = 1048576 + 4096
        ∧ l1.current_file_offset_end_ = 1048576 := by
  have hlen : sample_full_file_logger.logger_buffer_.length = 4096 :=
    List.length_replicate 4096 0
  have hflush := flush_log_aligned sample_get_log_code sample_full_file_logger
    (by decide) (by decide) (by rw [hlen]; decide) rfl
  obtain ⟨h1, h2, h3, _, h5⟩ := flush_log_never_rotates sample_get_log_code
    sample_full_file_logger _ 4096 (by decide) sample_full_file_logger_length.symm
    (by decide) hflush
  refine ⟨by decide, rfl, _, hflush, h1, h2, ?_, h5⟩
  rw [h3, sample_full_file_logger_length]

/-- C15: on `initialize_once`, with `d` the savepoint's durable offset of the
logger's file and `content` (of length `L`) what the file holds, the file is
left untouched when `d < L` does not hold, and a successful initialization has
cut it to its first `d` bytes when `d < L`; after a successful initialization
the file length is `min L d`. -/
theorem initialize_once_truncates (l l1 : Logger) (savepoint : Savepoint)
    (disk : String → Option (List Nat)) (device_ok : Bool) (io_buffer : List Nat)
    (ordinal d : Nat) (content : List Nat) (code : ErrorCode)
    (hord : savepoint.current_log_files_[l.id_]? = some ordinal)
    (hd : savepoint.current_log_files_offset_durable_[l.id_]? = some d)
    (hfile : (disk (l.construct_suffixed_log_path ordinal)).getD [] = content)
    (hinit : l.initialize_once savepoint disk device_ok io_buffer
      = Outcome.returns (code, l1)) :
    (¬ d < content.length → l1.current_file_.content = content)
      ∧ (code = ErrorCode.ERROR_CODE_OK → d < content.length →
          l1.current_file_.content = content.take d)
      ∧ (code = ErrorCode.ERROR_CODE_OK →
          (l1.current_file_.content ≠ content ↔ d < content.length))
      ∧ (code = ErrorCode.ERROR_CODE_OK →
          l1.current_file_.content.length = min content.length d) := by
  unfold Logger.initialize_once at hinit
  simp only [hord, hd, Logger.construct_suffixed_log_path] at hinit
  simp only [Logger.construct_suffixed_log_path] at hfile
  generalize disk (l.log_path_ ++ "." ++ toString ordinal) = on_disk at hinit hfile
  cases on_disk with
  | none =>
    simp only [Option.getD_none] at hfile
    subst hfile
    unfold DirectIoFile.open at hinit
    cases hcreate : savepoint.is_empty
    · simp [hcreate] at hinit
      obtain ⟨rfl, rfl⟩ := hinit
      simp
    · simp [hcreate] at hinit
      obtain ⟨rfl, rfl⟩ := hinit
      simp
  | some c =>
    simp only [Option.getD_some] at hfile
    subst hfile
    unfold DirectIoFile.open DirectIoFile.truncate at hinit
    by_cases hlt : d < c.length
    · cases device_ok
      · simp [hlt] at hinit
        obtain ⟨rfl, rfl⟩ := hinit
        simp [hlt]
      · simp [hlt] at hinit
        obtain ⟨rfl, rfl⟩ := hinit
        simp [hlt]
        exact Nat.min_comm _ _
    · simp [hlt] at hinit
      obtain ⟨rfl, rfl⟩ := hinit
      simp [hlt]
      omega

/-- After a crash the file `log.0` holds 5 bytes of which the savepoint says 2
are durable: `initialize_once` cuts it to its first 2 bytes. -/
theorem initialize_once_truncates_witness :
    ∃ l1, sample_logger.initialize_once sample_crashed_savepoint sample_crashed_disk true
          (List.replicate 4096 0)
        = Outcome.returns (ErrorCode.ERROR_CODE_OK, l1)
      ∧ l1.current_file_.content = [9, 8]
      ∧ l1.current_file_.content.length = min 5 2 := by
  have hrun : sample_logger.initialize_once sample_crashed_savepoint sample_crashed_disk true
        (List.replicate 4096 0)
      = Outcome.returns (ErrorCode.ERROR_CODE_OK,
          { sample_initialized_logger with
            current_file_ := { content := [9, 8], device_ok := true } }) := by
    rfl
  obtain ⟨_, h2, _, h4⟩ := initialize_once_truncates sample_logger _ sample_crashed_savepoint
    sample_crashed_disk true (List.replicate 4096 0) 0 2 [9, 8, 7, 6, 5]
    ErrorCode.ERROR_CODE_OK rfl rfl rfl hrun
  exact ⟨_, hrun, h2 rfl (by decide), h4 rfl⟩

/-- The loop body of `handle_logger` on a buffer with unflushed log of the
logger's current epoch under an open-ended mark: it calls `write_log` up to
`current_xct_begin` and sets both flags. -/
theorem visit_writes (get_log_code : LogType → Nat) (fuel : Nat) (v : LoopVars)
    (buffer b1 : ThreadLogBuffer) (l1 : Logger)
    (hlog : buffer.get_offset_current_xct_begin ≠ buffer.get_offset_durable)
    (hvalid : buffer.logger_epoch_.is_valid = true)
    (hopen : buffer.logger_epoch_open_ended_ = true)
    (hnb : buffer.logger_epoch_.before v.logger.current_epoch_ = false)
    (hna : v.logger.current_epoch_.before buffer.logger_epoch_ = false)
    (hwrite : v.logger.write_log get_log_code fuel buffer buffer.get_offset_current_xct_begin
      = Outcome.returns (ErrorCode.ERROR_CODE_OK, l1, b1)) :
    Logger.visit get_log_code fuel v buffer
      = Outcome.returns
          ({ v with
              logger := l1
              more_log_to_process := true
              any_log_processed := true
              trace := v.trace
                ++ [LoggerEvent.wrote buffer.thread_id_ buffer.logger_epoch_
                      v.logger.current_epoch_ buffer.get_offset_current_xct_begin] },
            b1) := by
  simp [Logger.visit, hlog, hvalid, hopen, hnb, hna, hwrite]

/-- The `for` loop of `handle_logger` when the stop flag is found set at its
first check: it breaks at once, leaving every loop variable as it was. -/
theorem pass_stopped (get_log_code : LogType → Nat) (fuel : Nat) (v : LoopVars)
    (buffers : List ThreadLogBuffer) :
    Logger.pass get_log_code fuel v buffers 0 = Outcome.returns (v, buffers, 0) := by
  cases buffers with
  | nil => rfl
  | cons buffer rest => simp [Logger.pass, poll]

/-- The `for` loop of `handle_logger` over a single buffer while the stop flag
is clear. -/
theorem pass_single (get_log_code : LogType → Nat) (fuel : Nat) (v : LoopVars)
    (buffer : ThreadLogBuffer) (stop_in : Nat) (r : LoopVars × ThreadLogBuffer)
    (hvisit : Logger.visit get_log_code fuel v buffer = Outcome.returns r) :
    Logger.pass get_log_code fuel v [buffer] (stop_in + 1)
      = Outcome.returns (r.1, [r.2], stop_in) := by
  simp [Logger.pass, poll, hvisit]

/-- The stale flag: `more_log_to_process` is set to false before the `do`
loop, not inside it. A run of the loop body entered with the flag still set
from an earlier run, in which the stop flag is found set at the first check,
has `any_log_processed` false and `min_skipped_epoch` default-constructed: it
calls `switch_current_epoch` with the invalid epoch. -/
theorem iterate_stopped (get_log_code : LogType → Nat) (fuel : Nat) (s : HandlerState)
    (l1 : Logger) (hstop : s.stop_in = 0)
    (hswitch : s.logger.switch_current_epoch get_log_code Epoch.invalid = Outcome.returns l1) :
    Logger.iterate get_log_code fuel s true
      = Outcome.returns
          ({ logger := l1
             buffers := s.buffers
             stop_in := 0
             trace := s.trace ++ [LoggerEvent.switched s.logger.current_epoch_ Epoch.invalid] },
            true) := by
  simp [Logger.iterate, hstop, pass_stopped, hswitch]

/-- A run of the body of the `do` loop in which the single assigned buffer is
written out: no switch of the epoch, and `more_log_to_process` is set. -/
theorem iterate_single_written (get_log_code : LogType → Nat) (fuel : Nat) (s : HandlerState)
    (buffer : ThreadLogBuffer) (stop_in : Nat) (more : Bool) (r : LoopVars × ThreadLogBuffer)
    (hbuffers : s.buffers = [buffer]) (hstop : s.stop_in = stop_in + 1)
    (hvisit : Logger.visit get_log_code fuel
        { logger := s.logger
          more_log_to_process := more
          any_log_processed := false
          min_skipped_epoch := Epoch.invalid
          trace := s.trace } buffer = Outcome.returns r)
    (hany : r.1.any_log_processed = true) :
    Logger.iterate get_log_code fuel s more
      = Outcome.returns
          ({ logger := r.1.logger, buffers := [r.2], stop_in := stop_in, trace := r.1.trace },
            r.1.more_log_to_process) := by
  simp [Logger.iterate, hbuffers, hstop, pass_single _ _ _ _ _ _ hvisit, hany]

/-- A wake-up of the logger thread while the stop flag is clear: the `do`
loop runs, then the thread sleeps again. -/
theorem handle_logger_awake (get_log_code : LogType → Nat) (fuel : Nat) (s : HandlerState)
    (stop_in : Nat) (s1 : HandlerState) (hstop : s.stop_in = stop_in + 1)
    (hprocess : Logger.process get_log_code fuel { s with stop_in := stop_in } false
      = Outcome.returns s1) :
    Logger.handle_logger get_log_code (fuel + 1) s
      = Logger.handle_logger get_log_code fuel s1 := by
  simp only [Logger.handle_logger, poll, hstop, Nat.add_one_ne_zero, if_false,
    Bool.false_eq_true, Nat.add_sub_cancel, hprocess, bind_returns]

/-- The logger thread ends when `sleep()` reports the stop request. -/
theorem handle_logger_stopped (get_log_code : LogType → Nat) (fuel : Nat) (s : HandlerState)
    (hstop : s.stop_in = 0) :
    Logger.handle_logger get_log_code (fuel + 1) s
      = Outcome.returns { s with stop_in := 0 } := by
  simp only [Logger.handle_logger, poll, hstop, if_true]

/-- C11 fails on this run of the code. The sample logger (current epoch 3) is
woken with one assigned buffer holding 4 bytes of epoch 3; the stop flag is
found set at the fourth poll. The first run of the loop body writes the 4
bytes and sets `more_log_to_process`; the second run breaks out of the `for`
loop at once and, the flag being stale, calls `switch_current_epoch` with the
default-constructed `min_skipped_epoch`: an epoch marker `{old = 3, new = 0}`
is emitted and `current_epoch_` changes from 3 to the invalid epoch 0, which
is not a later epoch. -/
theorem handle_logger_switches_to_invalid_epoch (fuel : Nat) :
    ∃ s, Logger.handle_logger sample_get_log_code (fuel + 8) sample_handler_state
        = Outcome.returns s
      ∧ s.trace
        = [LoggerEvent.wrote 0 { epoch_ := 3 } { epoch_ := 3 } 4,
            LoggerEvent.switched { epoch_ := 3 } Epoch.invalid]
      ∧ s.logger.current_epoch_ = Epoch.invalid
      ∧ s.logger.current_epoch_.is_valid = false
      ∧ Epoch.before { epoch_ := 3 } s.logger.current_epoch_ = false
      ∧ EpochMarkerLogType.decode (load s.logger.logger_buffer_ 0 EpochMarkerLogType.size)
          = { header_ := { storage_id_ := 0, log_length_ := 16, log_type_code_ := 2 }
              old_epoch_ := { epoch_ := 3 }
              new_epoch_ := { epoch_ := 0 } } := by
  -- the first run of the loop body: the 4 bytes of epoch 3 are written
  obtain ⟨l1, hwrite, hready1, hdev1, hlen1, hstream1⟩ :=
    write_log_straight_emits sample_get_log_code (fuel + 6) sample_logger sample_buffer 4
      sample_logger_io_ready rfl (by decide) (by decide) (by norm_num)
      (by show 4 - 0 + 1 < fuel + 6; omega)
  have hepoch1 : l1.current_epoch_ = { epoch_ := 3 } :=
    (write_log_epochs sample_get_log_code _ _ _ _ _ hwrite).2
  have hvisit := visit_writes sample_get_log_code (fuel + 6)
    { logger := sample_logger
      more_log_to_process := false
      any_log_processed := false
      min_skipped_epoch := Epoch.invalid
      trace := [] }
    sample_buffer sample_buffer l1 (by decide) (by decide) rfl (by decide) (by decide) hwrite
  have hiter1 := iterate_single_written sample_get_log_code (fuel + 6)
    { sample_handler_state with stop_in := 2 } sample_buffer 1 false _ rfl rfl hvisit rfl
  -- the second run: the stop flag is set, the stale flag makes the logger switch
  have hfit1 : l1.logger_buffer_cursor_ % LOG_WRITE_UNIT_SIZE = 0
      ∨ l1.logger_buffer_cursor_ + LogHeader.size ≤ l1.logger_buffer_.length := by
    right
    have hlen := congrArg List.length hstream1
    simp only [Logger.output_stream, List.length_append, List.length_take] at hlen
    have hload : (load sample_buffer.buffer_ sample_buffer.get_offset_durable
        (4 - sample_buffer.get_offset_durable)).length = 4 := by decide
    have hcursor : sample_logger.logger_buffer_cursor_ = 0 := rfl
    have hcontent : sample_logger.current_file_.content.length = 0 := rfl
    rw [hload, hcursor, hcontent] at hlen
    rw [sample_logger_length] at hlen1
    have hle := hready1.2.2.2
    simp only [LogHeader.size]
    omega
  obtain ⟨l2, hswitch, hepoch2, _, _, _, hmarker⟩ :=
    switch_current_epoch_returns sample_get_log_code l1 Epoch.invalid hready1 hfit1 hdev1
  have hiter2 := iterate_stopped sample_get_log_code (fuel + 5)
    { logger := l1
      buffers := [sample_buffer]
      stop_in := 0
      trace := [] ++ [LoggerEvent.wrote 0 { epoch_ := 3 } { epoch_ := 3 } 4] }
    l2 rfl hswitch
  refine ⟨{ logger := l2
            buffers := [sample_buffer]
            stop_in := 0
            trace := [LoggerEvent.wrote 0 { epoch_ := 3 } { epoch_ := 3 } 4,
              LoggerEvent.switched { epoch_ := 3 } Epoch.invalid] }, ?_, rfl, hepoch2, ?_, ?_, ?_⟩
  · have hiter1 : Logger.iterate sample_get_log_code (fuel + 6)
        { logger := sample_logger, buffers := [sample_buffer], stop_in := 2, trace := [] } false
        = Outcome.returns
            ({ logger := l1
               buffers := [sample_buffer]
               stop_in := 1
               trace := [LoggerEvent.wrote 0 { epoch_ := 3 } { epoch_ := 3 } 4] }, true) :=
      hiter1
    have hiter2 : Logger.iterate sample_get_log_code (fuel + 5)
        { logger := l1
          buffers := [sample_buffer]
          stop_in := 0
          trace := [LoggerEvent.wrote 0 { epoch_ := 3 } { epoch_ := 3 } 4] } true
        = Outcome.returns
            ({ logger := l2
               buffers := [sample_buffer]
               stop_in := 0
               trace := [LoggerEvent.wrote 0 { epoch_ := 3 } { epoch_ := 3 } 4,
                 LoggerEvent.switched { epoch_ := 3 } Epoch.invalid] }, true) := by
      simp only [hepoch1, List.nil_append] at hiter2
      exact hiter2
    have hprocess2 : Logger.process sample_get_log_code (fuel + 6)
        { logger := l1
          buffers := [sample_buffer]
          stop_in := 0
          trace := [LoggerEvent.wrote 0 { epoch_ := 3 } { epoch_ := 3 } 4] } true
        = Outcome.returns
            { logger := l2
              buffers := [sample_buffer]
              stop_in := 0
              trace := [LoggerEvent.wrote 0 { epoch_ := 3 } { epoch_ := 3 } 4,
                LoggerEvent.switched { epoch_ := 3 } Epoch.invalid] } := by
      simp only [Logger.process, hiter2, bind_returns, poll, if_true]
    have hprocess1 : Logger.process sample_get_log_code (fuel + 7)
        { logger := sample_logger, buffers := [sample_buffer], stop_in := 2, trace := [] } false
        = Outcome.returns
            { logger := l2
              buffers := [sample_buffer]
              stop_in := 0
              trace := [LoggerEvent.wrote 0 { epoch_ := 3 } { epoch_ := 3 } 4,
                LoggerEvent.switched { epoch_ := 3 } Epoch.invalid] } := by
      simp only [Logger.process, hiter1, bind_returns, poll, if_true]
      simp only [one_ne_zero, if_false, Bool.false_eq_true, Nat.sub_self]
      exact hprocess2
    rw [show fuel + 8 = (fuel + 7) + 1 from rfl,
      handle_logger_awake sample_get_log_code (fuel + 7) sample_handler_state 2 _ rfl hprocess1]
    exact handle_logger_stopped sample_get_log_code (fuel + 6) _ rfl
  · show l2.current_epoch_.is_valid = false
    rw [hepoch2]; rfl
  · show Epoch.before { epoch_ := 3 } l2.current_epoch_ = false
    rw [hepoch2]; decide
  · show EpochMarkerLogType.decode (load l2.logger_buffer_ 0 EpochMarkerLogType.size) = _
    rw [hmarker, hepoch1]
    rfl

end foedus.log

/-! ## Theorems: the logger's loop, once more -/

namespace foedus.log

open foedus

/-- The wrap-aware order is asymmetric: of two epochs at most one is before
the other. -/
theorem before_asymm (a b : Epoch) (h : a.before b = true) : b.before a = false := by
  simp only [Epoch.before, Bool.and_eq_true, decide_eq_true_eq] at h
  simp only [Epoch.before, Bool.and_eq_false_iff, decide_eq_false_iff_not]
  norm_num at h ⊢
  omega

/-- The loop body of `handle_logger` on a buffer with unflushed log whose mark
(no mark has to be consumed) is of a later epoch than the logger's current
epoch. -/
theorem visit_skips (get_log_code : LogType → Nat) (fuel : Nat) (v : LoopVars)
    (buffer : ThreadLogBuffer)
    (hlog : buffer.get_offset_current_xct_begin ≠ buffer.get_offset_durable)
    (hvalid : buffer.logger_epoch_.is_valid = true)
    (hmark : buffer.logger_epoch_open_ended_ = true
      ∨ buffer.logger_epoch_ends_ ≠ buffer.offset_durable_)
    (hlater : v.logger.current_epoch_.before buffer.logger_epoch_ = true) :
    Logger.visit get_log_code fuel v buffer
      = Outcome.returns
          ({ v with
              more_log_to_process := true
              min_skipped_epoch :=
                if !v.min_skipped_epoch.is_valid
                    || buffer.logger_epoch_.before v.min_skipped_epoch then
                  buffer.logger_epoch_
                else
                  v.min_skipped_epoch },
            buffer) := by
  have hnb := before_asymm _ _ hlater
  have hkeep : (!buffer.logger_epoch_.is_valid
      || (!buffer.logger_epoch_open_ended_
        && buffer.logger_epoch_ends_ == buffer.offset_durable_)) = false := by
    rcases hmark with h | h
    · simp [hvalid, h]
    · simp [hvalid, h]
  simp only [Logger.visit, hlog, if_false, hkeep, Bool.false_eq_true, Bool.not_true, hnb,
    hlater, if_true]

/-- Consuming an epoch mark leaves the bytes and the durable offset of the
buffer alone. -/
theorem consume_epoch_mark_frame (buffer : ThreadLogBuffer) :
    buffer.consume_epoch_mark.2.offset_durable_ = buffer.offset_durable_
      ∧ buffer.consume_epoch_mark.2.buffer_ = buffer.buffer_
      ∧ buffer.consume_epoch_mark.2.offset_current_xct_begin_
          = buffer.offset_current_xct_begin_ := by
  unfold ThreadLogBuffer.consume_epoch_mark
  cases buffer.epoch_marks_ with
  | nil => exact ⟨rfl, rfl, rfl⟩
  | cons mark marks => exact ⟨rfl, rfl, rfl⟩

/-- C24: the loop body of `handle_logger` for an assigned buffer with
unflushed log whose current epoch mark (`buffer1` is the buffer once the loop
body has consumed a mark, if it had to) is strictly later than the logger's
`current_epoch_`. The body returns with the logger, and so its I/O buffer, its
cursor and its file, exactly as before, no `write_log` recorded, the bytes and
the durable offset of the buffer unchanged; only `more_log_to_process` is set
and the buffer's epoch is taken into `min_skipped_epoch` when that is unset or
later. -/
theorem visit_later_epoch_skipped (get_log_code : LogType → Nat) (fuel : Nat) (v : LoopVars)
    (buffer buffer1 : ThreadLogBuffer)
    (hlog : buffer.get_offset_current_xct_begin ≠ buffer.get_offset_durable)
    (hmark : (if !buffer.logger_epoch_.is_valid
          || (!buffer.logger_epoch_open_ended_
            && buffer.logger_epoch_ends_ == buffer.offset_durable_) then
        buffer.consume_epoch_mark
      else
        (true, buffer)) = (true, buffer1))
    (hlater : v.logger.current_epoch_.before buffer1.logger_epoch_ = true) :
    ∃ r, Logger.visit get_log_code fuel v buffer = Outcome.returns r
      ∧ r.1.logger = v.logger
      ∧ r.1.trace = v.trace
      ∧ r.1.any_log_processed = v.any_log_processed
      ∧ r.2 = buffer1
      ∧ r.2.get_offset_durable = buffer.get_offset_durable
      ∧ r.2.buffer_ = buffer.buffer_
      ∧ r.1.more_log_to_process = true
      ∧ r.1.min_skipped_epoch
          = (if !v.min_skipped_epoch.is_valid
                || buffer1.logger_epoch_.before v.min_skipped_epoch then
              buffer1.logger_epoch_
            else
              v.min_skipped_epoch) := by
  have hnb := before_asymm _ _ hlater
  have hframe : buffer1.offset_durable_ = buffer.offset_durable_
      ∧ buffer1.buffer_ = buffer.buffer_ := by
    split at hmark
    · have h2 := congrArg Prod.snd hmark
      simp only at h2
      rw [← h2]
      exact ⟨(consume_epoch_mark_frame buffer).1, (consume_epoch_mark_frame buffer).2.1⟩
    · have h2 := congrArg Prod.snd hmark
      simp only at h2
      rw [← h2]
      exact ⟨rfl, rfl⟩
  refine ⟨({ v with
              more_log_to_process := true
              min_skipped_epoch :=
                if !v.min_skipped_epoch.is_valid
                    || buffer1.logger_epoch_.before v.min_skipped_epoch then
                  buffer1.logger_epoch_
                else
                  v.min_skipped_epoch },
            buffer1), ?_, rfl, rfl, rfl, rfl, hframe.1, hframe.2, rfl, rfl⟩
  simp only [Logger.visit, hlog, if_false, hmark, Bool.not_true, Bool.false_eq_true, hnb,
    hlater, if_true]

/-- The sample buffer at epoch 4 is skipped by the sample logger at epoch 3:
the logger is untouched and epoch 4 becomes the minimum skipped epoch. -/
theorem visit_later_epoch_skipped_witness :
    ∃ r, Logger.visit sample_get_log_code 6
          { logger := sample_logger
            more_log_to_process := false
            any_log_processed := false
            min_skipped_epoch := Epoch.invalid
            trace := [] } sample_later_buffer = Outcome.returns r
      ∧ r.1.logger = sample_logger
      ∧ r.2.get_offset_durable = 0
      ∧ r.1.more_log_to_process = true
      ∧ r.1.min_skipped_epoch = { epoch_ := 4 } := by
  obtain ⟨r, h, h1, _, _, _, h5, _, h7, h8⟩ := visit_later_epoch_skipped sample_get_log_code 6
    { logger := sample_logger
      more_log_to_process := false
      any_log_processed := false
      min_skipped_epoch := Epoch.invalid
      trace := [] } sample_later_buffer sample_later_buffer (by decide) (by decide) (by decide)
  exact ⟨r, h, h1, h5, h7, h8⟩

/-- A run of the body of the `do` loop over a single buffer in which nothing
is written and the flag `more_log_to_process` ends up set: the logger switches
to `min_skipped_epoch`. -/
theorem iterate_single_switched (get_log_code : LogType → Nat) (fuel : Nat) (s : HandlerState)
    (buffer : ThreadLogBuffer) (stop_in : Nat) (more : Bool) (r : LoopVars × ThreadLogBuffer)
    (l1 : Logger)
    (hbuffers : s.buffers = [buffer]) (hstop : s.stop_in = stop_in + 1)
    (hvisit : Logger.visit get_log_code fuel
        { logger := s.logger
          more_log_to_process := more
          any_log_processed := false
          min_skipped_epoch := Epoch.invalid
          trace := s.trace } buffer = Outcome.returns r)
    (hany : r.1.any_log_processed = false)
    (hmore : r.1.more_log_to_process = true)
    (hswitch : r.1.logger.switch_current_epoch get_log_code r.1.min_skipped_epoch
      = Outcome.returns l1) :
    Logger.iterate get_log_code fuel s more
      = Outcome.returns
          ({ logger := l1
             buffers := [r.2]
             stop_in := stop_in
             trace := r.1.trace
               ++ [LoggerEvent.switched r.1.logger.current_epoch_ r.1.min_skipped_epoch] },
            true) := by
  simp [Logger.iterate, hbuffers, hstop, pass_single _ _ _ _ _ _ hvisit, hany, hmore, hswitch]

/-- After a switch of the epoch the I/O buffer has room for the filler header
of the next flush. -/
theorem marker_leaves_room (l : Logger) (hready : l.io_ready)
    (hcursor : l.logger_buffer_cursor_ = EpochMarkerLogType.size) :
    l.logger_buffer_cursor_ % LOG_WRITE_UNIT_SIZE = 0
      ∨ l.logger_buffer_cursor_ + LogHeader.size ≤ l.logger_buffer_.length := by
  right
  obtain ⟨hsz, hmul, _, _⟩ := hready
  rw [hcursor]
  simp only [LOG_WRITE_UNIT_SIZE] at hmul
  simp only [EpochMarkerLogType.size, LogHeader.size]
  omega

/-- One round of the `do` loop whose body leaves `more_log_to_process` set
while the stop flag is clear at the `while` check: the loop goes round. -/
theorem process_again (get_log_code : LogType → Nat) (fuel : Nat) (s s1 : HandlerState)
    (more : Bool) (stop_in : Nat)
    (hiterate : Logger.iterate get_log_code fuel s more = Outcome.returns (s1, true))
    (hstop : s1.stop_in = stop_in + 1) :
    Logger.process get_log_code (fuel + 1) s more
      = Logger.process get_log_code fuel { s1 with stop_in := stop_in } true := by
  simp only [Logger.process, hiterate, bind_returns, if_true, poll, hstop,
    Nat.add_one_ne_zero, if_false, Bool.false_eq_true, Nat.add_sub_cancel]

/-- One round of the `do` loop whose body leaves `more_log_to_process` set
while the stop flag is found set at the `while` check: the loop ends. -/
theorem process_stopped (get_log_code : LogType → Nat) (fuel : Nat) (s s1 : HandlerState)
    (more : Bool)
    (hiterate : Logger.iterate get_log_code fuel s more = Outcome.returns (s1, true))
    (hstop : s1.stop_in = 0) :
    Logger.process get_log_code (fuel + 1) s more
      = Outcome.returns { s1 with stop_in := 0 } := by
  simp only [Logger.process, hiterate, bind_returns, if_true, poll, hstop]

/-- C23 fails on this run of the code. The sample logger (current epoch 3) is
woken with one assigned buffer whose mark is of epoch 4; the stop flag is found
set at the fourth poll. The first run of the loop body makes a full pass, skips
the buffer and calls `switch_current_epoch(4)`, as claimed. The second run
breaks out of the `for` loop at its first check, so there is no pass and no
skipped epoch, yet `more_log_to_process` is still set from the first run:
`switch_current_epoch` is invoked with the default-constructed
`min_skipped_epoch`, which is neither valid nor later than the current epoch
4. -/
theorem handle_logger_switches_without_a_pass (fuel : Nat) :
    ∃ s, Logger.handle_logger sample_get_log_code (fuel + 3) sample_skipping_state
        = Outcome.returns s
      ∧ s.trace
        = [LoggerEvent.switched { epoch_ := 3 } { epoch_ := 4 },
            LoggerEvent.switched { epoch_ := 4 } Epoch.invalid]
      ∧ Epoch.invalid.is_valid = false
      ∧ Epoch.before { epoch_ := 4 } Epoch.invalid = false
      ∧ s.logger.current_epoch_ = Epoch.invalid
      ∧ s.buffers = [sample_later_buffer] := by
  -- the first run of the loop body: a full pass, the buffer is skipped
  have hvisit := visit_skips sample_get_log_code (fuel + 1)
    { logger := sample_logger
      more_log_to_process := false
      any_log_processed := false
      min_skipped_epoch := Epoch.invalid
      trace := [] }
    sample_later_buffer (by decide) (by decide) (Or.inl rfl) (by decide)
  obtain ⟨l1, hswitch1, hepoch1, hcursor1, hready1, hdev1, _⟩ :=
    switch_current_epoch_returns sample_get_log_code sample_logger { epoch_ := 4 }
      sample_logger_io_ready (Or.inl (by decide)) rfl
  have hiter1 : Logger.iterate sample_get_log_code (fuel + 1)
      { logger := sample_logger, buffers := [sample_later_buffer], stop_in := 2, trace := [] }
      false
      = Outcome.returns
          ({ logger := l1
             buffers := [sample_later_buffer]
             stop_in := 1
             trace := [LoggerEvent.switched { epoch_ := 3 } { epoch_ := 4 }] }, true) :=
    iterate_single_switched sample_get_log_code (fuel + 1)
      { logger := sample_logger, buffers := [sample_later_buffer], stop_in := 2, trace := [] }
      sample_later_buffer 1 false _ l1 rfl rfl hvisit rfl rfl hswitch1
  -- the second run: no pass at all, and a switch to the invalid epoch
  obtain ⟨l2, hswitch2, hepoch2, _⟩ :=
    switch_current_epoch_returns sample_get_log_code l1 Epoch.invalid hready1
      (marker_leaves_room l1 hready1 hcursor1) hdev1
  have hiter2 := iterate_stopped sample_get_log_code fuel
    { logger := l1
      buffers := [sample_later_buffer]
      stop_in := 0
      trace := [LoggerEvent.switched { epoch_ := 3 } { epoch_ := 4 }] }
    l2 rfl hswitch2
  simp only [hepoch1, List.singleton_append] at hiter2
  have hprocess : Logger.process sample_get_log_code (fuel + 2)
      { logger := sample_logger, buffers := [sample_later_buffer], stop_in := 2, trace := [] }
      false
      = Outcome.returns
          { logger := l2
            buffers := [sample_later_buffer]
            stop_in := 0
            trace := [LoggerEvent.switched { epoch_ := 3 } { epoch_ := 4 },
              LoggerEvent.switched { epoch_ := 4 } Epoch.invalid] } := by
    rw [process_again sample_get_log_code (fuel + 1) _ _ false 0 hiter1 rfl]
    exact process_stopped sample_get_log_code fuel _ _ true hiter2 rfl
  refine ⟨{ logger := l2
            buffers := [sample_later_buffer]
            stop_in := 0
            trace := [LoggerEvent.switched { epoch_ := 3 } { epoch_ := 4 },
              LoggerEvent.switched { epoch_ := 4 } Epoch.invalid] },
    ?_, rfl, by decide, by decide, hepoch2, rfl⟩
  rw [show fuel + 3 = (fuel + 2) + 1 from rfl,
    handle_logger_awake sample_get_log_code (fuel + 2) sample_skipping_state 2 _ rfl hprocess]
  exact handle_logger_stopped sample_get_log_code (fuel + 1) _ rfl

/-- C26 fails on the code: `initialize_once` takes the file path from the
savepoint's ordinal of the current file but sets `current_ordinal_` to 0.
After every successful initialization `current_file_path_` is
`construct_suffixed_log_path(ordinal)` for the ordinal `ordinal` of the
savepoint, while `current_ordinal_ = oldest_ordinal_ = 0` (so
`oldest_ordinal_ <= current_ordinal_` holds). -/
theorem initialize_once_path_ordinal (l l1 : Logger) (savepoint : Savepoint)
    (disk : String → Option (List Nat)) (device_ok : Bool) (io_buffer : List Nat)
    (ordinal : Nat)
    (hord : savepoint.current_log_files_[l.id_]? = some ordinal)
    (hinit : l.initialize_once savepoint disk device_ok io_buffer
      = Outcome.returns (ErrorCode.ERROR_CODE_OK, l1)) :
    l1.current_file_path_ = l1.construct_suffixed_log_path ordinal
      ∧ l1.current_ordinal_ = 0
      ∧ l1.oldest_ordinal_ = 0
      ∧ l1.oldest_ordinal_ ≤ l1.current_ordinal_ := by
  unfold Logger.initialize_once at hinit
  simp only [hord] at hinit
  repeat' split at hinit
  all_goals first
    | (cases hinit; done)
    | (simp only [Outcome.returns.injEq, Prod.mk.injEq] at hinit
       rw [← hinit.2]
       exact ⟨rfl, rfl, rfl, Nat.le_refl _⟩)

/-- The sample logger initialized from a savepoint at file ordinal 1: the
current file is `log.1`, the path of the current ordinal is `log.0`. -/
theorem initialize_once_path_ordinal_witness :
    ∃ l1, sample_logger.initialize_once sample_rotated_savepoint sample_rotated_disk true
          (List.replicate 4096 0)
        = Outcome.returns (ErrorCode.ERROR_CODE_OK, l1)
      ∧ l1.current_file_path_ = "log.1"
      ∧ l1.current_ordinal_ = 0
      ∧ l1.construct_suffixed_log_path l1.current_ordinal_ = "log.0"
      ∧ l1.current_file_path_ ≠ l1.construct_suffixed_log_path l1.current_ordinal_ := by
  have hrun : sample_logger.initialize_once sample_rotated_savepoint sample_rotated_disk true
        (List.replicate 4096 0)
      = Outcome.returns (ErrorCode.ERROR_CODE_OK,
          { sample_initialized_logger with current_file_path_ := "log.1" }) := by
    rfl
  obtain ⟨h1, h2, _, _⟩ := initialize_once_path_ordinal sample_logger _
    sample_rotated_savepoint sample_rotated_disk true (List.replicate 4096 0) 1 rfl hrun
  refine ⟨_, hrun, ?_, h2, ?_, ?_⟩
  · rw [h1]; rfl
  · rfl
  · rw [h1]; decide

/-- C28 fails on the code: in the wrap-around case `write_log` does not
return. For every thread buffer whose durable offset is greater than
`upto_offset` (and within the buffer), on a usable I/O buffer and a working
device: the first nested call, for the tail up to `buffer_size_`, returns OK
and leaves the buffer, so also its durable offset, as it was; the second
nested call is therefore a wrap-around call again, and the embedded function
runs out of fuel for every amount of fuel: it never returns a result. -/
theorem write_log_wrap_around_never_returns (get_log_code : LogType → Nat)
    (l : Logger) (buffer : ThreadLogBuffer) (upto_offset : Nat)
    (hw : buffer.get_offset_durable > upto_offset)
    (hdur : buffer.get_offset_durable ≤ buffer.buffer_size_)
    (hsize : buffer.buffer_size_ ≤ buffer.buffer_.length)
    (h64 : buffer.buffer_size_ < 2 ^ 64)
    (hready : l.io_ready) (hdev : l.current_file_.device_ok = true) :
    (∀ fuel, buffer.buffer_size_ - buffer.get_offset_durable + 1 < fuel →
        ∃ l1, Logger.write_log get_log_code fuel l buffer buffer.buffer_size_
            = Outcome.returns (ErrorCode.ERROR_CODE_OK, l1, buffer))
      ∧ (∀ fuel, Logger.write_log get_log_code fuel l buffer upto_offset = Outcome.out_of_fuel)
      ∧ (∀ fuel r, Logger.write_log get_log_code fuel l buffer upto_offset
          ≠ Outcome.returns r) := by
  have hdiverges := write_log_wrapped_diverges get_log_code buffer upto_offset hw hdur hsize h64
  refine ⟨?_, fun fuel => hdiverges fuel l hready hdev, ?_⟩
  · intro fuel hfuel
    obtain ⟨l1, h1, _⟩ := write_log_straight_emits get_log_code fuel l buffer
      buffer.buffer_size_ hready hdev hdur hsize h64 hfuel
    exact ⟨l1, h1⟩
  · intro fuel r hr
    rw [hdiverges fuel l hready hdev] at hr
    cases hr

/-- The sample buffer wrapped around (durable up to 6, committed up to 2, size
8): the tail call returns OK, the whole call never returns. -/
theorem write_log_wrap_around_never_returns_witness :
    sample_wrapped_buffer.get_offset_durable = 6
    ∧ (∃ l1, Logger.write_log sample_get_log_code 4 sample_logger sample_wrapped_buffer 8
          = Outcome.returns (ErrorCode.ERROR_CODE_OK, l1, sample_wrapped_buffer))
    ∧ ∀ fuel, Logger.write_log sample_get_log_code fuel sample_logger sample_wrapped_buffer 2
        = Outcome.out_of_fuel := by
  obtain ⟨h1, h2, _⟩ := write_log_wrap_around_never_returns sample_get_log_code sample_logger
    sample_wrapped_buffer 2 (by decide) (by decide) (by decide) (by norm_num [sample_wrapped_buffer, sample_buffer])
    sample_logger_io_ready rfl
  exact ⟨rfl, h1 4 (by decide), h2⟩

/-- A `flush_log` that has to pad: whatever the device does, it returns with
the filler header stored at the cursor; when the device accepts the write, the
padded buffer has been appended to the file. -/
theorem flush_log_padded_buffer (get_log_code : LogType → Nat) (l : Logger)
    (hun : l.logger_buffer_cursor_ % LOG_WRITE_UNIT_SIZE ≠ 0)
    (hfit : l.logger_buffer_cursor_ + LogHeader.size ≤ l.logger_buffer_.length)
    (hpad : l.logger_buffer_cursor_
        + (LOG_WRITE_UNIT_SIZE - l.logger_buffer_cursor_ % LOG_WRITE_UNIT_SIZE)
      ≤ l.logger_buffer_.length)
    (h64 : l.logger_buffer_.length < 2 ^ 64) :
    ∃ code l1, l.flush_log get_log_code = Outcome.returns (code, l1)
      ∧ l1.logger_buffer_
          = store l.logger_buffer_ l.logger_buffer_cursor_
              (LogHeader.encode
                { storage_id_ := 0
                  log_length_ :=
                    LOG_WRITE_UNIT_SIZE - l.logger_buffer_cursor_ % LOG_WRITE_UNIT_SIZE
                  log_type_code_ := get_log_code LogType.FillerLogType })
      ∧ (l.current_file_.device_ok = true →
          code = ErrorCode.ERROR_CODE_OK
          ∧ l1.current_file_.content
              = l.current_file_.content
                ++ l1.logger_buffer_.take
                    (l.logger_buffer_cursor_
                      + (LOG_WRITE_UNIT_SIZE
                        - l.logger_buffer_cursor_ % LOG_WRITE_UNIT_SIZE))) := by
  by_cases hdev : l.current_file_.device_ok = true
  · exact ⟨_, _, flush_log_padded get_log_code l hun hfit hpad h64 hdev, rfl,
      fun _ => ⟨rfl, rfl⟩⟩
  · have hpos : l.logger_buffer_cursor_ ≠ 0 := by
      intro h0; rw [h0] at hun; simp at hun
    refine ⟨ErrorCode.ERROR_CODE_FS_WRITE_FAILED,
      { l with
        logger_buffer_ := store l.logger_buffer_ l.logger_buffer_cursor_
          (LogHeader.encode
            { storage_id_ := 0
              log_length_ :=
                LOG_WRITE_UNIT_SIZE - l.logger_buffer_cursor_ % LOG_WRITE_UNIT_SIZE
              log_type_code_ := get_log_code LogType.FillerLogType })
        logger_buffer_cursor_ := add64 l.logger_buffer_cursor_
          (LOG_WRITE_UNIT_SIZE - l.logger_buffer_cursor_ % LOG_WRITE_UNIT_SIZE) },
      ?_, rfl, fun h => absurd h hdev⟩
    simp [Logger.flush_log, hpos, hun, hfit, DirectIoFile.write, hdev]

/-- C30: the filler of `flush_log` fits. For a usable I/O buffer (its size a
positive multiple of 4096) and a cursor `c` that is a multiple of 8 but not of
4096: the filler length `4096 - c mod 4096` lies in `[8, 4088]`; `flush_log`
returns with the filler header `{0, 4096 - c mod 4096, code of the filler}`
stored at `c`, its `log_length_` read back without truncation and the bytes
below `c` unchanged; the 8 bytes of the header end inside the padded region,
and the padded region ends inside the I/O buffer. -/
theorem flush_log_filler_fits (get_log_code : LogType → Nat) (l : Logger)
    (hready : l.io_ready)
    (h8 : l.logger_buffer_cursor_ % 8 = 0)
    (hun : l.logger_buffer_cursor_ % LOG_WRITE_UNIT_SIZE ≠ 0) :
    8 ≤ LOG_WRITE_UNIT_SIZE - l.logger_buffer_cursor_ % LOG_WRITE_UNIT_SIZE
      ∧ LOG_WRITE_UNIT_SIZE - l.logger_buffer_cursor_ % LOG_WRITE_UNIT_SIZE ≤ 4088
      ∧ l.logger_buffer_cursor_ + LogHeader.size
          ≤ l.logger_buffer_cursor_
            + (LOG_WRITE_UNIT_SIZE - l.logger_buffer_cursor_ % LOG_WRITE_UNIT_SIZE)
      ∧ l.logger_buffer_cursor_
            + (LOG_WRITE_UNIT_SIZE - l.logger_buffer_cursor_ % LOG_WRITE_UNIT_SIZE)
          ≤ l.logger_buffer_.length
      ∧ ∃ code l1, l.flush_log get_log_code = Outcome.returns (code, l1)
          ∧ l1.logger_buffer_.length = l.logger_buffer_.length
          ∧ l1.logger_buffer_.take l.logger_buffer_cursor_
              = l.logger_buffer_.take l.logger_buffer_cursor_
          ∧ LogHeader.decode (load l1.logger_buffer_ l.logger_buffer_cursor_ LogHeader.size)
              = { storage_id_ := 0
                  log_length_ :=
                    LOG_WRITE_UNIT_SIZE - l.logger_buffer_cursor_ % LOG_WRITE_UNIT_SIZE
                  log_type_code_ := get_log_code LogType.FillerLogType % 2 ^ 16 }
          ∧ (l.current_file_.device_ok = true →
              code = ErrorCode.ERROR_CODE_OK
              ∧ l1.current_file_.content
                  = l.current_file_.content
                    ++ l1.logger_buffer_.take
                        (l.logger_buffer_cursor_
                          + (LOG_WRITE_UNIT_SIZE
                            - l.logger_buffer_cursor_ % LOG_WRITE_UNIT_SIZE))) := by
  obtain ⟨hsz, hmul, h64, hle⟩ := hready
  have hpos : l.logger_buffer_cursor_ ≠ 0 := by
    intro h0; rw [h0] at hun; simp at hun
  have hlow : 8 ≤ LOG_WRITE_UNIT_SIZE - l.logger_buffer_cursor_ % LOG_WRITE_UNIT_SIZE := by
    simp only [LOG_WRITE_UNIT_SIZE] at hun ⊢; omega
  have hhigh : LOG_WRITE_UNIT_SIZE - l.logger_buffer_cursor_ % LOG_WRITE_UNIT_SIZE ≤ 4088 := by
    simp only [LOG_WRITE_UNIT_SIZE] at hun ⊢; omega
  have hpad : l.logger_buffer_cursor_
      + (LOG_WRITE_UNIT_SIZE - l.logger_buffer_cursor_ % LOG_WRITE_UNIT_SIZE)
      ≤ l.logger_buffer_.length := by
    simp only [LOG_WRITE_UNIT_SIZE] at hun hmul ⊢; omega
  have hfit : l.logger_buffer_cursor_ + LogHeader.size ≤ l.logger_buffer_.length := by
    simp only [LOG_WRITE_UNIT_SIZE] at hun hmul; simp only [LogHeader.size]; omega
  refine ⟨hlow, hhigh, by simp only [LogHeader.size]; omega, hpad, ?_⟩
  obtain ⟨code, l1, hflush, hbuf, hfile⟩ :=
    flush_log_padded_buffer get_log_code l hun hfit hpad h64
  refine ⟨code, l1, hflush, ?_, ?_, ?_, hfile⟩
  · rw [hbuf]
    exact store_length _ _ _ (by rw [encode_length]; exact hfit)
  · rw [hbuf]
    exact take_store_below _ _ _ _ hle (Nat.le_refl _)
  · rw [hbuf]
    have hload := load_store l.logger_buffer_ l.logger_buffer_cursor_
      (LogHeader.encode
        { storage_id_ := 0
          log_length_ := LOG_WRITE_UNIT_SIZE - l.logger_buffer_cursor_ % LOG_WRITE_UNIT_SIZE
          log_type_code_ := get_log_code LogType.FillerLogType })
      (by rw [encode_length]; exact hfit)
    rw [encode_length] at hload
    rw [hload, decode_encode]
    simp only [LogHeader.mk.injEq, Nat.zero_mod, true_and, and_true]
    apply Nat.mod_eq_of_lt
    omega

/-- The sample logger with 40 buffered bytes: the filler is 4056 bytes long
and its header is read back from offset 40 of the file. -/
theorem flush_log_filler_fits_witness :
    sample_pending_logger.logger_buffer_cursor_ = 40
    ∧ 8 ≤ LOG_WRITE_UNIT_SIZE - 40 % LOG_WRITE_UNIT_SIZE
    ∧ LOG_WRITE_UNIT_SIZE - 40 % LOG_WRITE_UNIT_SIZE ≤ 4088
    ∧ ∃ code l1, sample_pending_logger.flush_log sample_get_log_code
          = Outcome.returns (code, l1)
        ∧ LogHeader.decode (load l1.logger_buffer_ 40 LogHeader.size)
            = { storage_id_ := 0, log_length_ := 4056, log_type_code_ := 1 } := by
  obtain ⟨h1, h2, _, _, code, l1, hflush, _, _, hdecode, _⟩ :=
    flush_log_filler_fits sample_get_log_code sample_pending_logger
      sample_pending_logger_io_ready (by decide) (by decide)
  exact ⟨rfl, h1, h2, code, l1, hflush, hdecode⟩

end foedus.log

/-! ## Theorems: the array partitioner, range and cap -/

namespace foedus.storage.array

open foedus

/-- C27 fails on the code: rounding `bucket_size_` down lets the bucket index
reach `kInteriorFanout`. For every partitionable array with `bucket_size_ =
floor(array_size_ / kInteriorFanout) >= 1`, all offsets below `array_size_`
have a bucket below `kInteriorFanout` exactly when `array_size_` is a multiple
of `kInteriorFanout`; when it is not, the last offset `array_size_ - 1` has a
bucket of at least `kInteriorFanout` and `partition_batch` reads
`bucket_owners_` outside its `kInteriorFanout` entries. -/
theorem partition_batch_bucket_range (p : ArrayPartitioner)
    (hbucket : p.bucket_size_ = p.array_size_ / kInteriorFanout)
    (hpos : 1 ≤ p.bucket_size_)
    (howners : p.bucket_owners_.length = kInteriorFanout) :
    ((∀ offset, offset < p.array_size_ →
        ConstDiv.div64 p.bucket_size_ offset < kInteriorFanout)
      ↔ p.array_size_ % kInteriorFanout = 0)
    ∧ (p.array_size_ % kInteriorFanout ≠ 0 →
        p.array_size_ - 1 < p.array_size_
        ∧ kInteriorFanout ≤ ConstDiv.div64 p.bucket_size_ (p.array_size_ - 1)
        ∧ p.partition_batch [p.array_size_ - 1] = Outcome.out_of_bounds) := by
  simp only [kInteriorFanout, ConstDiv.div64] at *
  have hdecomp := Nat.div_add_mod p.array_size_ 251
  rw [← hbucket] at hdecomp
  have hlast : p.array_size_ % 251 ≠ 0 → 251 ≤ (p.array_size_ - 1) / p.bucket_size_ := by
    intro hne
    rw [Nat.le_div_iff_mul_le (by omega)]
    have : 251 * p.bucket_size_ = p.bucket_size_ * 251 := Nat.mul_comm _ _
    omega
  refine ⟨⟨?_, ?_⟩, ?_⟩
  · intro hall
    by_contra hne
    have h1 := hall (p.array_size_ - 1) (by omega)
    have h2 := hlast hne
    omega
  · intro hzero offset hlt
    rw [Nat.div_lt_iff_lt_mul (by omega)]
    have : 251 * p.bucket_size_ = p.bucket_size_ * 251 := Nat.mul_comm _ _
    omega
  · intro hne
    refine ⟨by omega, hlast hne, ?_⟩
    have hnone : p.bucket_owners_[(p.array_size_ - 1) / p.bucket_size_]? = none := by
      rw [List.getElem?_eq_none]
      rw [howners]
      exact hlast hne
    rw [partition_batch_cons, hnone]

/-- The sample partitioner of 1,000,000 elements (1,000,000 mod 251 = 16): the
last offset 999,999 lies in bucket 251. -/
theorem partition_batch_bucket_range_witness :
    sample_partitioner.array_size_ = 1000000
    ∧ sample_partitioner.bucket_size_ = 3984
    ∧ 999999 < sample_partitioner.array_size_
    ∧ kInteriorFanout ≤ ConstDiv.div64 sample_partitioner.bucket_size_ 999999
    ∧ sample_partitioner.partition_batch [999999] = Outcome.out_of_bounds := by
  obtain ⟨_, h⟩ := partition_batch_bucket_range sample_partitioner (by decide) (by decide)
    (by simp [sample_partitioner])
  obtain ⟨h1, h2, h3⟩ := h (by decide)
  exact ⟨rfl, rfl, h1, h2, h3⟩

/-- C29: for a root page of `direct_children <= kInteriorFanout` children
whose pages all lie on NUMA nodes below `total_partitions >= 2`, the
constructor returns and no partition owns more than
`floor(direct_children * 12 / (total_partitions * 10)) + 1` of the direct
children, whichever pass assigned them. -/
theorem construct_cap (array_id array_size levels direct_children total_partitions : Nat)
    (root : List DualPagePointer) (owners : List Nat)
    (hlevels : levels ≠ 1)
    (hdc : direct_children ≤ kInteriorFanout) (htp : 2 ≤ total_partitions)
    (hroot : direct_children ≤ root.length)
    (hown : direct_children ≤ owners.length)
    (hnodes : ∀ child pointer, child < direct_children → root[child]? = some pointer →
      primary_partition pointer < total_partitions) :
    ∃ p, ArrayPartitioner.construct array_id array_size levels direct_children
          total_partitions root owners = Outcome.returns p
      ∧ ∀ partition, owned_children p.bucket_owners_ direct_children partition
          ≤ direct_children * 12 / (total_partitions * 10) + 1 := by
  obtain ⟨st, hassign, _, _, hcount, hcap⟩ :=
    assign_buckets_tallies direct_children total_partitions root owners hdc (by omega) hroot
      hown hnodes
  refine ⟨{ array_id_ := array_id
            array_size_ := array_size
            bucket_size_ := array_size / kInteriorFanout
            array_single_page_ := false
            bucket_owners_ := st.bucket_owners_ }, ?_, ?_⟩
  · simp only [ArrayPartitioner.construct, hlevels, if_false, hassign]
    rfl
  · intro partition
    rw [← excessive_count_eq direct_children total_partitions hdc]
    show owned_children st.bucket_owners_ direct_children partition ≤ _
    rw [← hcount partition]
    exact hcap partition

/-- A root page of 10 children, all on node 0, dealt to 4 partitions: no
partition owns more than 4 children. -/
theorem construct_cap_witness :
    ∃ p, ArrayPartitioner.construct 1 1000 2 10 4 (sample_root 10 0)
          (List.replicate kInteriorFanout 0) = Outcome.returns p
      ∧ ∀ partition, owned_children p.bucket_owners_ 10 partition ≤ 10 * 12 / (4 * 10) + 1 :=
  construct_cap 1 1000 2 10 4 (sample_root 10 0) (List.replicate kInteriorFanout 0)
    (by decide) (by decide) (by decide) (by rw [sample_root_length])
    (by rw [List.length_replicate]; decide)
    (fun child pointer _ h => by rw [sample_root_primary 10 0 child pointer h]; decide)

end foedus.storage.array

/-! ## Theorems: the TPC-E driver -/

namespace foedus.tpce

open foedus

/-- Sums over the first entries of one list agree with sums over another list
whose elements they match. -/
theorem map_take_eq_map {α β γ : Type} (ws : List α) (os : List β) (f : α → γ) (g : β → γ)
    (h : ∀ (i : Nat) (o : β), os[i]? = some o → ∃ w, ws[i]? = some w ∧ f w = g o) :
    (ws.take os.length).map f = os.map g := by
  apply List.ext_getElem?
  intro i
  rw [List.getElem?_map, List.getElem?_map]
  by_cases hi : i < os.length
  · obtain ⟨w, hw, hfg⟩ := h i os[i] (List.getElem?_eq_getElem hi)
    rw [List.getElem?_take_of_lt hi, hw, List.getElem?_eq_getElem hi]
    simp [hfg]
  · have h1 : (ws.take os.length)[i]? = none := by
      rw [List.getElem?_eq_none_iff, List.length_take]
      omega
    have h2 : os[i]? = none := by
      rw [List.getElem?_eq_none_iff]
      omega
    rw [h1, h2]
    rfl

/-- The loop that fills the result, from session `i` on: it returns when the
array `workers_` has an entry for every session, it leaves the entries below
`i` alone, writes the entry of every session from the first loads and adds the
second load of every counter to the aggregate. -/
theorem collect_spec :
    ∀ (reads : List OutputReads) (i : Nat) (result : Result),
      i + reads.length ≤ result.workers_.length →
      ∃ result1, TpceDriver.collect i reads result = Outcome.returns result1
        ∧ result1.worker_count_ = result.worker_count_
        ∧ result1.workers_.length = result.workers_.length
        ∧ (∀ j, j < i → result1.workers_[j]? = result.workers_[j]?)
        ∧ (∀ (j : Nat) (output : OutputReads), reads[j]? = some output →
            result1.workers_[i + j]?
              = some
                  { id_ := i + j
                    processed_ := output.entry_.processed_
                    race_aborts_ := output.entry_.race_aborts_
                    unexpected_aborts_ := output.entry_.unexpected_aborts_
                    largereadset_aborts_ := output.entry_.largereadset_aborts_
                    user_requested_aborts_ := output.entry_.user_requested_aborts_
                    snapshot_cache_hits_ := output.entry_.snapshot_cache_hits_
                    snapshot_cache_misses_ := output.entry_.snapshot_cache_misses_ })
        ∧ result1.processed_
            = result.processed_ + (reads.map fun o => o.sum_.processed_).sum
        ∧ result1.race_aborts_
            = result.race_aborts_ + (reads.map fun o => o.sum_.race_aborts_).sum
        ∧ result1.unexpected_aborts_
            = result.unexpected_aborts_ + (reads.map fun o => o.sum_.unexpected_aborts_).sum
        ∧ result1.largereadset_aborts_
            = result.largereadset_aborts_
              + (reads.map fun o => o.sum_.largereadset_aborts_).sum
        ∧ result1.user_requested_aborts_
            = result.user_requested_aborts_
              + (reads.map fun o => o.sum_.user_requested_aborts_).sum
        ∧ result1.snapshot_cache_hits_
            = result.snapshot_cache_hits_
              + (reads.map fun o => o.sum_.snapshot_cache_hits_).sum
        ∧ result1.snapshot_cache_misses_
            = result.snapshot_cache_misses_
              + (reads.map fun o => o.sum_.snapshot_cache_misses_).sum := by
  intro reads
  induction reads with
  | nil =>
    intro i result _
    refine ⟨result, rfl, rfl, rfl, fun _ _ => rfl, ?_, ?_⟩
    · intro j output h
      simp at h
    · simp
  | cons output rest ih =>
    intro i result hfit
    simp only [List.length_cons] at hfit
    have hi : i < result.workers_.length := by omega
    obtain ⟨result1, hrun, hcount, hlen, hbelow, hentries, h1, h2, h3, h4, h5, h6, h7⟩ :=
      ih (i + 1)
        { result with
          workers_ := result.workers_.set i
            { id_ := i
              processed_ := output.entry_.processed_
              race_aborts_ := output.entry_.race_aborts_
              unexpected_aborts_ := output.entry_.unexpected_aborts_
              largereadset_aborts_ := output.entry_.largereadset_aborts_
              user_requested_aborts_ := output.entry_.user_requested_aborts_
              snapshot_cache_hits_ := output.entry_.snapshot_cache_hits_
              snapshot_cache_misses_ := output.entry_.snapshot_cache_misses_ }
          processed_ := result.processed_ + output.sum_.processed_
          race_aborts_ := result.race_aborts_ + output.sum_.race_aborts_
          unexpected_aborts_ := result.unexpected_aborts_ + output.sum_.unexpected_aborts_
          largereadset_aborts_ :=
            result.largereadset_aborts_ + output.sum_.largereadset_aborts_
          user_requested_aborts_ :=
            result.user_requested_aborts_ + output.sum_.user_requested_aborts_
          snapshot_cache_hits_ :=
            result.snapshot_cache_hits_ + output.sum_.snapshot_cache_hits_
          snapshot_cache_misses_ :=
            result.snapshot_cache_misses_ + output.sum_.snapshot_cache_misses_ }
        (by simp only [List.length_set]; omega)
    refine ⟨result1, ?_, hcount, ?_, ?_, ?_, ?_, ?_, ?_, ?_, ?_, ?_, ?_⟩
    · simp only [TpceDriver.collect, hi, if_true]
      exact hrun
    · rw [hlen, List.length_set]
    · intro j hj
      rw [hbelow j (by omega)]
      exact List.getElem?_set_ne (by omega)
    · intro j out hj
      cases j with
      | zero =>
        simp only [List.getElem?_cons_zero, Option.some.injEq] at hj
        rw [← hj, Nat.add_zero, hbelow i (by omega)]
        exact List.getElem?_set_eq_of_lt _ hi
      | succ j =>
        simp only [List.getElem?_cons_succ] at hj
        have h := hentries j out hj
        rw [show i + (j + 1) = i + 1 + j by omega]
        exact h
    · rw [h1]; simp only [List.map_cons, List.sum_cons]; omega
    · rw [h2]; simp only [List.map_cons, List.sum_cons]; omega
    · rw [h3]; simp only [List.map_cons, List.sum_cons]; omega
    · rw [h4]; simp only [List.map_cons, List.sum_cons]; omega
    · rw [h5]; simp only [List.map_cons, List.sum_cons]; omega
    · rw [h6]; simp only [List.map_cons, List.sum_cons]; omega
    · rw [h7]; simp only [List.map_cons, List.sum_cons]; omega

/-- C21, amended: the `Result` that `TpceDriver::run` returns after a completed
experiment, when the array `workers_` has an entry for every session. For
every session index `i` the entry `workers_[i]` has `id_ = i` and the counters
as the first loads from that worker's output saw them; each of the seven
aggregate counters is the sum, over all sessions, of the counter as the second
load saw it. When no worker's output changed between its two loads, each
aggregate counter is the sum of the corresponding counter over the per-worker
entries. -/
theorem run_result_counters (max_workers total_thread_count : Nat)
    (reads : List OutputReads) (hfit : reads.length ≤ max_workers) :
    ∃ result, TpceDriver.run max_workers total_thread_count reads = Outcome.returns result
      ∧ result.worker_count_ = total_thread_count
      ∧ (∀ (i : Nat) (output : OutputReads), reads[i]? = some output →
          result.workers_[i]?
            = some
                { id_ := i
                  processed_ := output.entry_.processed_
                  race_aborts_ := output.entry_.race_aborts_
                  unexpected_aborts_ := output.entry_.unexpected_aborts_
                  largereadset_aborts_ := output.entry_.largereadset_aborts_
                  user_requested_aborts_ := output.entry_.user_requested_aborts_
                  snapshot_cache_hits_ := output.entry_.snapshot_cache_hits_
                  snapshot_cache_misses_ := output.entry_.snapshot_cache_misses_ })
      ∧ (result.processed_ = (reads.map fun o => o.sum_.processed_).sum
        ∧ result.race_aborts_ = (reads.map fun o => o.sum_.race_aborts_).sum
        ∧ result.unexpected_aborts_ = (reads.map fun o => o.sum_.unexpected_aborts_).sum
        ∧ result.largereadset_aborts_
            = (reads.map fun o => o.sum_.largereadset_aborts_).sum
        ∧ result.user_requested_aborts_
            = (reads.map fun o => o.sum_.user_requested_aborts_).sum
        ∧ result.snapshot_cache_hits_
            = (reads.map fun o => o.sum_.snapshot_cache_hits_).sum
        ∧ result.snapshot_cache_misses_
            = (reads.map fun o => o.sum_.snapshot_cache_misses_).sum)
      ∧ ((∀ output ∈ reads, output.sum_ = output.entry_) →
          result.processed_
            = ((result.workers_.take reads.length).map WorkerResult.processed_).sum
          ∧ result.race_aborts_
            = ((result.workers_.take reads.length).map WorkerResult.race_aborts_).sum
          ∧ result.unexpected_aborts_
            = ((result.workers_.take reads.length).map WorkerResult.unexpected_aborts_).sum
          ∧ result.largereadset_aborts_
            = ((result.workers_.take reads.length).map
                WorkerResult.largereadset_aborts_).sum
          ∧ result.user_requested_aborts_
            = ((result.workers_.take reads.length).map
                WorkerResult.user_requested_aborts_).sum
          ∧ result.snapshot_cache_hits_
            = ((result.workers_.take reads.length).map
                WorkerResult.snapshot_cache_hits_).sum
          ∧ result.snapshot_cache_misses_
            = ((result.workers_.take reads.length).map
                WorkerResult.snapshot_cache_misses_).sum) := by
  obtain ⟨result, hrun, hcount, _, _, hentries, h1, h2, h3, h4, h5, h6, h7⟩ :=
    collect_spec reads 0
      { Result.construct max_workers with worker_count_ := total_thread_count }
      (by simp only [Result.construct, List.length_replicate]; omega)
  have hentries0 : ∀ (i : Nat) (output : OutputReads), reads[i]? = some output →
      result.workers_[i]?
        = some
            { id_ := i
              processed_ := output.entry_.processed_
              race_aborts_ := output.entry_.race_aborts_
              unexpected_aborts_ := output.entry_.unexpected_aborts_
              largereadset_aborts_ := output.entry_.largereadset_aborts_
              user_requested_aborts_ := output.entry_.user_requested_aborts_
              snapshot_cache_hits_ := output.entry_.snapshot_cache_hits_
              snapshot_cache_misses_ := output.entry_.snapshot_cache_misses_ } := by
    intro i output h
    have h0 := hentries i output h
    rw [Nat.zero_add] at h0
    exact h0
  have hz1 : result.processed_ = (reads.map fun o => o.sum_.processed_).sum := by
    rw [h1]; simp [Result.construct]
  have hz2 : result.race_aborts_ = (reads.map fun o => o.sum_.race_aborts_).sum := by
    rw [h2]; simp [Result.construct]
  have hz3 : result.unexpected_aborts_
      = (reads.map fun o => o.sum_.unexpected_aborts_).sum := by
    rw [h3]; simp [Result.construct]
  have hz4 : result.largereadset_aborts_
      = (reads.map fun o => o.sum_.largereadset_aborts_).sum := by
    rw [h4]; simp [Result.construct]
  have hz5 : result.user_requested_aborts_
      = (reads.map fun o => o.sum_.user_requested_aborts_).sum := by
    rw [h5]; simp [Result.construct]
  have hz6 : result.snapshot_cache_hits_
      = (reads.map fun o => o.sum_.snapshot_cache_hits_).sum := by
    rw [h6]; simp [Result.construct]
  have hz7 : result.snapshot_cache_misses_
      = (reads.map fun o => o.sum_.snapshot_cache_misses_).sum := by
    rw [h7]; simp [Result.construct]
  refine ⟨result, hrun, hcount, hentries0, ⟨hz1, hz2, hz3, hz4, hz5, hz6, hz7⟩, ?_⟩
  intro hquiet
  have hmem : ∀ (i : Nat) (o : OutputReads), reads[i]? = some o → o.sum_ = o.entry_ :=
    fun i o h => hquiet o (List.getElem?_mem h)
  refine ⟨?_, ?_, ?_, ?_, ?_, ?_, ?_⟩
  · rw [hz1, map_take_eq_map result.workers_ reads WorkerResult.processed_
      (fun o => o.sum_.processed_)
      (fun i o h => ⟨_, hentries0 i o h, by simp only [hmem i o h]⟩)]
  · rw [hz2, map_take_eq_map result.workers_ reads WorkerResult.race_aborts_
      (fun o => o.sum_.race_aborts_)
      (fun i o h => ⟨_, hentries0 i o h, by simp only [hmem i o h]⟩)]
  · rw [hz3, map_take_eq_map result.workers_ reads WorkerResult.unexpected_aborts_
      (fun o => o.sum_.unexpected_aborts_)
      (fun i o h => ⟨_, hentries0 i o h, by simp only [hmem i o h]⟩)]
  · rw [hz4, map_take_eq_map result.workers_ reads WorkerResult.largereadset_aborts_
      (fun o => o.sum_.largereadset_aborts_)
      (fun i o h => ⟨_, hentries0 i o h, by simp only [hmem i o h]⟩)]
  · rw [hz5, map_take_eq_map result.workers_ reads WorkerResult.user_requested_aborts_
      (fun o => o.sum_.user_requested_aborts_)
      (fun i o h => ⟨_, hentries0 i o h, by simp only [hmem i o h]⟩)]
  · rw [hz6, map_take_eq_map result.workers_ reads WorkerResult.snapshot_cache_hits_
      (fun o => o.sum_.snapshot_cache_hits_)
      (fun i o h => ⟨_, hentries0 i o h, by simp only [hmem i o h]⟩)]
  · rw [hz7, map_take_eq_map result.workers_ reads WorkerResult.snapshot_cache_misses_
      (fun o => o.sum_.snapshot_cache_misses_)
      (fun i o h => ⟨_, hentries0 i o h, by simp only [hmem i o h]⟩)]

/-- Three sample workers that do not change their outputs during the loop, on
a result with 4 entries: worker 1 has its own counters under `id_ = 1`, 300
transactions were processed in all, and that is the sum of the three
entries. -/
theorem run_result_counters_witness :
    ∃ result, TpceDriver.run 4 3 sample_quiet_reads = Outcome.returns result
      ∧ result.workers_[1]?
          = some
              { id_ := 1, processed_ := 90, race_aborts_ := 5, unexpected_aborts_ := 1,
                largereadset_aborts_ := 0, user_requested_aborts_ := 2,
                snapshot_cache_hits_ := 7, snapshot_cache_misses_ := 6 }
      ∧ result.processed_ = 300
      ∧ result.race_aborts_ = 8
      ∧ result.processed_ = ((result.workers_.take 3).map WorkerResult.processed_).sum := by
  obtain ⟨result, hrun, _, hentries, ⟨h1, h2, _⟩, hquiet⟩ :=
    run_result_counters 4 3 sample_quiet_reads (by decide)
  exact ⟨result, hrun, hentries 1 _ rfl, h1, h2, (hquiet (by decide)).1⟩

/-- C21 as stated fails: one worker commits a transaction between the two
loads of its `processed_` counter (the first load sees 100, the second 101).
The returned `Result` has `workers_[0].processed_ = 100` and the aggregate
`processed_ = 101`, which is not the sum of the per-worker counter over all
sessions. -/
theorem run_result_aggregate_differs :
    ∃ result, TpceDriver.run 4 1 sample_racing_reads = Outcome.returns result
      ∧ (result.workers_.take 1).map WorkerResult.processed_ = [100]
      ∧ result.processed_ = 101
      ∧ result.processed_ ≠ ((result.workers_.take 1).map WorkerResult.processed_).sum := by
  refine ⟨_, rfl, ?_, ?_, ?_⟩ <;> decide

/-- C22, amended: `driver_main` turns a `hot_threshold` flag value down,
returning 1 without starting the engine, exactly when the value is greater
than 256. Every value of at most 256, negative values included, passes the
check: when the folders can be set up and the engine runs without error,
`driver_main` returns 0 having started the engine with
`options.storage_.hot_threshold_` assigned that value; and whenever the engine
was started, the flag was at most 256 and the option was assigned from it. -/
theorem driver_main_hot_threshold (flags : Flags) (env : Environment) :
    (256 < flags.hot_threshold →
        driver_main flags env = Outcome.returns { status := 1, engine_options := none })
      ∧ (flags.hot_threshold ≤ 256 →
          env.create_folder_ok = true →
          (flags.take_snapshot = true →
            env.nvm_folder_exists = true ∧ env.create_tpce_folder_ok = true) →
          env.engine_ok = true →
          driver_main flags env
            = Outcome.returns
                { status := 0
                  engine_options := some { hot_threshold_ := flags.hot_threshold } })
      ∧ (∀ (result : Exit) (options : EngineOptions),
          driver_main flags env = Outcome.returns result →
          result.engine_options = some options →
          flags.hot_threshold ≤ 256 ∧ options.hot_threshold_ = flags.hot_threshold) := by
  refine ⟨?_, ?_, ?_⟩
  · intro hbig
    unfold driver_main
    split_ifs <;> rfl
  · intro hsmall hfolder hsnapshot hengine
    have hnot : ¬ flags.hot_threshold > 256 := by omega
    cases htake : flags.take_snapshot
    · simp [driver_main, hfolder, htake, hnot, hengine]
    · obtain ⟨hnvm, htpce⟩ := hsnapshot htake
      simp [driver_main, hfolder, htake, hnvm, htpce, hnot, hengine]
  · intro result options hrun hoptions
    unfold driver_main at hrun
    split_ifs at hrun with h1 h2 h3 h4 h5
    all_goals first
      | (cases hrun; done)
      | (simp only [Outcome.returns.injEq] at hrun
         rw [← hrun] at hoptions
         simp only [Option.some.injEq, reduceCtorEq] at hoptions
         try (rw [← hoptions]; exact ⟨by omega, rfl⟩))

/-- The value 300 is turned down; the value 100 is accepted and assigned. -/
theorem driver_main_hot_threshold_witness :
    driver_main { take_snapshot := false, hot_threshold := 300 } sample_environment
        = Outcome.returns { status := 1, engine_options := none }
    ∧ driver_main { take_snapshot := false, hot_threshold := 100 } sample_environment
        = Outcome.returns
            { status := 0, engine_options := some { hot_threshold_ := 100 } } := by
  obtain ⟨h1, _, _⟩ := driver_main_hot_threshold
    { take_snapshot := false, hot_threshold := 300 } sample_environment
  obtain ⟨_, h2, _⟩ := driver_main_hot_threshold
    { take_snapshot := false, hot_threshold := 100 } sample_environment
  exact ⟨h1 (by decide), h2 (by decide) rfl (fun h => absurd h (by decide)) rfl⟩

/-- C22 as stated fails: the default value -1 of the flag lies outside 0..256,
yet `driver_main` does not return 1: it starts the engine with
`options.storage_.hot_threshold_` assigned from -1. -/
theorem driver_main_accepts_negative_threshold :
    Flags.default.hot_threshold = -1
    ∧ ¬ (0 ≤ Flags.default.hot_threshold ∧ Flags.default.hot_threshold ≤ 256)
    ∧ driver_main Flags.default sample_environment
        = Outcome.returns { status := 0, engine_options := some { hot_threshold_ := -1 } } := by
  decide

end foedus.tpce
